import Mathlib

/-!
# libsha2: SHA-NI compression engine, double-hash batch transform, byte-order utilities

Shallow embedding of `src/lib/sha256_shani.c` and `src/lib/common.c`.

* 32-bit words, bytes and 64-bit constants are natural numbers; every machine
  addition is followed by an explicit reduction modulo `2^32`.
* An `__m128i` register is the record `M128` of its four 32-bit lanes
  (`l0` = bits 0..31, `l3` = bits 96..127).  Byte- and word-granular
  intrinsics go through the little-endian byte image of the register.
* Input buffers are `Mem`: the bytes plus a log of the offsets of the 16-byte
  loads performed so far; a load outside the buffer yields `none`.
* The x86 intrinsics follow the Intel SDM pseudo-code.
-/

namespace LibSha2

/-! ## Bit-level helpers on 32-bit words -/

/-- Rotate a 32-bit word right by `n` bits (`ROR`). -/
def ror32 (x n : Nat) : Nat := ((x >>> n) ||| (x <<< (32 - n))) % 4294967296

/-- Bitwise complement of a 32-bit word. -/
def not32 (x : Nat) : Nat := (x % 4294967296) ^^^ 4294967295

/-- The function `Ch(E,F,G) = (E AND F) XOR ((NOT E) AND G)`. -/
def Ch (e f g : Nat) : Nat := (e &&& f) ^^^ (not32 e &&& g)

/-- The function `Maj(A,B,C) = (A AND B) XOR (A AND C) XOR (B AND C)`. -/
def Maj (a b c : Nat) : Nat := (a &&& b) ^^^ (a &&& c) ^^^ (b &&& c)

/-- Upper-case sigma 0: `(A ROR 2) XOR (A ROR 13) XOR (A ROR 22)`. -/
def Sigma0 (a : Nat) : Nat := ror32 a 2 ^^^ ror32 a 13 ^^^ ror32 a 22

/-- Upper-case sigma 1: `(E ROR 6) XOR (E ROR 11) XOR (E ROR 25)`. -/
def Sigma1 (e : Nat) : Nat := ror32 e 6 ^^^ ror32 e 11 ^^^ ror32 e 25

/-- Lower-case sigma 0: `(W ROR 7) XOR (W ROR 18) XOR (W SHR 3)`. -/
def sigma0 (w : Nat) : Nat := ror32 w 7 ^^^ ror32 w 18 ^^^ (w >>> 3)

/-- Lower-case sigma 1: `(W ROR 17) XOR (W ROR 19) XOR (W SHR 10)`. -/
def sigma1 (w : Nat) : Nat := ror32 w 17 ^^^ ror32 w 19 ^^^ (w >>> 10)

/-! ## The 128-bit register model -/

/-- An `__m128i` value as four 32-bit lanes, `l0` the least significant. -/
structure M128 where
  l0 : Nat
  l1 : Nat
  l2 : Nat
  l3 : Nat
deriving DecidableEq

/-- All four lanes are 32-bit values. -/
def M128.wf (v : M128) : Prop :=
  v.l0 < 4294967296 ∧ v.l1 < 4294967296 ∧ v.l2 < 4294967296 ∧ v.l3 < 4294967296

instance (v : M128) : Decidable v.wf := by
  unfold M128.wf
  infer_instance

/-- Lane `i` of a register (0 for an index outside 0..3). -/
def M128.lane (v : M128) (i : Nat) : Nat := [v.l0, v.l1, v.l2, v.l3].getD i 0

/-- The four little-endian bytes of a 32-bit word as stored in x86 memory. -/
def le32Bytes (x : Nat) : List Nat :=
  [x % 256, x / 256 % 256, x / 65536 % 256, x / 16777216 % 256]

/-- The 32-bit word stored little-endian at byte index `i` of `bs`. -/
def le32At (bs : List Nat) (i : Nat) : Nat :=
  bs.getD i 0 + 256 * bs.getD (i + 1) 0 + 65536 * bs.getD (i + 2) 0 + 16777216 * bs.getD (i + 3) 0

/-- The 16-byte memory image of a register (byte 0 first). -/
def M128.bytes (v : M128) : List Nat :=
  le32Bytes v.l0 ++ le32Bytes v.l1 ++ le32Bytes v.l2 ++ le32Bytes v.l3

/-- The register whose memory image is the 16 bytes `bs`. -/
def M128.ofBytes (bs : List Nat) : M128 :=
  ⟨le32At bs 0, le32At bs 4, le32At bs 8, le32At bs 12⟩

/-- The eight 16-bit words of a register (word 0 first). -/
def M128.words16 (v : M128) : List Nat :=
  [v.l0 % 65536, v.l0 / 65536 % 65536, v.l1 % 65536, v.l1 / 65536 % 65536,
   v.l2 % 65536, v.l2 / 65536 % 65536, v.l3 % 65536, v.l3 / 65536 % 65536]

/-- The register made of eight 16-bit words. -/
def M128.ofWords16 (ws : List Nat) : M128 :=
  ⟨ws.getD 0 0 + 65536 * ws.getD 1 0, ws.getD 2 0 + 65536 * ws.getD 3 0,
   ws.getD 4 0 + 65536 * ws.getD 5 0, ws.getD 6 0 + 65536 * ws.getD 7 0⟩

/-! ## Intrinsics (Intel SDM semantics) -/

/-- Intrinsic `_mm_loadu_si128` / `_mm_load_si128`: read a register from its 16-byte memory image. -/
def _mm_loadu_si128 (bs : List Nat) : M128 := M128.ofBytes bs

/-- Intrinsic `_mm_storeu_si128`: the 16-byte memory image written for a register. -/
def _mm_storeu_si128 (v : M128) : List Nat := v.bytes

/-- Intrinsic `_mm_set_epi64x(e1, e0)`: `e0` in bits 0..63, `e1` in bits 64..127. -/
def _mm_set_epi64x (e1 e0 : Nat) : M128 :=
  ⟨e0 % 4294967296, e0 / 4294967296 % 4294967296,
   e1 % 4294967296, e1 / 4294967296 % 4294967296⟩

/-- Intrinsic `_mm_add_epi32`: lane-wise addition modulo `2^32`. -/
def _mm_add_epi32 (a b : M128) : M128 :=
  ⟨(a.l0 + b.l0) % 4294967296, (a.l1 + b.l1) % 4294967296,
   (a.l2 + b.l2) % 4294967296, (a.l3 + b.l3) % 4294967296⟩

/-- Intrinsic `_mm_shuffle_epi32(a, imm)`: lane `i` of the result is lane `imm[2i+1:2i]` of `a`. -/
def _mm_shuffle_epi32 (a : M128) (imm : Nat) : M128 :=
  ⟨a.lane (imm % 4), a.lane (imm / 4 % 4), a.lane (imm / 16 % 4), a.lane (imm / 64 % 4)⟩

/-- Intrinsic `_mm_shuffle_epi8(a, mask)`: byte `i` of the result is 0 when bit 7 of mask byte `i`
is set, and byte `mask[i] & 15` of `a` otherwise. -/
def _mm_shuffle_epi8 (a mask : M128) : M128 :=
  M128.ofBytes (mask.bytes.map (fun m => if 128 ≤ m then 0 else a.bytes.getD (m % 16) 0))

/-- Intrinsic `_mm_alignr_epi8(a, b, imm)`: the 32-byte value `a:b` shifted right by `imm` bytes,
low 16 bytes kept. -/
def _mm_alignr_epi8 (a b : M128) (imm : Nat) : M128 :=
  M128.ofBytes (((b.bytes ++ a.bytes ++ List.replicate 16 0).drop imm).take 16)

/-- Intrinsic `_mm_blend_epi16(a, b, imm)`: 16-bit word `j` comes from `b` when bit `j` of `imm`
is set, from `a` otherwise. -/
def _mm_blend_epi16 (a b : M128) (imm : Nat) : M128 :=
  M128.ofWords16 ((List.range 8).map (fun j =>
    if imm / 2 ^ j % 2 = 1 then b.words16.getD j 0 else a.words16.getD j 0))

/-- Intrinsic `_mm_sha256rnds2_epu32(a, b, k)`: two SHA-256 rounds.  `a` holds `(C,D,G,H)`
(SRC1), `b` holds `(A,B,E,F)` (SRC2) from lane 3 down to lane 0, and the low two
lanes of `k` hold the two `W+K` values. -/
def _mm_sha256rnds2_epu32 (a b k : M128) : M128 :=
  let a0 := b.l3
  let b0 := b.l2
  let c0 := a.l3
  let d0 := a.l2
  let e0 := b.l1
  let f0 := b.l0
  let g0 := a.l1
  let h0 := a.l0
  let wk0 := k.l0
  let wk1 := k.l1
  let a1 := (Ch e0 f0 g0 + Sigma1 e0 + wk0 + h0 + Maj a0 b0 c0 + Sigma0 a0) % 4294967296
  let e1 := (Ch e0 f0 g0 + Sigma1 e0 + wk0 + h0 + d0) % 4294967296
  let a2 := (Ch e1 e0 f0 + Sigma1 e1 + wk1 + g0 + Maj a1 a0 b0 + Sigma0 a1) % 4294967296
  let e2 := (Ch e1 e0 f0 + Sigma1 e1 + wk1 + g0 + c0) % 4294967296
  ⟨e1, e2, a1, a2⟩

/-- Intrinsic `_mm_sha256msg1_epu32(a, b)`: lane `i` is `W_i + sigma0(W_{i+1})` with
`W0..W3 = a` and `W4 = b[31:0]`. -/
def _mm_sha256msg1_epu32 (a b : M128) : M128 :=
  ⟨(a.l0 + sigma0 a.l1) % 4294967296, (a.l1 + sigma0 a.l2) % 4294967296,
   (a.l2 + sigma0 a.l3) % 4294967296, (a.l3 + sigma0 b.l0) % 4294967296⟩

/-- Intrinsic `_mm_sha256msg2_epu32(a, b)`: `W16 = a0 + sigma1(W14)`, `W17 = a1 + sigma1(W15)`,
`W18 = a2 + sigma1(W16)`, `W19 = a3 + sigma1(W17)` with `W14 = b[95:64]`, `W15 = b[127:96]`. -/
def _mm_sha256msg2_epu32 (a b : M128) : M128 :=
  let w16 := (a.l0 + sigma1 b.l2) % 4294967296
  let w17 := (a.l1 + sigma1 b.l3) % 4294967296
  let w18 := (a.l2 + sigma1 w16) % 4294967296
  let w19 := (a.l3 + sigma1 w17) % 4294967296
  ⟨w16, w17, w18, w19⟩

/-! ## `sha256_shani.c`: constants and helpers -/

/-- Byte-shuffle mask reversing the bytes of each 32-bit lane. -/
def MASK : List Nat :=
  [0x03, 0x02, 0x01, 0x00, 0x07, 0x06, 0x05, 0x04, 0x0b, 0x0a, 0x09, 0x08, 0x0f, 0x0e, 0x0d, 0x0c]

/-- Memory image of the first working-state register for the initial hash value. -/
def INIT0 : List Nat :=
  [0x8c, 0x68, 0x05, 0x9b, 0x7f, 0x52, 0x0e, 0x51, 0x85, 0xae, 0x67, 0xbb, 0x67, 0xe6, 0x09, 0x6a]

/-- Memory image of the second working-state register for the initial hash value. -/
def INIT1 : List Nat :=
  [0x19, 0xcd, 0xe0, 0x5b, 0xab, 0xd9, 0x83, 0x1f, 0x3a, 0xf5, 0x4f, 0xa5, 0x72, 0xf3, 0x6e, 0x3c]

/-- Aligned register load `_mm_load_si128`; same value semantics as the unaligned load. -/
def _mm_load_si128 (bs : List Nat) : M128 := M128.ofBytes bs

/-- Four rounds without message words: `QuadRound(&state0, &state1, k1, k0)`.
The pair is `(state0, state1)`. -/
def QuadRound (st : M128 × M128) (k1 k0 : Nat) : M128 × M128 :=
  let msg := _mm_set_epi64x k1 k0
  let state1 := _mm_sha256rnds2_epu32 st.2 st.1 msg
  let state0 := _mm_sha256rnds2_epu32 st.1 state1 (_mm_shuffle_epi32 msg 0x0e)
  (state0, state1)

/-- Four rounds with message vector `m`: `QuadRound2(&state0, &state1, m, k1, k0)`. -/
def QuadRound2 (st : M128 × M128) (m : M128) (k1 k0 : Nat) : M128 × M128 :=
  let msg := _mm_add_epi32 m (_mm_set_epi64x k1 k0)
  let state1 := _mm_sha256rnds2_epu32 st.2 st.1 msg
  let state0 := _mm_sha256rnds2_epu32 st.1 state1 (_mm_shuffle_epi32 msg 0x0e)
  (state0, state1)

/-- New value of `*m0` after `ShiftMessageA(&m0, m1)`. -/
def ShiftMessageA (m0 m1 : M128) : M128 :=
  _mm_sha256msg1_epu32 m0 m1

/-- New value of `*m2` after `ShiftMessageC(&m0, m1, &m2)`. -/
def ShiftMessageC (m0 m1 m2 : M128) : M128 :=
  _mm_sha256msg2_epu32 (_mm_add_epi32 m2 (_mm_alignr_epi8 m1 m0 4)) m1

/-- New values of `(*m0, *m2)` after `ShiftMessageB(&m0, m1, &m2)`. -/
def ShiftMessageB (m0 m1 m2 : M128) : M128 × M128 :=
  let m2 := ShiftMessageC m0 m1 m2
  let m0 := ShiftMessageA m0 m1
  (m0, m2)

/-- New values of `(*s0, *s1)` after `Shuffle(&s0, &s1)`. -/
def Shuffle (s : M128 × M128) : M128 × M128 :=
  let t1 := _mm_shuffle_epi32 s.1 0xB1
  let t2 := _mm_shuffle_epi32 s.2 0x1B
  (_mm_alignr_epi8 t1 t2 0x08, _mm_blend_epi16 t2 t1 0xF0)

/-- New values of `(*s0, *s1)` after `Unshuffle(&s0, &s1)`. -/
def Unshuffle (s : M128 × M128) : M128 × M128 :=
  let t1 := _mm_shuffle_epi32 s.1 0x1B
  let t2 := _mm_shuffle_epi32 s.2 0xB1
  (_mm_blend_epi16 t1 t2 0xF0, _mm_alignr_epi8 t2 t1 0x08)

/-- A read-only input buffer and the log of the offsets of the 16-byte loads made from it. -/
structure Mem where
  bytes : List Nat
  reads : List Nat
deriving DecidableEq

/-- The function `Load(in)` with `in` the byte offset `p` into the buffer: copy 16 bytes,
then reverse the bytes of every lane.  Fails when the 16 bytes are not all inside the buffer. -/
def Load (p : Nat) : StateT Mem Option M128 := fun mem =>
  if p + 16 ≤ mem.bytes.length then
    some (_mm_shuffle_epi8 (_mm_loadu_si128 ((mem.bytes.drop p).take 16)) (_mm_load_si128 MASK),
          { mem with reads := mem.reads ++ [p] })
  else none

/-- The function `Save(out + p, s)`: reverse the bytes of every lane and copy the 16 bytes
to offset `p` of the output buffer.  Fails when the 16 bytes do not fit. -/
def Save (out : List Nat) (p : Nat) (s : M128) : Option (List Nat) :=
  if p + 16 ≤ out.length then
    some (out.take p ++ _mm_storeu_si128 (_mm_shuffle_epi8 s (_mm_load_si128 MASK)) ++
          out.drop (p + 16))
  else none

/-- The hash state `uint32_t s[8]`. -/
structure State where
  a : Nat
  b : Nat
  c : Nat
  d : Nat
  e : Nat
  f : Nat
  g : Nat
  h : Nat
deriving DecidableEq

/-- All eight words are 32-bit values. -/
def State.wf (s : State) : Prop :=
  s.a < 4294967296 ∧ s.b < 4294967296 ∧ s.c < 4294967296 ∧ s.d < 4294967296 ∧
  s.e < 4294967296 ∧ s.f < 4294967296 ∧ s.g < 4294967296 ∧ s.h < 4294967296

instance (s : State) : Decidable s.wf := by
  unfold State.wf
  infer_instance

/-! ## `transform_sha256_shani` -/

/-- One iteration of the `while (blocks--)` loop with `chunk` the current offset:
the pair `st` is `(s0, s1)` and the result is the pair after the feed-forward. -/
def loopBody (chunk : Nat) (st : M128 × M128) : StateT Mem Option (M128 × M128) := do
  let so := st
  let m0 ← Load chunk
  let st := QuadRound2 st m0 0xe9b5dba5b5c0fbcf 0x71374491428a2f98
  let m1 ← Load (chunk + 16)
  let st := QuadRound2 st m1 0xab1c5ed5923f82a4 0x59f111f13956c25b
  let m0 := ShiftMessageA m0 m1
  let m2 ← Load (chunk + 32)
  let st := QuadRound2 st m2 0x550c7dc3243185be 0x12835b01d807aa98
  let m1 := ShiftMessageA m1 m2
  let m3 ← Load (chunk + 48)
  let st := QuadRound2 st m3 0xc19bf1749bdc06a7 0x80deb1fe72be5d74
  let (m2, m0) := ShiftMessageB m2 m3 m0
  let st := QuadRound2 st m0 0x240ca1cc0fc19dc6 0xefbe4786E49b69c1
  let (m3, m1) := ShiftMessageB m3 m0 m1
  let st := QuadRound2 st m1 0x76f988da5cb0a9dc 0x4a7484aa2de92c6f
  let (m0, m2) := ShiftMessageB m0 m1 m2
  let st := QuadRound2 st m2 0xbf597fc7b00327c8 0xa831c66d983e5152
  let (m1, m3) := ShiftMessageB m1 m2 m3
  let st := QuadRound2 st m3 0x1429296706ca6351 0xd5a79147c6e00bf3
  let (m2, m0) := ShiftMessageB m2 m3 m0
  let st := QuadRound2 st m0 0x53380d134d2c6dfc 0x2e1b213827b70a85
  let (m3, m1) := ShiftMessageB m3 m0 m1
  let st := QuadRound2 st m1 0x92722c8581c2c92e 0x766a0abb650a7354
  let (m0, m2) := ShiftMessageB m0 m1 m2
  let st := QuadRound2 st m2 0xc76c51A3c24b8b70 0xa81a664ba2bfe8a1
  let (m1, m3) := ShiftMessageB m1 m2 m3
  let st := QuadRound2 st m3 0x106aa070f40e3585 0xd6990624d192e819
  let (m2, m0) := ShiftMessageB m2 m3 m0
  let st := QuadRound2 st m0 0x34b0bcb52748774c 0x1e376c0819a4c116
  let (m3, m1) := ShiftMessageB m3 m0 m1
  let st := QuadRound2 st m1 0x682e6ff35b9cca4f 0x4ed8aa4a391c0cb3
  let m2 := ShiftMessageC m0 m1 m2
  let st := QuadRound2 st m2 0x8cc7020884c87814 0x78a5636f748f82ee
  let m3 := ShiftMessageC m1 m2 m3
  let st := QuadRound2 st m3 0xc67178f2bef9A3f7 0xa4506ceb90befffa
  let st := (_mm_add_epi32 st.1 so.1, _mm_add_epi32 st.2 so.2)
  return st

/-- The loop `while (blocks--) { ...; chunk += 64; }`. -/
def whileBlocks : Nat → Nat → M128 × M128 → StateT Mem Option (M128 × M128)
  | 0, _, st => pure st
  | blocks + 1, chunk, st => do
    let st ← loopBody chunk st
    whileBlocks blocks (chunk + 64) st

/-- The function `transform_sha256_shani(s, chunk, blocks)`; `chunk` is the offset of the
first block in the input buffer and the result is the new contents of `s`. -/
def transform_sha256_shani (s : State) (chunk : Nat) (blocks : Nat) : StateT Mem Option State := do
  let m := le32Bytes s.a ++ le32Bytes s.b ++ le32Bytes s.c ++ le32Bytes s.d
  let s0 := _mm_loadu_si128 m
  let m := le32Bytes s.e ++ le32Bytes s.f ++ le32Bytes s.g ++ le32Bytes s.h
  let s1 := _mm_loadu_si128 m
  let st := Shuffle (s0, s1)
  let st ← whileBlocks blocks chunk st
  let st := Unshuffle st
  let m0 := _mm_storeu_si128 st.1
  let m1 := _mm_storeu_si128 st.2
  return ⟨le32At m0 0, le32At m0 4, le32At m0 8, le32At m0 12,
          le32At m1 0, le32At m1 4, le32At m1 8, le32At m1 12⟩

/-! ## `transform_sha256d64_shani_2way` -/

/-- Modelled from the spec: the size in bytes of `struct sha256`, declared in
`sha2/sha256.h` (not in the sources); the spec gives 32-byte inputs and 32-byte digests. -/
def sizeof_sha256 : Nat := 32

/-- Stage "Transform 1" of `transform_sha256d64_shani_2way`: both lanes compress their
64-byte message from the initial state.  The pairs `ast`, `bst` are `(as0, as1)`, `(bs0, bs1)`. -/
def d64Transform1 (inp : Nat) : StateT Mem Option ((M128 × M128) × (M128 × M128)) := do
  let ast := (_mm_load_si128 INIT0, _mm_load_si128 INIT1)
  let bst := ast
  let am0 ← Load (inp + sizeof_sha256 * 0 + 0)
  let bm0 ← Load (inp + sizeof_sha256 * 2 + 0)
  let ast := QuadRound2 ast am0 0xe9b5dba5b5c0fbcf 0x71374491428a2f98
  let bst := QuadRound2 bst bm0 0xe9b5dba5b5c0fbcf 0x71374491428a2f98
  let am1 ← Load (inp + sizeof_sha256 * 0 + 16)
  let bm1 ← Load (inp + sizeof_sha256 * 2 + 16)
  let ast := QuadRound2 ast am1 0xab1c5ed5923f82a4 0x59f111f13956c25b
  let bst := QuadRound2 bst bm1 0xab1c5ed5923f82a4 0x59f111f13956c25b
  let am0 := ShiftMessageA am0 am1
  let bm0 := ShiftMessageA bm0 bm1
  let am2 ← Load (inp + sizeof_sha256 * 1 + 0)
  let bm2 ← Load (inp + sizeof_sha256 * 3 + 0)
  let ast := QuadRound2 ast am2 0x550c7dc3243185be 0x12835b01d807aa98
  let bst := QuadRound2 bst bm2 0x550c7dc3243185be 0x12835b01d807aa98
  let am1 := ShiftMessageA am1 am2
  let bm1 := ShiftMessageA bm1 bm2
  let am3 ← Load (inp + sizeof_sha256 * 1 + 16)
  let bm3 ← Load (inp + sizeof_sha256 * 3 + 16)
  let ast := QuadRound2 ast am3 0xc19bf1749bdc06a7 0x80deb1fe72be5d74
  let bst := QuadRound2 bst bm3 0xc19bf1749bdc06a7 0x80deb1fe72be5d74
  let (am2, am0) := ShiftMessageB am2 am3 am0
  let (bm2, bm0) := ShiftMessageB bm2 bm3 bm0
  let ast := QuadRound2 ast am0 0x240ca1cc0fc19dc6 0xefbe4786E49b69c1
  let bst := QuadRound2 bst bm0 0x240ca1cc0fc19dc6 0xefbe4786E49b69c1
  let (am3, am1) := ShiftMessageB am3 am0 am1
  let (bm3, bm1) := ShiftMessageB bm3 bm0 bm1
  let ast := QuadRound2 ast am1 0x76f988da5cb0a9dc 0x4a7484aa2de92c6f
  let bst := QuadRound2 bst bm1 0x76f988da5cb0a9dc 0x4a7484aa2de92c6f
  let (am0, am2) := ShiftMessageB am0 am1 am2
  let (bm0, bm2) := ShiftMessageB bm0 bm1 bm2
  let ast := QuadRound2 ast am2 0xbf597fc7b00327c8 0xa831c66d983e5152
  let bst := QuadRound2 bst bm2 0xbf597fc7b00327c8 0xa831c66d983e5152
  let (am1, am3) := ShiftMessageB am1 am2 am3
  let (bm1, bm3) := ShiftMessageB bm1 bm2 bm3
  let ast := QuadRound2 ast am3 0x1429296706ca6351 0xd5a79147c6e00bf3
  let bst := QuadRound2 bst bm3 0x1429296706ca6351 0xd5a79147c6e00bf3
  let (am2, am0) := ShiftMessageB am2 am3 am0
  let (bm2, bm0) := ShiftMessageB bm2 bm3 bm0
  let ast := QuadRound2 ast am0 0x53380d134d2c6dfc 0x2e1b213827b70a85
  let bst := QuadRound2 bst bm0 0x53380d134d2c6dfc 0x2e1b213827b70a85
  let (am3, am1) := ShiftMessageB am3 am0 am1
  let (bm3, bm1) := ShiftMessageB bm3 bm0 bm1
  let ast := QuadRound2 ast am1 0x92722c8581c2c92e 0x766a0abb650a7354
  let bst := QuadRound2 bst bm1 0x92722c8581c2c92e 0x766a0abb650a7354
  let (am0, am2) := ShiftMessageB am0 am1 am2
  let (bm0, bm2) := ShiftMessageB bm0 bm1 bm2
  let ast := QuadRound2 ast am2 0xc76c51A3c24b8b70 0xa81a664ba2bfe8a1
  let bst := QuadRound2 bst bm2 0xc76c51A3c24b8b70 0xa81a664ba2bfe8a1
  let (am1, am3) := ShiftMessageB am1 am2 am3
  let (bm1, bm3) := ShiftMessageB bm1 bm2 bm3
  let ast := QuadRound2 ast am3 0x106aa070f40e3585 0xd6990624d192e819
  let bst := QuadRound2 bst bm3 0x106aa070f40e3585 0xd6990624d192e819
  let (am2, am0) := ShiftMessageB am2 am3 am0
  let (bm2, bm0) := ShiftMessageB bm2 bm3 bm0
  let ast := QuadRound2 ast am0 0x34b0bcb52748774c 0x1e376c0819a4c116
  let bst := QuadRound2 bst bm0 0x34b0bcb52748774c 0x1e376c0819a4c116
  let (am3, am1) := ShiftMessageB am3 am0 am1
  let (bm3, bm1) := ShiftMessageB bm3 bm0 bm1
  let ast := QuadRound2 ast am1 0x682e6ff35b9cca4f 0x4ed8aa4a391c0cb3
  let bst := QuadRound2 bst bm1 0x682e6ff35b9cca4f 0x4ed8aa4a391c0cb3
  let am2 := ShiftMessageC am0 am1 am2
  let bm2 := ShiftMessageC bm0 bm1 bm2
  let ast := QuadRound2 ast am2 0x8cc7020884c87814 0x78a5636f748f82ee
  let bst := QuadRound2 bst bm2 0x8cc7020884c87814 0x78a5636f748f82ee
  let am3 := ShiftMessageC am1 am2 am3
  let bm3 := ShiftMessageC bm1 bm2 bm3
  let ast := QuadRound2 ast am3 0xc67178f2bef9A3f7 0xa4506ceb90befffa
  let bst := QuadRound2 bst bm3 0xc67178f2bef9A3f7 0xa4506ceb90befffa
  let ast := (_mm_add_epi32 ast.1 (_mm_load_si128 INIT0), _mm_add_epi32 ast.2 (_mm_load_si128 INIT1))
  let bst := (_mm_add_epi32 bst.1 (_mm_load_si128 INIT0), _mm_add_epi32 bst.2 (_mm_load_si128 INIT1))
  return (ast, bst)

/-- Stage "Transform 2" of `transform_sha256d64_shani_2way`: sixteen message-free quad-rounds
per lane and the feed-forward of the saved state. -/
def d64Transform2 (ast bst : M128 × M128) : (M128 × M128) × (M128 × M128) :=
  let aso := ast
  let bso := bst
  let ast := QuadRound ast 0xe9b5dba5b5c0fbcf 0x71374491c28a2f98
  let bst := QuadRound bst 0xe9b5dba5b5c0fbcf 0x71374491c28a2f98
  let ast := QuadRound ast 0xab1c5ed5923f82a4 0x59f111f13956c25b
  let bst := QuadRound bst 0xab1c5ed5923f82a4 0x59f111f13956c25b
  let ast := QuadRound ast 0x550c7dc3243185be 0x12835b01d807aa98
  let bst := QuadRound bst 0x550c7dc3243185be 0x12835b01d807aa98
  let ast := QuadRound ast 0xc19bf3749bdc06a7 0x80deb1fe72be5d74
  let bst := QuadRound bst 0xc19bf3749bdc06a7 0x80deb1fe72be5d74
  let ast := QuadRound ast 0x240cf2540fe1edc6 0xf0fe4786649b69c1
  let bst := QuadRound bst 0x240cf2540fe1edc6 0xf0fe4786649b69c1
  let ast := QuadRound ast 0x16f988fa61b9411e 0x6cc984be4fe9346f
  let bst := QuadRound bst 0x16f988fa61b9411e 0x6cc984be4fe9346f
  let ast := QuadRound ast 0xb9d99ec7b019fc65 0xa88e5a6df2c65152
  let bst := QuadRound bst 0xb9d99ec7b019fc65 0xa88e5a6df2c65152
  let ast := QuadRound ast 0xc7353eb0fdb1232b 0xe70eeaa09a1231c3
  let bst := QuadRound bst 0xc7353eb0fdb1232b 0xe70eeaa09a1231c3
  let ast := QuadRound ast 0xdc1eeefd5a0f118f 0xcb976d5f3069bad5
  let bst := QuadRound bst 0xdc1eeefd5a0f118f 0xcb976d5f3069bad5
  let ast := QuadRound ast 0xe15d5b1658f4ca9d 0xde0b7a040a35b689
  let bst := QuadRound bst 0xe15d5b1658f4ca9d 0xde0b7a040a35b689
  let ast := QuadRound ast 0x6fab9537a507ea32 0x37088980007f3e86
  let bst := QuadRound bst 0x6fab9537a507ea32 0x37088980007f3e86
  let ast := QuadRound ast 0xc0bbbe37cdaa3b6d 0x0d8cd6f117406110
  let bst := QuadRound bst 0xc0bbbe37cdaa3b6d 0x0d8cd6f117406110
  let ast := QuadRound ast 0x6fd15ca70b02e931 0xdb48a36383613bda
  let bst := QuadRound bst 0x6fd15ca70b02e931 0xdb48a36383613bda
  let ast := QuadRound ast 0x6d4378906ed41a95 0x31338431521afaca
  let bst := QuadRound bst 0x6d4378906ed41a95 0x31338431521afaca
  let ast := QuadRound ast 0x532fb63cb5c9a0e6 0x9eccabbdc39c91f2
  let bst := QuadRound bst 0x532fb63cb5c9a0e6 0x9eccabbdc39c91f2
  let ast := QuadRound ast 0x4c191d76a4954b68 0x07237ea3d2c741c6
  let bst := QuadRound bst 0x4c191d76a4954b68 0x07237ea3d2c741c6
  let ast := (_mm_add_epi32 ast.1 aso.1, _mm_add_epi32 ast.2 aso.2)
  let bst := (_mm_add_epi32 bst.1 bso.1, _mm_add_epi32 bst.2 bso.2)
  (ast, bst)

/-- Stages "Extract hash" and "Transform 3" of `transform_sha256d64_shani_2way`. -/
def d64Transform3 (ast bst : M128 × M128) : (M128 × M128) × (M128 × M128) :=
  let ast := Unshuffle ast
  let bst := Unshuffle bst
  let am0 := ast.1
  let bm0 := bst.1
  let am1 := ast.2
  let bm1 := bst.2
  let ast := (_mm_load_si128 INIT0, _mm_load_si128 INIT1)
  let bst := ast
  let ast := QuadRound2 ast am0 0xe9b5dba5B5c0fbcf 0x71374491428a2f98
  let bst := QuadRound2 bst bm0 0xe9b5dba5B5c0fbcf 0x71374491428a2f98
  let ast := QuadRound2 ast am1 0xab1c5ed5923f82a4 0x59f111f13956c25b
  let bst := QuadRound2 bst bm1 0xab1c5ed5923f82a4 0x59f111f13956c25b
  let am0 := ShiftMessageA am0 am1
  let bm0 := ShiftMessageA bm0 bm1
  let am2 := _mm_set_epi64x 0x0 0x80000000
  let bm2 := am2
  let ast := QuadRound ast 0x550c7dc3243185be 0x12835b015807aa98
  let bst := QuadRound bst 0x550c7dc3243185be 0x12835b015807aa98
  let am1 := ShiftMessageA am1 am2
  let bm1 := ShiftMessageA bm1 bm2
  let am3 := _mm_set_epi64x 0x10000000000 0x0
  let bm3 := am3
  let ast := QuadRound ast 0xc19bf2749bdc06a7 0x80deb1fe72be5d74
  let bst := QuadRound bst 0xc19bf2749bdc06a7 0x80deb1fe72be5d74
  let (am2, am0) := ShiftMessageB am2 am3 am0
  let (bm2, bm0) := ShiftMessageB bm2 bm3 bm0
  let ast := QuadRound2 ast am0 0x240ca1cc0fc19dc6 0xefbe4786e49b69c1
  let bst := QuadRound2 bst bm0 0x240ca1cc0fc19dc6 0xefbe4786e49b69c1
  let (am3, am1) := ShiftMessageB am3 am0 am1
  let (bm3, bm1) := ShiftMessageB bm3 bm0 bm1
  let ast := QuadRound2 ast am1 0x76f988da5cb0a9dc 0x4a7484aa2de92c6f
  let bst := QuadRound2 bst bm1 0x76f988da5cb0a9dc 0x4a7484aa2de92c6f
  let (am0, am2) := ShiftMessageB am0 am1 am2
  let (bm0, bm2) := ShiftMessageB bm0 bm1 bm2
  let ast := QuadRound2 ast am2 0xbf597fc7b00327c8 0xa831c66d983e5152
  let bst := QuadRound2 bst bm2 0xbf597fc7b00327c8 0xa831c66d983e5152
  let (am1, am3) := ShiftMessageB am1 am2 am3
  let (bm1, bm3) := ShiftMessageB bm1 bm2 bm3
  let ast := QuadRound2 ast am3 0x1429296706ca6351 0xd5a79147c6e00bf3
  let bst := QuadRound2 bst bm3 0x1429296706ca6351 0xd5a79147c6e00bf3
  let (am2, am0) := ShiftMessageB am2 am3 am0
  let (bm2, bm0) := ShiftMessageB bm2 bm3 bm0
  let ast := QuadRound2 ast am0 0x53380d134d2c6dfc 0x2e1b213827b70a85
  let bst := QuadRound2 bst bm0 0x53380d134d2c6dfc 0x2e1b213827b70a85
  let (am3, am1) := ShiftMessageB am3 am0 am1
  let (bm3, bm1) := ShiftMessageB bm3 bm0 bm1
  let ast := QuadRound2 ast am1 0x92722c8581c2c92e 0x766a0abb650a7354
  let bst := QuadRound2 bst bm1 0x92722c8581c2c92e 0x766a0abb650a7354
  let (am0, am2) := ShiftMessageB am0 am1 am2
  let (bm0, bm2) := ShiftMessageB bm0 bm1 bm2
  let ast := QuadRound2 ast am2 0xc76c51a3c24b8b70 0xa81a664ba2bfe8A1
  let bst := QuadRound2 bst bm2 0xc76c51a3c24b8b70 0xa81a664ba2bfe8A1
  let (am1, am3) := ShiftMessageB am1 am2 am3
  let (bm1, bm3) := ShiftMessageB bm1 bm2 bm3
  let ast := QuadRound2 ast am3 0x106aa070f40e3585 0xd6990624d192e819
  let bst := QuadRound2 bst bm3 0x106aa070f40e3585 0xd6990624d192e819
  let (am2, am0) := ShiftMessageB am2 am3 am0
  let (bm2, bm0) := ShiftMessageB bm2 bm3 bm0
  let ast := QuadRound2 ast am0 0x34b0bcb52748774c 0x1e376c0819a4c116
  let bst := QuadRound2 bst bm0 0x34b0bcb52748774c 0x1e376c0819a4c116
  let (am3, am1) := ShiftMessageB am3 am0 am1
  let (bm3, bm1) := ShiftMessageB bm3 bm0 bm1
  let ast := QuadRound2 ast am1 0x682e6ff35b9cca4f 0x4ed8aa4a391c0cb3
  let bst := QuadRound2 bst bm1 0x682e6ff35b9cca4f 0x4ed8aa4a391c0cb3
  let am2 := ShiftMessageC am0 am1 am2
  let bm2 := ShiftMessageC bm0 bm1 bm2
  let ast := QuadRound2 ast am2 0x8cc7020884c87814 0x78a5636f748f82ee
  let bst := QuadRound2 bst bm2 0x8cc7020884c87814 0x78a5636f748f82ee
  let am3 := ShiftMessageC am1 am2 am3
  let bm3 := ShiftMessageC bm1 bm2 bm3
  let ast := QuadRound2 ast am3 0xc67178f2bef9a3f7 0xa4506ceb90befffa
  let bst := QuadRound2 bst bm3 0xc67178f2bef9a3f7 0xa4506ceb90befffa
  let ast := (_mm_add_epi32 ast.1 (_mm_load_si128 INIT0), _mm_add_epi32 ast.2 (_mm_load_si128 INIT1))
  let bst := (_mm_add_epi32 bst.1 (_mm_load_si128 INIT0), _mm_add_epi32 bst.2 (_mm_load_si128 INIT1))
  (ast, bst)

/-- Stage "Extract hash into out" of `transform_sha256d64_shani_2way`: the new contents of
the 64-byte output buffer `out` (`out[0]` at offset 0, `out[1]` at offset 32). -/
def d64Extract (out : List Nat) (ast bst : M128 × M128) : Option (List Nat) := do
  let ast := Unshuffle ast
  let bst := Unshuffle bst
  let out ← Save out (sizeof_sha256 * 0 + 0) ast.1
  let out ← Save out (sizeof_sha256 * 0 + 16) ast.2
  let out ← Save out (sizeof_sha256 * 1 + 0) bst.1
  let out ← Save out (sizeof_sha256 * 1 + 16) bst.2
  return out

/-- The function `transform_sha256d64_shani_2way(out, in)`: `inp` is the offset of `in[0]`
in the input buffer, `out` the output buffer of two `struct sha256`;
the result is the new output buffer.  The body is the sequence of its four stages. -/
def transform_sha256d64_shani_2way (out : List Nat) (inp : Nat) : StateT Mem Option (List Nat) := do
  let (ast, bst) ← d64Transform1 inp
  let (ast, bst) := d64Transform2 ast bst
  let (ast, bst) := d64Transform3 ast bst
  d64Extract out ast bst

/-! ## Reference: FIPS 180-4 SHA-256 (written from the standard, not from the code) -/

namespace FIPS

/-- The 64 round constants `K_0 .. K_63` (FIPS 180-4, section 4.2.2). -/
def K : List Nat :=
  [0x428A2F98, 0x71374491, 0xB5C0FBCF, 0xE9B5DBA5, 0x3956C25B, 0x59F111F1, 0x923F82A4, 0xAB1C5ED5,
   0xD807AA98, 0x12835B01, 0x243185BE, 0x550C7DC3, 0x72BE5D74, 0x80DEB1FE, 0x9BDC06A7, 0xC19BF174,
   0xE49B69C1, 0xEFBE4786, 0x0FC19DC6, 0x240CA1CC, 0x2DE92C6F, 0x4A7484AA, 0x5CB0A9DC, 0x76F988DA,
   0x983E5152, 0xA831C66D, 0xB00327C8, 0xBF597FC7, 0xC6E00BF3, 0xD5A79147, 0x06CA6351, 0x14292967,
   0x27B70A85, 0x2E1B2138, 0x4D2C6DFC, 0x53380D13, 0x650A7354, 0x766A0ABB, 0x81C2C92E, 0x92722C85,
   0xA2BFE8A1, 0xA81A664B, 0xC24B8B70, 0xC76C51A3, 0xD192E819, 0xD6990624, 0xF40E3585, 0x106AA070,
   0x19A4C116, 0x1E376C08, 0x2748774C, 0x34B0BCB5, 0x391C0CB3, 0x4ED8AA4A, 0x5B9CCA4F, 0x682E6FF3,
   0x748F82EE, 0x78A5636F, 0x84C87814, 0x8CC70208, 0x90BEFFFA, 0xA4506CEB, 0xBEF9A3F7, 0xC67178F2]

/-- The initial hash value `H^(0)` (FIPS 180-4, section 5.3.3). -/
def IV : State :=
  ⟨0x6a09e667, 0xbb67ae85, 0x3c6ef372, 0xa54ff53a, 0x510e527f, 0x9b05688c, 0x1f83d9ab, 0x5be0cd19⟩

/-- Big-endian 32-bit word number `i` of a byte sequence. -/
def beWord (bs : List Nat) (i : Nat) : Nat :=
  bs.getD (4 * i) 0 * 16777216 + bs.getD (4 * i + 1) 0 * 65536 + bs.getD (4 * i + 2) 0 * 256 +
    bs.getD (4 * i + 3) 0

/-- The 16 message words `M_0 .. M_15` of a 64-byte block. -/
def parseBlock (blk : List Nat) : List Nat := (List.range 16).map (beWord blk)

/-- Append the next schedule word
`W_t = sigma1(W_(t-2)) + W_(t-7) + sigma0(W_(t-15)) + W_(t-16)`, where `t` is the number of
words so far. -/
def scheduleStep (w : List Nat) : List Nat :=
  w ++ [(sigma1 (w.getD (w.length - 2) 0) + w.getD (w.length - 7) 0 +
         sigma0 (w.getD (w.length - 15) 0) + w.getD (w.length - 16) 0) % 4294967296]

/-- The 64-word message schedule `W_0 .. W_63` of 16 message words. -/
def schedule (m : List Nat) : List Nat := scheduleStep^[48] m

/-- One round: `T1 = h + Σ1(e) + Ch(e,f,g) + K_t + W_t`, `T2 = Σ0(a) + Maj(a,b,c)`,
then `h..a := g, f, e, d + T1, c, b, a, T1 + T2`. -/
def round (s : State) (k w : Nat) : State :=
  let t1 := (s.h + Sigma1 s.e + Ch s.e s.f s.g + k + w) % 4294967296
  let t2 := (Sigma0 s.a + Maj s.a s.b s.c) % 4294967296
  ⟨(t1 + t2) % 4294967296, s.a, s.b, s.c, (s.d + t1) % 4294967296, s.e, s.f, s.g⟩

/-- The 64 rounds `t = 0 .. 63` over a schedule `w`. -/
def rounds (w : List Nat) (s : State) : State :=
  (List.range 64).foldl (fun s t => round s (K.getD t 0) (w.getD t 0)) s

/-- The compression function: schedule, 64 rounds, then `H_i := (working variable) + H_i`. -/
def compress (H : State) (blk : List Nat) : State :=
  let r := rounds (schedule (parseBlock blk)) H
  ⟨(r.a + H.a) % 4294967296, (r.b + H.b) % 4294967296, (r.c + H.c) % 4294967296,
   (r.d + H.d) % 4294967296, (r.e + H.e) % 4294967296, (r.f + H.f) % 4294967296,
   (r.g + H.g) % 4294967296, (r.h + H.h) % 4294967296⟩

/-- The first `n` 64-byte blocks of a byte sequence. -/
def blocksOf (n : Nat) (bs : List Nat) : List (List Nat) :=
  (List.range n).map (fun i => (bs.drop (64 * i)).take 64)

/-- The four big-endian bytes of a 32-bit word. -/
def be32Bytes (x : Nat) : List Nat :=
  [x / 16777216 % 256, x / 65536 % 256, x / 256 % 256, x % 256]

/-- The eight big-endian bytes of a 64-bit value. -/
def be64Bytes (x : Nat) : List Nat :=
  be32Bytes (x / 4294967296 % 4294967296) ++ be32Bytes (x % 4294967296)

/-- The 32-byte digest of a state: the eight words in order, big-endian each. -/
def serialize (s : State) : List Nat :=
  be32Bytes s.a ++ be32Bytes s.b ++ be32Bytes s.c ++ be32Bytes s.d ++
  be32Bytes s.e ++ be32Bytes s.f ++ be32Bytes s.g ++ be32Bytes s.h

/-- Message padding (section 5.1.1): the byte `0x80`, the least number of zero bytes that
makes the length 56 modulo 64, and the 64-bit big-endian bit length. -/
def pad (msg : List Nat) : List Nat :=
  msg ++ [0x80] ++ List.replicate ((119 - msg.length % 64) % 64) 0 ++ be64Bytes (8 * msg.length)

/-- The SHA-256 digest of a byte sequence. -/
def sha256 (msg : List Nat) : List Nat :=
  serialize ((blocksOf ((pad msg).length / 64) (pad msg)).foldl compress IV)

end FIPS

/-- Two lower-case hexadecimal digits of a byte. -/
def hexByte (b : Nat) : String :=
  String.mk [Nat.digitChar (b / 16 % 16), Nat.digitChar (b % 16)]

/-- Lower-case hexadecimal rendering of a byte sequence. -/
def toHex (bs : List Nat) : String := String.join (bs.map hexByte)

/-! ## `common.c`: byte-order utilities

The host byte order is the parameter `be` (`true` on a big-endian host).  A pointer is the
list of the bytes from the pointed-to position to the end of its buffer. -/

/-- Value of an unsigned integer object whose bytes in memory are `bs` (first byte first). -/
def ofObjectBytes (be : Bool) (bs : List Nat) : Nat :=
  if be then bs.foldl (fun acc b => acc * 256 + b) 0
  else bs.foldr (fun b acc => b + 256 * acc) 0

/-- The `n` bytes in memory of an unsigned `n`-byte integer object holding `x`. -/
def objectBytes (be : Bool) (n x : Nat) : List Nat :=
  if be then (List.range n).reverse.map (fun i => x / 256 ^ i % 256)
  else (List.range n).map (fun i => x / 256 ^ i % 256)

/-- Reversal of the `n` bytes of an `n`-byte unsigned integer. -/
def bswap (n x : Nat) : Nat :=
  ((List.range n).reverse.map (fun i => x / 256 ^ i % 256)).foldr (fun b acc => b + 256 * acc) 0

/-- Modelled from the spec: the macro `le16toh` of `compat/endian.h` (not in the sources):
identity on a little-endian host, byte swap on a big-endian host. -/
def le16toh (be : Bool) (x : Nat) : Nat := if be then bswap 2 x else x

/-- Modelled from the spec: the macro `le32toh` of `compat/endian.h`. -/
def le32toh (be : Bool) (x : Nat) : Nat := if be then bswap 4 x else x

/-- Modelled from the spec: the macro `le64toh` of `compat/endian.h`. -/
def le64toh (be : Bool) (x : Nat) : Nat := if be then bswap 8 x else x

/-- Modelled from the spec: the macro `htole16` of `compat/endian.h`. -/
def htole16 (be : Bool) (x : Nat) : Nat := if be then bswap 2 x else x

/-- Modelled from the spec: the macro `htole32` of `compat/endian.h`. -/
def htole32 (be : Bool) (x : Nat) : Nat := if be then bswap 4 x else x

/-- Modelled from the spec: the macro `htole64` of `compat/endian.h`. -/
def htole64 (be : Bool) (x : Nat) : Nat := if be then bswap 8 x else x

/-- Modelled from the spec: the macro `be16toh` of `compat/endian.h`:
byte swap on a little-endian host, identity on a big-endian host. -/
def be16toh (be : Bool) (x : Nat) : Nat := if be then x else bswap 2 x

/-- Modelled from the spec: the macro `be32toh` of `compat/endian.h`. -/
def be32toh (be : Bool) (x : Nat) : Nat := if be then x else bswap 4 x

/-- Modelled from the spec: the macro `be64toh` of `compat/endian.h`. -/
def be64toh (be : Bool) (x : Nat) : Nat := if be then x else bswap 8 x

/-- Modelled from the spec: the macro `htobe16` of `compat/endian.h`. -/
def htobe16 (be : Bool) (x : Nat) : Nat := if be then x else bswap 2 x

/-- Modelled from the spec: the macro `htobe32` of `compat/endian.h`. -/
def htobe32 (be : Bool) (x : Nat) : Nat := if be then x else bswap 4 x

/-- Modelled from the spec: the macro `htobe64` of `compat/endian.h`. -/
def htobe64 (be : Bool) (x : Nat) : Nat := if be then x else bswap 8 x

/-- The bytes read by `memcpy(&x, ptr, n)`; fails when fewer than `n` bytes are readable. -/
def memcpyFrom (ptr : List Nat) (n : Nat) : Option (List Nat) :=
  if n ≤ ptr.length then some (ptr.take n) else none

/-- The destination buffer after `memcpy(ptr, src, n)`, where `src` lists the readable bytes
at the source address; fails when either side has fewer than `n` bytes. -/
def memcpyTo (ptr src : List Nat) (n : Nat) : Option (List Nat) :=
  if n ≤ ptr.length ∧ n ≤ src.length then some (src.take n ++ ptr.drop n) else none

/-- The function `ReadLE16`. -/
def ReadLE16 (be : Bool) (ptr : List Nat) : Option Nat := do
  let x ← memcpyFrom ptr 2
  return le16toh be (ofObjectBytes be x)

/-- The function `ReadLE32`. -/
def ReadLE32 (be : Bool) (ptr : List Nat) : Option Nat := do
  let x ← memcpyFrom ptr 4
  return le32toh be (ofObjectBytes be x)

/-- The function `ReadLE64`. -/
def ReadLE64 (be : Bool) (ptr : List Nat) : Option Nat := do
  let x ← memcpyFrom ptr 8
  return le64toh be (ofObjectBytes be x)

/-- The function `WriteLE16`; the result is the buffer at `ptr` after the call. -/
def WriteLE16 (be : Bool) (ptr : List Nat) (x : Nat) : Option (List Nat) :=
  let v := htole16 be x
  memcpyTo ptr (objectBytes be 2 v) 2

/-- The function `WriteLE32`. -/
def WriteLE32 (be : Bool) (ptr : List Nat) (x : Nat) : Option (List Nat) :=
  let v := htole32 be x
  memcpyTo ptr (objectBytes be 4 v) 4

/-- The function `WriteLE64`. -/
def WriteLE64 (be : Bool) (ptr : List Nat) (x : Nat) : Option (List Nat) :=
  let v := htole64 be x
  memcpyTo ptr (objectBytes be 8 v) 8

/-- The function `ReadBE16`. -/
def ReadBE16 (be : Bool) (ptr : List Nat) : Option Nat := do
  let x ← memcpyFrom ptr 2
  return be16toh be (ofObjectBytes be x)

/-- The function `ReadBE32`. -/
def ReadBE32 (be : Bool) (ptr : List Nat) : Option Nat := do
  let x ← memcpyFrom ptr 4
  return be32toh be (ofObjectBytes be x)

/-- The function `ReadBE64`. -/
def ReadBE64 (be : Bool) (ptr : List Nat) : Option Nat := do
  let x ← memcpyFrom ptr 8
  return be64toh be (ofObjectBytes be x)

/-- The function `WriteBE16`.  Its `memcpy` has length 4 although `v` is a 2-byte object, so
the copy also reads the two bytes that follow `v` in memory; `adj` lists those bytes. -/
def WriteBE16 (be : Bool) (ptr : List Nat) (x : Nat) (adj : List Nat) : Option (List Nat) :=
  let v := htobe16 be x
  memcpyTo ptr (objectBytes be 2 v ++ adj) 4

/-- The function `WriteBE32`. -/
def WriteBE32 (be : Bool) (ptr : List Nat) (x : Nat) : Option (List Nat) :=
  let v := htobe32 be x
  memcpyTo ptr (objectBytes be 4 v) 4

/-- The function `WriteBE64`. -/
def WriteBE64 (be : Bool) (ptr : List Nat) (x : Nat) : Option (List Nat) :=
  let v := htobe64 be x
  memcpyTo ptr (objectBytes be 8 v) 8

/-- Build configuration of `common.c`: the feature macros `HAVE_BUILTIN_CLZL` and
`HAVE_BUILTIN_CLZLL` and the sizes in bytes of `unsigned long` and `unsigned long long`. -/
structure BuildConfig where
  HAVE_BUILTIN_CLZL : Bool
  sizeof_unsigned_long : Nat
  HAVE_BUILTIN_CLZLL : Bool
  sizeof_unsigned_long_long : Nat

/-- Number of 0-bits of `x` from bit position `w - 1` downwards, before the first 1-bit. -/
def leadingZeros : Nat → Nat → Nat
  | 0, _ => 0
  | w + 1, x => if x.testBit w then 0 else leadingZeros w x + 1

/-- Builtin `__builtin_clzl` for an `unsigned long` of `size` bytes: the number of leading
0-bits of the argument, starting at the most significant bit; undefined for 0. -/
def __builtin_clzl (size : Nat) (x : Nat) : Option Nat :=
  if x % 2 ^ (8 * size) = 0 then none else some (leadingZeros (8 * size) (x % 2 ^ (8 * size)))

/-- Builtin `__builtin_clzll` for an `unsigned long long` of `size` bytes: the number of
leading 0-bits of the argument, starting at the most significant bit; undefined for 0. -/
def __builtin_clzll (size : Nat) (x : Nat) : Option Nat :=
  if x % 2 ^ (8 * size) = 0 then none else some (leadingZeros (8 * size) (x % 2 ^ (8 * size)))

/-- The fallback loop of `CountBits`, `while (x) { x >>= 1; ++ret; }`, run for at most `fuel`
iterations; `none` when the fuel ends before `x` is 0. -/
def CountBitsLoop : Nat → Nat → Nat → Option Nat
  | 0, x, ret => if x = 0 then some ret else none
  | fuel + 1, x, ret => if x = 0 then some ret else CountBitsLoop fuel (x >>> 1) (ret + 1)

/-- The function `CountBits` on a 64-bit `x`; `fuel` bounds the iterations of the fallback
loop. -/
def CountBits (cfg : BuildConfig) (fuel : Nat) (x : Nat) : Option Nat :=
  if cfg.HAVE_BUILTIN_CLZL = true ∧ 8 ≤ cfg.sizeof_unsigned_long then
    if x ≠ 0 then
      (__builtin_clzl cfg.sizeof_unsigned_long x).map
        (fun c => (8 * cfg.sizeof_unsigned_long - c) % 18446744073709551616)
    else some 0
  else if cfg.HAVE_BUILTIN_CLZLL = true ∧ 8 ≤ cfg.sizeof_unsigned_long_long then
    if x ≠ 0 then
      (__builtin_clzll cfg.sizeof_unsigned_long_long x).map
        (fun c => (8 * cfg.sizeof_unsigned_long_long - c) % 18446744073709551616)
    else some 0
  else CountBitsLoop fuel x 0

/-! ## Proof-level definitions -/

open FIPS

/-- Working layout of a state: `state0 = (F,E,B,A)`, `state1 = (H,G,D,C)` from lane 0 up. -/
def layout (s : State) : M128 × M128 := (⟨s.f, s.e, s.b, s.a⟩, ⟨s.h, s.g, s.d, s.c⟩)

/-- One round in the operand order of `sha256rnds2`, on the sum `wk = W_t + K_t`. -/
def roundWK (s : State) (wk : Nat) : State :=
  ⟨(Ch s.e s.f s.g + Sigma1 s.e + wk + s.h + Maj s.a s.b s.c + Sigma0 s.a) % 4294967296,
   s.a, s.b, s.c,
   (Ch s.e s.f s.g + Sigma1 s.e + wk + s.h + s.d) % 4294967296,
   s.e, s.f, s.g⟩

/-- The register of the four big-endian words starting at byte offset `p` of `bs`. -/
def beVec (bs : List Nat) (p : Nat) : M128 :=
  ⟨bs.getD p 0 * 16777216 + bs.getD (p + 1) 0 * 65536 + bs.getD (p + 2) 0 * 256 + bs.getD (p + 3) 0,
   bs.getD (p + 4) 0 * 16777216 + bs.getD (p + 5) 0 * 65536 + bs.getD (p + 6) 0 * 256 + bs.getD (p + 7) 0,
   bs.getD (p + 8) 0 * 16777216 + bs.getD (p + 9) 0 * 65536 + bs.getD (p + 10) 0 * 256 + bs.getD (p + 11) 0,
   bs.getD (p + 12) 0 * 16777216 + bs.getD (p + 13) 0 * 65536 + bs.getD (p + 14) 0 * 256 + bs.getD (p + 15) 0⟩

/-- Schedule word `t` of a block. -/
def Wt (blk : List Nat) (t : Nat) : Nat := (schedule (parseBlock blk)).getD t 0

/-- Four consecutive words `w t .. w (t+3)` of a word sequence as a register. -/
def Qv (w : Nat → Nat) (t : Nat) : M128 := ⟨w t, w (t + 1), w (t + 2), w (t + 3)⟩

/-- Fold of `roundWK` over a list of `W_t + K_t` sums. -/
def wkRounds (s : State) (wks : List Nat) : State := wks.foldl roundWK s

/-- The load offsets of `n` loop iterations starting at offset `chunk`. -/
def loadOffsets (chunk n : Nat) : List Nat :=
  (List.range n).flatMap (fun i => [chunk + 64 * i, chunk + 64 * i + 16, chunk + 64 * i + 32,
    chunk + 64 * i + 48])

/-- The `n` consecutive 64-byte blocks of `bs` starting at offset `chunk`. -/
def blocksFrom (bs : List Nat) (chunk n : Nat) : List (List Nat) :=
  (List.range n).map (fun i => (bs.drop (chunk + 64 * i)).take 64)

/-- Feed-forward of the compression function. -/
def feed (r H : State) : State :=
  ⟨(r.a + H.a) % 4294967296, (r.b + H.b) % 4294967296, (r.c + H.c) % 4294967296,
   (r.d + H.d) % 4294967296, (r.e + H.e) % 4294967296, (r.f + H.f) % 4294967296,
   (r.g + H.g) % 4294967296, (r.h + H.h) % 4294967296⟩

/-- The second block of the padded 64-byte message: `0x80`, 55 zero bytes, bit length 512. -/
def padBlock64 : List Nat := [0x80] ++ List.replicate 55 0 ++ be64Bytes 512

/-- The padding that follows a 32-byte message: `0x80`, 23 zero bytes, bit length 256. -/
def padTail32 : List Nat := [0x80] ++ List.replicate 23 0 ++ be64Bytes 256

/-- The single padded block of a 32-byte digest given as a state. -/
def digestBlock (a : State) : List Nat := serialize a ++ padTail32

/-- Big-endian byte image of the four lanes of a register. -/
def beBytes (v : M128) : List Nat :=
  be32Bytes v.l0 ++ be32Bytes v.l1 ++ be32Bytes v.l2 ++ be32Bytes v.l3

/-- State after the three chained compressions for one 64-byte message. -/
def dshaState (blk : List Nat) : State :=
  compress IV (digestBlock (compress (compress IV blk) padBlock64))

/-- The padded empty message: `0x80` followed by 63 zero bytes. -/
def emptyBlock : List Nat := 0x80 :: List.replicate 63 0

/-- Specification-side definition of SHA256(SHA256(x‖y)) by two calls of
`transform_sha256_shani`: the first on the initial state with the two blocks `x‖y` and the
padding block of a 64-byte message; its state serialised big-endian is `d`; the second on the
initial state with the single block `d` followed by the padding of a 32-byte message. -/
def doubleHashViaTransform (x y : List Nat) : Option (List Nat) := do
  let r1 ← transform_sha256_shani FIPS.IV 0 2 ⟨x ++ y ++ padBlock64, []⟩
  let d := FIPS.serialize r1.1
  let r2 ← transform_sha256_shani FIPS.IV 0 1 ⟨d ++ padTail32, []⟩
  return FIPS.serialize r2.1

/-- The packed constant pairs `(k1, k0)` of the sixteen `QuadRound2` calls of one iteration of
the loop of `transform_sha256_shani`, in call order. -/
def loopPairs : List (Nat × Nat) :=
  [(0xe9b5dba5b5c0fbcf, 0x71374491428a2f98), (0xab1c5ed5923f82a4, 0x59f111f13956c25b),
   (0x550c7dc3243185be, 0x12835b01d807aa98), (0xc19bf1749bdc06a7, 0x80deb1fe72be5d74),
   (0x240ca1cc0fc19dc6, 0xefbe4786E49b69c1), (0x76f988da5cb0a9dc, 0x4a7484aa2de92c6f),
   (0xbf597fc7b00327c8, 0xa831c66d983e5152), (0x1429296706ca6351, 0xd5a79147c6e00bf3),
   (0x53380d134d2c6dfc, 0x2e1b213827b70a85), (0x92722c8581c2c92e, 0x766a0abb650a7354),
   (0xc76c51A3c24b8b70, 0xa81a664ba2bfe8a1), (0x106aa070f40e3585, 0xd6990624d192e819),
   (0x34b0bcb52748774c, 0x1e376c0819a4c116), (0x682e6ff35b9cca4f, 0x4ed8aa4a391c0cb3),
   (0x8cc7020884c87814, 0x78a5636f748f82ee), (0xc67178f2bef9A3f7, 0xa4506ceb90befffa)]

/-- The packed constant pairs `(k1, k0)` of the sixteen `QuadRound` calls that stage
"Transform 2" makes for each lane, in call order. -/
def pad64Pairs : List (Nat × Nat) :=
  [(0xe9b5dba5b5c0fbcf, 0x71374491c28a2f98), (0xab1c5ed5923f82a4, 0x59f111f13956c25b),
   (0x550c7dc3243185be, 0x12835b01d807aa98), (0xc19bf3749bdc06a7, 0x80deb1fe72be5d74),
   (0x240cf2540fe1edc6, 0xf0fe4786649b69c1), (0x16f988fa61b9411e, 0x6cc984be4fe9346f),
   (0xb9d99ec7b019fc65, 0xa88e5a6df2c65152), (0xc7353eb0fdb1232b, 0xe70eeaa09a1231c3),
   (0xdc1eeefd5a0f118f, 0xcb976d5f3069bad5), (0xe15d5b1658f4ca9d, 0xde0b7a040a35b689),
   (0x6fab9537a507ea32, 0x37088980007f3e86), (0xc0bbbe37cdaa3b6d, 0x0d8cd6f117406110),
   (0x6fd15ca70b02e931, 0xdb48a36383613bda), (0x6d4378906ed41a95, 0x31338431521afaca),
   (0x532fb63cb5c9a0e6, 0x9eccabbdc39c91f2), (0x4c191d76a4954b68, 0x07237ea3d2c741c6)]

/-- The packed constant pairs `(k1, k0)` of the sixteen calls that stage "Transform 3" makes
for each lane, in call order; the calls at positions 2 and 3 are `QuadRound`, the others
`QuadRound2`. -/
def digestPairs : List (Nat × Nat) :=
  [(0xe9b5dba5B5c0fbcf, 0x71374491428a2f98), (0xab1c5ed5923f82a4, 0x59f111f13956c25b),
   (0x550c7dc3243185be, 0x12835b015807aa98), (0xc19bf2749bdc06a7, 0x80deb1fe72be5d74),
   (0x240ca1cc0fc19dc6, 0xefbe4786e49b69c1), (0x76f988da5cb0a9dc, 0x4a7484aa2de92c6f),
   (0xbf597fc7b00327c8, 0xa831c66d983e5152), (0x1429296706ca6351, 0xd5a79147c6e00bf3),
   (0x53380d134d2c6dfc, 0x2e1b213827b70a85), (0x92722c8581c2c92e, 0x766a0abb650a7354),
   (0xc76c51a3c24b8b70, 0xa81a664ba2bfe8A1), (0x106aa070f40e3585, 0xd6990624d192e819),
   (0x34b0bcb52748774c, 0x1e376c0819a4c116), (0x682e6ff35b9cca4f, 0x4ed8aa4a391c0cb3),
   (0x8cc7020884c87814, 0x78a5636f748f82ee), (0xc67178f2bef9a3f7, 0xa4506ceb90befffa)]

/-- The four 32-bit constants of a packed pair `(k1, k0)` in round order: the low and high
half of `k0`, then the low and high half of `k1`. -/
def unpackPair (p : Nat × Nat) : List Nat :=
  [p.2 % 4294967296, p.2 / 4294967296 % 4294967296, p.1 % 4294967296,
   p.1 / 4294967296 % 4294967296]

/-- One quad-round call: `QuadRound2` with the message vector `m` for `some m`, the
message-free `QuadRound` for `none`; `c.2` is the packed pair `(k1, k0)`. -/
def quadCall (st : M128 × M128) (c : Option M128 × Nat × Nat) : M128 × M128 :=
  match c.1 with
  | some m => QuadRound2 st m c.2.1 c.2.2
  | none => QuadRound st c.2.1 c.2.2

/-- A sequence of quad-round calls, each on the state pair left by the one before. -/
def runQuads (st : M128 × M128) (cs : List (Option M128 × Nat × Nat)) : M128 × M128 :=
  cs.foldl quadCall st

/-- Lane-wise sum of two state pairs. -/
def addPair (r s : M128 × M128) : M128 × M128 := (_mm_add_epi32 r.1 s.1, _mm_add_epi32 r.2 s.2)

/-- The sixteen quad-round calls of one compression with the word sequence `w` and the packed
pairs `ps`: call `j` is `QuadRound` with the pair `ps[j]` when `free j`, and otherwise
`QuadRound2` with the message vector `(w (4j), w (4j+1), w (4j+2), w (4j+3))` and `ps[j]`. -/
def scheduleCalls (w : Nat → Nat) (ps : List (Nat × Nat)) (free : Nat → Bool) :
    List (Option M128 × Nat × Nat) :=
  (List.range 16).map (fun j => (if free j then none else some (Qv w (4 * j)), ps.getD j (0, 0)))

/-! ## Lemmas -/

theorem le32_roundtrip (x : Nat) (h : x < 4294967296) :
    x % 256 + 256 * (x / 256 % 256) + 65536 * (x / 65536 % 256) + 16777216 * (x / 16777216 % 256) = x := by
  omega

theorem alignr_four (a b : M128) (ha : a.wf) (hb : b.wf) :
    _mm_alignr_epi8 a b 4 = ⟨b.l1, b.l2, b.l3, a.l0⟩ := by
  obtain ⟨a0, a1, a2, a3⟩ := a
  obtain ⟨b0, b1, b2, b3⟩ := b
  simp only [M128.wf] at ha hb
  simp [_mm_alignr_epi8, M128.bytes, le32Bytes, M128.ofBytes, le32At]
  refine ⟨?_, ?_, ?_, ?_⟩ <;> omega

theorem alignr_eight (a b : M128) (ha : a.wf) (hb : b.wf) :
    _mm_alignr_epi8 a b 8 = ⟨b.l2, b.l3, a.l0, a.l1⟩ := by
  obtain ⟨a0, a1, a2, a3⟩ := a
  obtain ⟨b0, b1, b2, b3⟩ := b
  simp only [M128.wf] at ha hb
  simp [_mm_alignr_epi8, M128.bytes, le32Bytes, M128.ofBytes, le32At]
  refine ⟨?_, ?_, ?_, ?_⟩ <;> omega

theorem blend_F0 (a b : M128) (ha : a.wf) (hb : b.wf) :
    _mm_blend_epi16 a b 0xF0 = ⟨a.l0, a.l1, b.l2, b.l3⟩ := by
  obtain ⟨a0, a1, a2, a3⟩ := a
  obtain ⟨b0, b1, b2, b3⟩ := b
  simp only [M128.wf] at ha hb
  simp [_mm_blend_epi16, M128.words16, M128.ofWords16, List.range, List.range.loop]
  refine ⟨?_, ?_, ?_, ?_⟩ <;> omega

theorem shuffle32_B1 (a : M128) : _mm_shuffle_epi32 a 0xB1 = ⟨a.l1, a.l0, a.l3, a.l2⟩ := by
  simp [_mm_shuffle_epi32, M128.lane]

theorem shuffle32_1B (a : M128) : _mm_shuffle_epi32 a 0x1B = ⟨a.l3, a.l2, a.l1, a.l0⟩ := by
  simp [_mm_shuffle_epi32, M128.lane]

theorem shuffle32_0e (a : M128) : _mm_shuffle_epi32 a 0x0e = ⟨a.l2, a.l3, a.l0, a.l0⟩ := by
  simp [_mm_shuffle_epi32, M128.lane]

theorem round_eq_roundWK (s : State) (k w : Nat) :
    FIPS.round s k w = roundWK s ((w + k) % 4294967296) := by
  simp only [FIPS.round, roundWK]
  generalize Ch s.e s.f s.g = ch
  generalize Sigma1 s.e = s1
  generalize Maj s.a s.b s.c = mj
  generalize Sigma0 s.a = s0
  congr 1 <;> omega

theorem roundWK_mod (s : State) (wk : Nat) :
    roundWK s (wk % 4294967296) = roundWK s wk := by
  simp only [roundWK]
  generalize Ch s.e s.f s.g = ch
  generalize Sigma1 s.e = s1
  generalize Maj s.a s.b s.c = mj
  generalize Sigma0 s.a = s0
  congr 1 <;> omega

theorem layout_wf_of (s : State) (h : s.wf) : (layout s).1.wf ∧ (layout s).2.wf := by
  simp only [State.wf] at h
  simp only [layout, M128.wf]
  omega

theorem roundWK_wf (s : State) (wk : Nat) (h : s.wf) : (roundWK s wk).wf := by
  simp only [State.wf] at h
  simp only [roundWK, State.wf]
  omega

theorem rnds2_layout (s : State) (k : M128) :
    (_mm_sha256rnds2_epu32 (layout s).1 (_mm_sha256rnds2_epu32 (layout s).2 (layout s).1 k)
        (_mm_shuffle_epi32 k 0x0e),
      _mm_sha256rnds2_epu32 (layout s).2 (layout s).1 k) =
    layout (roundWK (roundWK (roundWK (roundWK s k.l0) k.l1) k.l2) k.l3) := by
  simp only [shuffle32_0e, _mm_sha256rnds2_epu32, layout, roundWK]

theorem QuadRound2_layout (s : State) (m : M128) (k1 k0 : Nat) :
    QuadRound2 (layout s) m k1 k0 =
      layout (roundWK (roundWK (roundWK (roundWK s
        (m.l0 + k0 % 4294967296))
        (m.l1 + k0 / 4294967296 % 4294967296))
        (m.l2 + k1 % 4294967296))
        (m.l3 + k1 / 4294967296 % 4294967296)) := by
  simp only [QuadRound2, rnds2_layout, _mm_add_epi32, _mm_set_epi64x, roundWK_mod]

theorem QuadRound_layout (s : State) (k1 k0 : Nat) :
    QuadRound (layout s) k1 k0 =
      layout (roundWK (roundWK (roundWK (roundWK s
        (k0 % 4294967296))
        (k0 / 4294967296 % 4294967296))
        (k1 % 4294967296))
        (k1 / 4294967296 % 4294967296)) := by
  simp only [QuadRound, rnds2_layout, _mm_set_epi64x]

theorem Shuffle_eq (s : M128 × M128) (h1 : s.1.wf) (h2 : s.2.wf) :
    Shuffle s = (⟨s.2.l1, s.2.l0, s.1.l1, s.1.l0⟩, ⟨s.2.l3, s.2.l2, s.1.l3, s.1.l2⟩) := by
  have w1 : (_mm_shuffle_epi32 s.1 0xB1).wf := by
    rw [shuffle32_B1]; simp only [M128.wf] at h1 ⊢; omega
  have w2 : (_mm_shuffle_epi32 s.2 0x1B).wf := by
    rw [shuffle32_1B]; simp only [M128.wf] at h2 ⊢; omega
  simp only [Shuffle, alignr_eight _ _ w1 w2, blend_F0 _ _ w2 w1]
  simp only [shuffle32_B1, shuffle32_1B]

theorem Unshuffle_eq (s : M128 × M128) (h1 : s.1.wf) (h2 : s.2.wf) :
    Unshuffle s = (⟨s.1.l3, s.1.l2, s.2.l3, s.2.l2⟩, ⟨s.1.l1, s.1.l0, s.2.l1, s.2.l0⟩) := by
  have w1 : (_mm_shuffle_epi32 s.1 0x1B).wf := by
    rw [shuffle32_1B]; simp only [M128.wf] at h1 ⊢; omega
  have w2 : (_mm_shuffle_epi32 s.2 0xB1).wf := by
    rw [shuffle32_B1]; simp only [M128.wf] at h2 ⊢; omega
  simp only [Unshuffle, alignr_eight _ _ w2 w1, blend_F0 _ _ w1 w2]
  simp only [shuffle32_B1, shuffle32_1B]

theorem Shuffle_state (s : State) (h : s.wf) :
    Shuffle (⟨s.a, s.b, s.c, s.d⟩, ⟨s.e, s.f, s.g, s.h⟩) = layout s := by
  simp only [State.wf] at h
  rw [Shuffle_eq]
  · rfl
  · simp only [M128.wf]; omega
  · simp only [M128.wf]; omega

theorem Unshuffle_layout (s : State) (h : s.wf) :
    Unshuffle (layout s) = (⟨s.a, s.b, s.c, s.d⟩, ⟨s.e, s.f, s.g, s.h⟩) := by
  simp only [State.wf] at h
  rw [Unshuffle_eq]
  · rfl
  · simp only [M128.wf, layout]; omega
  · simp only [M128.wf, layout]; omega

theorem getD_lt_of_bytes (bs : List Nat) (hb : ∀ b ∈ bs, b < 256) (i : Nat) : bs.getD i 0 < 256 := by
  by_cases h : i < bs.length
  · rw [List.getD_eq_getElem bs 0 h]
    exact hb _ (List.getElem_mem h)
  · rw [List.getD_eq_default]
    · decide
    · omega

theorem getD_take_drop (bs : List Nat) (p n i : Nat) (h : i < n) :
    ((bs.drop p).take n).getD i 0 = bs.getD (p + i) 0 := by
  simp only [List.getD_eq_getElem?_getD, List.getElem?_take, h, if_true, List.getElem?_drop]

theorem shuffle_epi8_MASK (bs : List Nat) (hb : ∀ b ∈ bs, b < 256) (p : Nat) :
    _mm_shuffle_epi8 (_mm_loadu_si128 ((bs.drop p).take 16)) (_mm_load_si128 MASK) = beVec bs p := by
  have h : ∀ i, bs[i]?.getD 0 < 256 := fun i => by
    simpa only [List.getD_eq_getElem?_getD] using getD_lt_of_bytes bs hb i
  have h0 := h p
  have h1 := h (p+1)
  have h2 := h (p+2)
  have h3 := h (p+3)
  have h4 := h (p+4)
  have h5 := h (p+5)
  have h6 := h (p+6)
  have h7 := h (p+7)
  have h8 := h (p+8)
  have h9 := h (p+9)
  have h10 := h (p+10)
  have h11 := h (p+11)
  have h12 := h (p+12)
  have h13 := h (p+13)
  have h14 := h (p+14)
  have h15 := h (p+15)
  simp only [_mm_shuffle_epi8, _mm_loadu_si128, _mm_load_si128, MASK, M128.ofBytes, le32At, M128.bytes,
    le32Bytes, beVec]
  simp [getD_take_drop]
  refine ⟨?_, ?_, ?_, ?_⟩ <;> omega

theorem Load_eq (p : Nat) (mem : Mem) (hb : ∀ b ∈ mem.bytes, b < 256)
    (hp : p + 16 ≤ mem.bytes.length) :
    Load p mem = some (beVec mem.bytes p, ⟨mem.bytes, mem.reads ++ [p]⟩) := by
  simp only [Load, hp, if_true, shuffle_epi8_MASK _ hb]

theorem scheduleStep_length (w : List Nat) : (scheduleStep w).length = w.length + 1 := by
  simp [scheduleStep]

theorem scheduleIter_length (m : List Nat) (n : Nat) :
    (scheduleStep^[n] m).length = m.length + n := by
  induction n with
  | zero => simp
  | succ n ih => rw [Function.iterate_succ_apply', scheduleStep_length, ih]; omega

theorem scheduleStep_getD_lt (w : List Nat) (t : Nat) (h : t < w.length) :
    (scheduleStep w).getD t 0 = w.getD t 0 := by
  simp only [scheduleStep, List.getD_eq_getElem?_getD, List.getElem?_append_left h]

theorem scheduleStep_getD_new (w : List Nat) :
    (scheduleStep w).getD w.length 0 =
      (sigma1 (w.getD (w.length - 2) 0) + w.getD (w.length - 7) 0 +
        sigma0 (w.getD (w.length - 15) 0) + w.getD (w.length - 16) 0) % 4294967296 := by
  simp [scheduleStep, List.getD_eq_getElem?_getD]

theorem scheduleIter_stable (m : List Nat) (n k t : Nat) (h : t < m.length + n) :
    (scheduleStep^[n + k] m).getD t 0 = (scheduleStep^[n] m).getD t 0 := by
  induction k with
  | zero => rfl
  | succ k ih =>
    rw [← Nat.add_assoc, Function.iterate_succ_apply', scheduleStep_getD_lt, ih]
    rw [scheduleIter_length]; omega

theorem schedule_getD_low (m : List Nat) (t : Nat) (h : t < m.length) :
    (schedule m).getD t 0 = m.getD t 0 := by
  have := scheduleIter_stable m 0 48 t (by omega)
  simpa [schedule] using this

theorem schedule_rec (m : List Nat) (hm : m.length = 16) (t : Nat) (h16 : 16 ≤ t) (h64 : t < 64) :
    (schedule m).getD t 0 =
      (sigma1 ((schedule m).getD (t - 2) 0) + (schedule m).getD (t - 7) 0 +
        sigma0 ((schedule m).getD (t - 15) 0) + (schedule m).getD (t - 16) 0) % 4294967296 := by
  obtain ⟨n, rfl⟩ : ∃ n, t = 16 + n := ⟨t - 16, by omega⟩
  have hlen : (scheduleStep^[n] m).length = 16 + n := by rw [scheduleIter_length, hm]
  have key : ∀ i, i < 16 + n → (schedule m).getD i 0 = (scheduleStep^[n] m).getD i 0 := by
    intro i hi
    have := scheduleIter_stable m n (48 - n) i (by omega)
    rw [show n + (48 - n) = 48 by omega] at this
    exact this
  have hnew : (schedule m).getD (16 + n) 0 = (scheduleStep^[n + 1] m).getD (16 + n) 0 := by
    have := scheduleIter_stable m (n + 1) (48 - (n + 1)) (16 + n) (by omega)
    rw [show n + 1 + (48 - (n + 1)) = 48 by omega] at this
    exact this
  rw [hnew, Function.iterate_succ_apply', ← hlen, scheduleStep_getD_new, hlen,
    key _ (by omega), key _ (by omega), key _ (by omega), key _ (by omega)]

theorem parseBlock_length (blk : List Nat) : (parseBlock blk).length = 16 := by
  simp [parseBlock]

theorem parseBlock_getD (blk : List Nat) (i : Nat) (h : i < 16) :
    (parseBlock blk).getD i 0 = beWord blk i := by
  simp [parseBlock, List.getD_eq_getElem?_getD, h]

theorem beWord_lt (blk : List Nat) (hb : ∀ b ∈ blk, b < 256) (i : Nat) :
    beWord blk i < 4294967296 := by
  have h0 := getD_lt_of_bytes blk hb (4 * i)
  have h1 := getD_lt_of_bytes blk hb (4 * i + 1)
  have h2 := getD_lt_of_bytes blk hb (4 * i + 2)
  have h3 := getD_lt_of_bytes blk hb (4 * i + 3)
  simp only [beWord]
  omega

theorem Wt_low (blk : List Nat) (t : Nat) (h : t < 16) : Wt blk t = beWord blk t := by
  rw [Wt, schedule_getD_low _ _ (by rw [parseBlock_length]; exact h), parseBlock_getD _ _ h]

theorem Wt_rec (blk : List Nat) (t : Nat) (h16 : 16 ≤ t) (h64 : t < 64) :
    Wt blk t = (sigma1 (Wt blk (t - 2)) + Wt blk (t - 7) + sigma0 (Wt blk (t - 15)) +
      Wt blk (t - 16)) % 4294967296 :=
  schedule_rec _ (parseBlock_length blk) t h16 h64

theorem Wt_lt (blk : List Nat) (hb : ∀ b ∈ blk, b < 256) (t : Nat) (h64 : t < 64) :
    Wt blk t < 4294967296 := by
  by_cases h : t < 16
  · rw [Wt_low _ _ h]; exact beWord_lt blk hb t
  · rw [Wt_rec _ _ (by omega) h64]; exact Nat.mod_lt _ (by decide)

theorem shift_core (a0 a1 a2 a3 a4 a5 a6 a7 a8 a9 a10 a11 a12 a13 a14 a15 : Nat)
    (h8 : a8 < 4294967296) (h9 : a9 < 4294967296) (h10 : a10 < 4294967296)
    (h11 : a11 < 4294967296) (h12 : a12 < 4294967296) (h13 : a13 < 4294967296)
    (h14 : a14 < 4294967296) (h15 : a15 < 4294967296) :
    ShiftMessageC ⟨a8, a9, a10, a11⟩ ⟨a12, a13, a14, a15⟩
        (ShiftMessageA ⟨a0, a1, a2, a3⟩ ⟨a4, a5, a6, a7⟩) =
      ⟨(sigma1 a14 + a9 + sigma0 a1 + a0) % 4294967296,
       (sigma1 a15 + a10 + sigma0 a2 + a1) % 4294967296,
       (sigma1 ((sigma1 a14 + a9 + sigma0 a1 + a0) % 4294967296) + a11 + sigma0 a3 + a2) % 4294967296,
       (sigma1 ((sigma1 a15 + a10 + sigma0 a2 + a1) % 4294967296) + a12 + sigma0 a4 + a3) % 4294967296⟩ := by
  have hA : (⟨a12, a13, a14, a15⟩ : M128).wf := ⟨h12, h13, h14, h15⟩
  have hB : (⟨a8, a9, a10, a11⟩ : M128).wf := ⟨h8, h9, h10, h11⟩
  simp only [ShiftMessageC, ShiftMessageA, alignr_four _ _ hA hB, _mm_sha256msg1_epu32,
    _mm_add_epi32, _mm_sha256msg2_epu32]
  have l0 : (((a0 + sigma0 a1) % 4294967296 + a9) % 4294967296 + sigma1 a14) % 4294967296
      = (sigma1 a14 + a9 + sigma0 a1 + a0) % 4294967296 := by omega
  have l1 : (((a1 + sigma0 a2) % 4294967296 + a10) % 4294967296 + sigma1 a15) % 4294967296
      = (sigma1 a15 + a10 + sigma0 a2 + a1) % 4294967296 := by omega
  rw [l0, l1]
  generalize sigma1 ((sigma1 a14 + a9 + sigma0 a1 + a0) % 4294967296) = x
  generalize sigma1 ((sigma1 a15 + a10 + sigma0 a2 + a1) % 4294967296) = y
  congr 1 <;> omega

theorem shift_Qv (w : Nat → Nat)
    (hrec : ∀ t, 16 ≤ t → t < 64 → w t = (sigma1 (w (t - 2)) + w (t - 7) + sigma0 (w (t - 15)) +
      w (t - 16)) % 4294967296)
    (hlt : ∀ t, t < 64 → w t < 4294967296) (t : Nat) (ht : t + 19 < 64) :
    ShiftMessageC (Qv w (t + 8)) (Qv w (t + 12)) (ShiftMessageA (Qv w t) (Qv w (t + 4))) =
      Qv w (t + 16) := by
  have r0 := hrec (t + 16) (by omega) (by omega)
  have r1 := hrec (t + 17) (by omega) (by omega)
  have r2 := hrec (t + 18) (by omega) (by omega)
  have r3 := hrec (t + 19) (by omega) (by omega)
  simp only [show t + 16 - 2 = t + 14 by omega, show t + 16 - 7 = t + 9 by omega,
    show t + 16 - 15 = t + 1 by omega, show t + 16 - 16 = t by omega] at r0
  simp only [show t + 17 - 2 = t + 15 by omega, show t + 17 - 7 = t + 10 by omega,
    show t + 17 - 15 = t + 2 by omega, show t + 17 - 16 = t + 1 by omega] at r1
  simp only [show t + 18 - 2 = t + 16 by omega, show t + 18 - 7 = t + 11 by omega,
    show t + 18 - 15 = t + 3 by omega, show t + 18 - 16 = t + 2 by omega] at r2
  simp only [show t + 19 - 2 = t + 17 by omega, show t + 19 - 7 = t + 12 by omega,
    show t + 19 - 15 = t + 4 by omega, show t + 19 - 16 = t + 3 by omega] at r3
  simp only [Qv, Nat.add_assoc, Nat.reduceAdd]
  rw [shift_core _ _ _ _ _ _ _ _ _ _ _ _ _ _ _ _ (hlt _ (by omega)) (hlt _ (by omega))
    (hlt _ (by omega)) (hlt _ (by omega)) (hlt _ (by omega)) (hlt _ (by omega))
    (hlt _ (by omega)) (hlt _ (by omega))]
  rw [← r0, ← r1, ← r2, ← r3]

theorem rounds_eq_wkRounds (W : List Nat) (s : State) :
    FIPS.rounds W s = wkRounds s ((List.range 64).map (fun t => W.getD t 0 + K.getD t 0)) := by
  simp only [FIPS.rounds, wkRounds, List.foldl_map, round_eq_roundWK, roundWK_mod]

theorem wkRounds_append (s : State) (xs ys : List Nat) :
    wkRounds s (xs ++ ys) = wkRounds (wkRounds s xs) ys := by
  simp only [wkRounds, List.foldl_append]

theorem QuadRound2_wk (s : State) (m : M128) (k1 k0 : Nat) :
    QuadRound2 (layout s) m k1 k0 =
      layout (wkRounds s [m.l0 + k0 % 4294967296, m.l1 + k0 / 4294967296 % 4294967296,
        m.l2 + k1 % 4294967296, m.l3 + k1 / 4294967296 % 4294967296]) := by
  rw [QuadRound2_layout]; rfl

theorem QuadRound_wk (s : State) (k1 k0 : Nat) :
    QuadRound (layout s) k1 k0 =
      layout (wkRounds s [k0 % 4294967296, k0 / 4294967296 % 4294967296,
        k1 % 4294967296, k1 / 4294967296 % 4294967296]) := by
  rw [QuadRound_layout]; rfl

theorem wkRounds_wkRounds (s : State) (xs ys : List Nat) :
    wkRounds (wkRounds s xs) ys = wkRounds s (xs ++ ys) := (wkRounds_append s xs ys).symm

theorem Load_mk (p : Nat) (bs rs : List Nat) :
    Load p ⟨bs, rs⟩ = if p + 16 ≤ bs.length then
      some (_mm_shuffle_epi8 (_mm_loadu_si128 ((bs.drop p).take 16)) (_mm_load_si128 MASK),
        ⟨bs, rs ++ [p]⟩) else none := rfl

theorem getD_idx (bs : List Nat) (i j : Nat) (h : i = j) : bs.getD i 0 = bs.getD j 0 := by
  rw [h]

theorem beWord_take_drop (bs : List Nat) (chunk i : Nat) (h : i < 16) :
    beWord ((bs.drop chunk).take 64) i =
      bs.getD (chunk + 4 * i) 0 * 16777216 + bs.getD (chunk + 4 * i + 1) 0 * 65536 +
        bs.getD (chunk + 4 * i + 2) 0 * 256 + bs.getD (chunk + 4 * i + 3) 0 := by
  simp only [beWord]
  rw [getD_take_drop _ _ _ _ (by omega), getD_take_drop _ _ _ _ (by omega),
    getD_take_drop _ _ _ _ (by omega), getD_take_drop _ _ _ _ (by omega)]
  rfl

theorem beVec_block (bs : List Nat) (chunk k : Nat) (hk : k < 4) :
    beVec bs (chunk + 16 * k) = Qv (Wt ((bs.drop chunk).take 64)) (4 * k) := by
  simp only [Qv, beVec]
  rw [Wt_low _ _ (by omega), Wt_low _ _ (by omega), Wt_low _ _ (by omega), Wt_low _ _ (by omega),
    beWord_take_drop _ _ _ (by omega), beWord_take_drop _ _ _ (by omega),
    beWord_take_drop _ _ _ (by omega), beWord_take_drop _ _ _ (by omega)]
  rw [getD_idx bs (chunk + 4 * (4 * k)) (chunk + 16 * k) (by omega),
    getD_idx bs (chunk + 4 * (4 * k) + 1) (chunk + 16 * k + 1) (by omega),
    getD_idx bs (chunk + 4 * (4 * k) + 2) (chunk + 16 * k + 2) (by omega),
    getD_idx bs (chunk + 4 * (4 * k) + 3) (chunk + 16 * k + 3) (by omega),
    getD_idx bs (chunk + 4 * (4 * k + 1)) (chunk + 16 * k + 4) (by omega),
    getD_idx bs (chunk + 4 * (4 * k + 1) + 1) (chunk + 16 * k + 5) (by omega),
    getD_idx bs (chunk + 4 * (4 * k + 1) + 2) (chunk + 16 * k + 6) (by omega),
    getD_idx bs (chunk + 4 * (4 * k + 1) + 3) (chunk + 16 * k + 7) (by omega),
    getD_idx bs (chunk + 4 * (4 * k + 2)) (chunk + 16 * k + 8) (by omega),
    getD_idx bs (chunk + 4 * (4 * k + 2) + 1) (chunk + 16 * k + 9) (by omega),
    getD_idx bs (chunk + 4 * (4 * k + 2) + 2) (chunk + 16 * k + 10) (by omega),
    getD_idx bs (chunk + 4 * (4 * k + 2) + 3) (chunk + 16 * k + 11) (by omega),
    getD_idx bs (chunk + 4 * (4 * k + 3)) (chunk + 16 * k + 12) (by omega),
    getD_idx bs (chunk + 4 * (4 * k + 3) + 1) (chunk + 16 * k + 13) (by omega),
    getD_idx bs (chunk + 4 * (4 * k + 3) + 2) (chunk + 16 * k + 14) (by omega),
    getD_idx bs (chunk + 4 * (4 * k + 3) + 3) (chunk + 16 * k + 15) (by omega)]

theorem Qv_l0 (w : Nat → Nat) (t : Nat) : (Qv w t).l0 = w t := rfl
theorem Qv_l1 (w : Nat → Nat) (t : Nat) : (Qv w t).l1 = w (t + 1) := rfl
theorem Qv_l2 (w : Nat → Nat) (t : Nat) : (Qv w t).l2 = w (t + 2) := rfl
theorem Qv_l3 (w : Nat → Nat) (t : Nat) : (Qv w t).l3 = w (t + 3) := rfl

theorem add_layout (r s : State) :
    (_mm_add_epi32 (layout r).1 (layout s).1, _mm_add_epi32 (layout r).2 (layout s).2) =
      layout ⟨(r.a + s.a) % 4294967296, (r.b + s.b) % 4294967296, (r.c + s.c) % 4294967296,
        (r.d + s.d) % 4294967296, (r.e + s.e) % 4294967296, (r.f + s.f) % 4294967296,
        (r.g + s.g) % 4294967296, (r.h + s.h) % 4294967296⟩ := rfl

set_option maxHeartbeats 1000000 in
set_option maxRecDepth 10000 in
theorem loopBody_eq (chunk : Nat) (s : State) (bs rs : List Nat) (hb : ∀ b ∈ bs, b < 256)
    (hlen : chunk + 64 ≤ bs.length) :
    loopBody chunk (layout s) ⟨bs, rs⟩ =
      some (layout (compress s ((bs.drop chunk).take 64)),
        ⟨bs, rs ++ [chunk, chunk + 16, chunk + 32, chunk + 48]⟩) := by
  have hw := fun t h16 h64 => Wt_rec ((bs.drop chunk).take 64) t h16 h64
  have hlt := Wt_lt ((bs.drop chunk).take 64)
    (fun b hb2 => hb b (List.mem_of_mem_drop (List.mem_of_mem_take hb2)))
  have sh := shift_Qv (Wt ((bs.drop chunk).take 64)) hw hlt
  have s0 := sh 0 (by decide)
  have s4 := sh 4 (by decide)
  have s8 := sh 8 (by decide)
  have s12 := sh 12 (by decide)
  have s16 := sh 16 (by decide)
  have s20 := sh 20 (by decide)
  have s24 := sh 24 (by decide)
  have s28 := sh 28 (by decide)
  have s32 := sh 32 (by decide)
  have s36 := sh 36 (by decide)
  have s40 := sh 40 (by decide)
  have s44 := sh 44 (by decide)
  simp only [Nat.reduceAdd] at s0 s4 s8 s12 s16 s20 s24 s28 s32 s36 s40 s44
  have b0 := beVec_block bs chunk 0 (by decide)
  have b1 := beVec_block bs chunk 1 (by decide)
  have b2 := beVec_block bs chunk 2 (by decide)
  have b3 := beVec_block bs chunk 3 (by decide)
  simp only [Nat.reduceMul, Nat.add_zero] at b0 b1 b2 b3
  have h0 : chunk + 16 ≤ bs.length := by omega
  have h1 : chunk + 16 + 16 ≤ bs.length := by omega
  have h2 : chunk + 32 + 16 ≤ bs.length := by omega
  have h3 : chunk + 48 + 16 ≤ bs.length := by omega
  simp only [loopBody, bind, StateT.bind, Load_mk, if_pos h0, if_pos h1, if_pos h2, if_pos h3,
    shuffle_epi8_MASK bs hb, pure, StateT.pure, Option.bind, b0, b1, b2, b3,
    ShiftMessageB, s0, s4, s8, s12, s16, s20, s24, s28, s32, s36, s40, s44,
    QuadRound2_wk, wkRounds_wkRounds, List.cons_append, List.nil_append, add_layout,
    Qv_l0, Qv_l1, Qv_l2, Qv_l3, Nat.reduceAdd, Nat.reduceMod, Nat.reduceDiv,
    List.append_assoc]
  simp only [compress, rounds_eq_wkRounds]
  rfl

theorem loadOffsets_succ (chunk n : Nat) :
    loadOffsets chunk (n + 1) =
      [chunk, chunk + 16, chunk + 32, chunk + 48] ++ loadOffsets (chunk + 64) n := by
  simp only [loadOffsets, List.range_succ_eq_map, List.flatMap_cons, List.flatMap_map,
    Nat.mul_zero, Nat.add_zero]
  congr 1
  congr 1
  funext i
  simp only [Nat.succ_eq_add_one, Function.comp]
  rw [show chunk + 64 * (i + 1) = chunk + 64 + 64 * i by omega]

theorem blocksFrom_succ (bs : List Nat) (chunk n : Nat) :
    blocksFrom bs chunk (n + 1) = (bs.drop chunk).take 64 :: blocksFrom bs (chunk + 64) n := by
  simp only [blocksFrom, List.range_succ_eq_map, List.map_cons, List.map_map, Nat.mul_zero,
    Nat.add_zero]
  congr 1
  apply List.map_congr_left
  intro i _
  simp only [Nat.succ_eq_add_one, Function.comp]
  rw [show chunk + 64 * (i + 1) = chunk + 64 + 64 * i by omega]

theorem whileBlocks_eq (n : Nat) : ∀ (chunk : Nat) (s : State) (bs rs : List Nat),
    (∀ b ∈ bs, b < 256) → chunk + 64 * n ≤ bs.length →
    whileBlocks n chunk (layout s) ⟨bs, rs⟩ =
      some (layout ((blocksFrom bs chunk n).foldl compress s), ⟨bs, rs ++ loadOffsets chunk n⟩) := by
  induction n with
  | zero =>
    intro chunk s bs rs _ _
    simp [whileBlocks, blocksFrom, loadOffsets, pure, StateT.pure]
  | succ n ih =>
    intro chunk s bs rs hb hlen
    simp only [whileBlocks, bind, StateT.bind, loopBody_eq chunk s bs rs hb (by omega),
      Option.bind]
    rw [ih (chunk + 64) _ bs _ hb (by omega), blocksFrom_succ, loadOffsets_succ]
    simp only [List.foldl_cons, List.append_assoc]

theorem loadu_words (a b c d : Nat) (ha : a < 4294967296) (hb : b < 4294967296)
    (hc : c < 4294967296) (hd : d < 4294967296) :
    _mm_loadu_si128 (le32Bytes a ++ le32Bytes b ++ le32Bytes c ++ le32Bytes d) = ⟨a, b, c, d⟩ := by
  simp [_mm_loadu_si128, M128.ofBytes, le32At, le32Bytes]
  refine ⟨?_, ?_, ?_, ?_⟩ <;> omega

theorem storeu_words (v : M128) (h : v.wf) :
    le32At (_mm_storeu_si128 v) 0 = v.l0 ∧ le32At (_mm_storeu_si128 v) 4 = v.l1 ∧
    le32At (_mm_storeu_si128 v) 8 = v.l2 ∧ le32At (_mm_storeu_si128 v) 12 = v.l3 := by
  obtain ⟨a, b, c, d⟩ := v
  simp only [M128.wf] at h
  simp [_mm_storeu_si128, M128.bytes, le32At, le32Bytes]
  refine ⟨?_, ?_, ?_, ?_⟩ <;> omega

theorem compress_wf (H : State) (blk : List Nat) : (compress H blk).wf := by
  simp only [compress, State.wf]
  omega

theorem foldl_compress_wf (blks : List (List Nat)) : ∀ (s : State), s.wf →
    (blks.foldl compress s).wf := by
  induction blks with
  | nil => intro s h; exact h
  | cons b bs ih => intro s _; exact ih _ (compress_wf s b)

theorem transform_eq (s : State) (chunk n : Nat) (bs rs : List Nat) (hs : s.wf)
    (hb : ∀ b ∈ bs, b < 256) (hlen : chunk + 64 * n ≤ bs.length) :
    transform_sha256_shani s chunk n ⟨bs, rs⟩ =
      some ((blocksFrom bs chunk n).foldl compress s, ⟨bs, rs ++ loadOffsets chunk n⟩) := by
  have hs2 := hs
  simp only [State.wf] at hs2
  obtain ⟨h1, h2, h3, h4, h5, h6, h7, h8⟩ := hs2
  have hw := foldl_compress_wf (blocksFrom bs chunk n) s hs
  have hu := Unshuffle_layout _ hw
  simp only [transform_sha256_shani, bind, StateT.bind, loadu_words _ _ _ _ h1 h2 h3 h4,
    loadu_words _ _ _ _ h5 h6 h7 h8, Shuffle_state s hs, whileBlocks_eq n chunk s bs rs hb hlen,
    Option.bind, hu, pure, StateT.pure]
  have e1 := storeu_words ⟨(List.foldl compress s (blocksFrom bs chunk n)).a,
    (List.foldl compress s (blocksFrom bs chunk n)).b,
    (List.foldl compress s (blocksFrom bs chunk n)).c,
    (List.foldl compress s (blocksFrom bs chunk n)).d⟩ (by
      simp only [State.wf] at hw; simp only [M128.wf]; omega)
  have e2 := storeu_words ⟨(List.foldl compress s (blocksFrom bs chunk n)).e,
    (List.foldl compress s (blocksFrom bs chunk n)).f,
    (List.foldl compress s (blocksFrom bs chunk n)).g,
    (List.foldl compress s (blocksFrom bs chunk n)).h⟩ (by
      simp only [State.wf] at hw; simp only [M128.wf]; omega)
  simp only [e1, e2]

theorem INIT_layout : (_mm_load_si128 INIT0, _mm_load_si128 INIT1) = layout IV := by
  decide

theorem add_layout_feed (r s : State) :
    (_mm_add_epi32 (layout r).1 (layout s).1, _mm_add_epi32 (layout r).2 (layout s).2) =
      layout (feed r s) := rfl

theorem add_INIT_feed (r : State) :
    (_mm_add_epi32 (layout r).1 (_mm_load_si128 INIT0),
      _mm_add_epi32 (layout r).2 (_mm_load_si128 INIT1)) = layout (feed r IV) := by
  have h := INIT_layout
  rw [Prod.ext_iff] at h
  simp only at h
  rw [h.1, h.2]
  rfl

theorem compress_eq_feed (H : State) (blk : List Nat) :
    compress H blk = feed (wkRounds H ((List.range 64).map
      (fun t => Wt blk t + K.getD t 0))) H := by
  simp only [compress, rounds_eq_wkRounds, feed, Wt]

set_option maxHeartbeats 1000000 in
set_option maxRecDepth 10000 in
theorem d64Transform1_eq (inp : Nat) (bs rs : List Nat) (hb : ∀ b ∈ bs, b < 256)
    (hlen : inp + 128 ≤ bs.length) :
    d64Transform1 inp ⟨bs, rs⟩ =
      some ((layout (compress IV ((bs.drop inp).take 64)),
             layout (compress IV ((bs.drop (inp + 64)).take 64))),
        ⟨bs, rs ++ [inp, inp + 64, inp + 16, inp + 80, inp + 32, inp + 96, inp + 48,
          inp + 112]⟩) := by
  have hwA := fun t h16 h64 => Wt_rec ((bs.drop inp).take 64) t h16 h64
  have hltA := Wt_lt ((bs.drop inp).take 64)
    (fun b hb2 => hb b (List.mem_of_mem_drop (List.mem_of_mem_take hb2)))
  have shA := shift_Qv (Wt ((bs.drop inp).take 64)) hwA hltA
  have hwB := fun t h16 h64 => Wt_rec ((bs.drop (inp + 64)).take 64) t h16 h64
  have hltB := Wt_lt ((bs.drop (inp + 64)).take 64)
    (fun b hb2 => hb b (List.mem_of_mem_drop (List.mem_of_mem_take hb2)))
  have shB := shift_Qv (Wt ((bs.drop (inp + 64)).take 64)) hwB hltB
  have a0 := shA 0 (by decide)
  have a4 := shA 4 (by decide)
  have a8 := shA 8 (by decide)
  have a12 := shA 12 (by decide)
  have a16 := shA 16 (by decide)
  have a20 := shA 20 (by decide)
  have a24 := shA 24 (by decide)
  have a28 := shA 28 (by decide)
  have a32 := shA 32 (by decide)
  have a36 := shA 36 (by decide)
  have a40 := shA 40 (by decide)
  have a44 := shA 44 (by decide)
  have c0 := shB 0 (by decide)
  have c4 := shB 4 (by decide)
  have c8 := shB 8 (by decide)
  have c12 := shB 12 (by decide)
  have c16 := shB 16 (by decide)
  have c20 := shB 20 (by decide)
  have c24 := shB 24 (by decide)
  have c28 := shB 28 (by decide)
  have c32 := shB 32 (by decide)
  have c36 := shB 36 (by decide)
  have c40 := shB 40 (by decide)
  have c44 := shB 44 (by decide)
  simp only [Nat.reduceAdd] at a0 a4 a8 a12 a16 a20 a24 a28 a32 a36 a40 a44
  simp only [Nat.reduceAdd] at c0 c4 c8 c12 c16 c20 c24 c28 c32 c36 c40 c44
  have b0 := beVec_block bs inp 0 (by decide)
  have b1 := beVec_block bs inp 1 (by decide)
  have b2 := beVec_block bs inp 2 (by decide)
  have b3 := beVec_block bs inp 3 (by decide)
  have d0 := beVec_block bs (inp + 64) 0 (by decide)
  have d1 := beVec_block bs (inp + 64) 1 (by decide)
  have d2 := beVec_block bs (inp + 64) 2 (by decide)
  have d3 := beVec_block bs (inp + 64) 3 (by decide)
  simp only [Nat.reduceMul, Nat.add_zero, Nat.add_assoc, Nat.reduceAdd] at b0 b1 b2 b3 d0 d1 d2 d3
  have h0 : inp + 16 ≤ bs.length := by omega
  have h1 : inp + (16 + 16) ≤ bs.length := by omega
  have h2 : inp + (32 + 16) ≤ bs.length := by omega
  have h3 : inp + (48 + 16) ≤ bs.length := by omega
  have h4 : inp + (64 + 16) ≤ bs.length := by omega
  have h5 : inp + (80 + 16) ≤ bs.length := by omega
  have h6 : inp + (96 + 16) ≤ bs.length := by omega
  have h7 : inp + (112 + 16) ≤ bs.length := by omega
  simp only [Nat.reduceAdd] at h1 h2 h3 h4 h5 h6 h7
  simp only [d64Transform1, sizeof_sha256, bind, StateT.bind, Load_mk, Nat.reduceMul,
    Nat.add_zero,
    Nat.add_assoc, Nat.reduceAdd,
    if_pos h0, if_pos h1, if_pos h2, if_pos h3, if_pos h4, if_pos h5, if_pos h6, if_pos h7,
    shuffle_epi8_MASK bs hb, pure, StateT.pure, Option.bind, b0, b1, b2, b3, d0, d1, d2, d3,
    ShiftMessageB, a0, a4, a8, a12, a16, a20, a24, a28, a32, a36, a40, a44,
    c0, c4, c8, c12, c16, c20, c24, c28, c32, c36, c40, c44, INIT_layout, add_INIT_feed,
    QuadRound2_wk, wkRounds_wkRounds, List.cons_append, List.nil_append, add_layout_feed,
    Qv_l0, Qv_l1, Qv_l2, Qv_l3, Nat.reduceAdd, Nat.reduceMod, Nat.reduceDiv,
    List.append_assoc]
  simp only [compress_eq_feed]
  rfl

theorem wkRounds_map_mod (xs : List Nat) : ∀ (s : State),
    wkRounds s (xs.map (fun x => x % 4294967296)) = wkRounds s xs := by
  induction xs with
  | nil => intro s; rfl
  | cons x xs ih =>
    intro s
    simp only [List.map_cons, wkRounds, List.foldl_cons, roundWK_mod]
    exact ih _

theorem wkRounds_congr_mod (s : State) (xs ys : List Nat)
    (h : xs.map (fun x => x % 4294967296) = ys.map (fun x => x % 4294967296)) :
    wkRounds s xs = wkRounds s ys := by
  rw [← wkRounds_map_mod xs, ← wkRounds_map_mod ys, h]

theorem padBlock64_wk :
    (List.range 64).map (fun t => (Wt padBlock64 t + K.getD t 0) % 4294967296) =
    [0xC28A2F98, 0x71374491, 0xB5C0FBCF, 0xE9B5DBA5, 0x3956C25B, 0x59F111F1, 0x923F82A4, 0xAB1C5ED5,
     0xD807AA98, 0x12835B01, 0x243185BE, 0x550C7DC3, 0x72BE5D74, 0x80DEB1FE, 0x9BDC06A7, 0xC19BF374,
     0x649B69C1, 0xF0FE4786, 0x0FE1EDC6, 0x240CF254, 0x4FE9346F, 0x6CC984BE, 0x61B9411E, 0x16F988FA,
     0xF2C65152, 0xA88E5A6D, 0xB019FC65, 0xB9D99EC7, 0x9A1231C3, 0xE70EEAA0, 0xFDB1232B, 0xC7353EB0,
     0x3069BAD5, 0xCB976D5F, 0x5A0F118F, 0xDC1EEEFD, 0x0A35B689, 0xDE0B7A04, 0x58F4CA9D, 0xE15D5B16,
     0x007F3E86, 0x37088980, 0xA507EA32, 0x6FAB9537, 0x17406110, 0x0D8CD6F1, 0xCDAA3B6D, 0xC0BBBE37,
     0x83613BDA, 0xDB48A363, 0x0B02E931, 0x6FD15CA7, 0x521AFACA, 0x31338431, 0x6ED41A95, 0x6D437890,
     0xC39C91F2, 0x9ECCABBD, 0xB5C9A0E6, 0x532FB63C, 0xD2C741C6, 0x07237EA3, 0xA4954B68, 0x4C191D76] := by
  decide

theorem pad64_rounds (s : State) :
    wkRounds s ((List.range 64).map (fun t => Wt padBlock64 t + K.getD t 0)) =
    wkRounds s
    [0xC28A2F98, 0x71374491, 0xB5C0FBCF, 0xE9B5DBA5, 0x3956C25B, 0x59F111F1, 0x923F82A4, 0xAB1C5ED5,
     0xD807AA98, 0x12835B01, 0x243185BE, 0x550C7DC3, 0x72BE5D74, 0x80DEB1FE, 0x9BDC06A7, 0xC19BF374,
     0x649B69C1, 0xF0FE4786, 0x0FE1EDC6, 0x240CF254, 0x4FE9346F, 0x6CC984BE, 0x61B9411E, 0x16F988FA,
     0xF2C65152, 0xA88E5A6D, 0xB019FC65, 0xB9D99EC7, 0x9A1231C3, 0xE70EEAA0, 0xFDB1232B, 0xC7353EB0,
     0x3069BAD5, 0xCB976D5F, 0x5A0F118F, 0xDC1EEEFD, 0x0A35B689, 0xDE0B7A04, 0x58F4CA9D, 0xE15D5B16,
     0x007F3E86, 0x37088980, 0xA507EA32, 0x6FAB9537, 0x17406110, 0x0D8CD6F1, 0xCDAA3B6D, 0xC0BBBE37,
     0x83613BDA, 0xDB48A363, 0x0B02E931, 0x6FD15CA7, 0x521AFACA, 0x31338431, 0x6ED41A95, 0x6D437890,
     0xC39C91F2, 0x9ECCABBD, 0xB5C9A0E6, 0x532FB63C, 0xD2C741C6, 0x07237EA3, 0xA4954B68, 0x4C191D76] := by
  apply wkRounds_congr_mod
  rw [List.map_map]
  exact padBlock64_wk.trans (by decide)

set_option maxRecDepth 10000 in
theorem d64Transform2_eq (a b : State) :
    d64Transform2 (layout a) (layout b) =
      (layout (compress a padBlock64), layout (compress b padBlock64)) := by
  simp only [d64Transform2, QuadRound_wk, wkRounds_wkRounds, List.cons_append, List.nil_append,
    Nat.reduceMod, Nat.reduceDiv, add_layout_feed, compress_eq_feed, pad64_rounds]

theorem be32_roundtrip (x : Nat) (h : x < 4294967296) :
    x / 16777216 % 256 * 16777216 + x / 65536 % 256 * 65536 + x / 256 % 256 * 256 + x % 256 = x := by
  omega

theorem digestBlock_words (a : State) (h : a.wf) :
    Wt (digestBlock a) 0 = a.a ∧ Wt (digestBlock a) 1 = a.b ∧ Wt (digestBlock a) 2 = a.c ∧
    Wt (digestBlock a) 3 = a.d ∧ Wt (digestBlock a) 4 = a.e ∧ Wt (digestBlock a) 5 = a.f ∧
    Wt (digestBlock a) 6 = a.g ∧ Wt (digestBlock a) 7 = a.h := by
  simp only [State.wf] at h
  obtain ⟨h1, h2, h3, h4, h5, h6, h7, h8⟩ := h
  rw [Wt_low _ _ (by decide), Wt_low _ _ (by decide), Wt_low _ _ (by decide),
    Wt_low _ _ (by decide), Wt_low _ _ (by decide), Wt_low _ _ (by decide),
    Wt_low _ _ (by decide), Wt_low _ _ (by decide)]
  simp [beWord, digestBlock, serialize, be32Bytes]
  refine ⟨?_, ?_, ?_, ?_, ?_, ?_, ?_, ?_⟩ <;> omega

theorem serialize_length (a : State) : (serialize a).length = 32 := by
  simp [serialize, be32Bytes]

theorem digestBlock_getD_tail (a : State) (i : Nat) :
    (digestBlock a).getD (32 + i) 0 = padTail32.getD i 0 := by
  have h : (serialize a).length ≤ 32 + i := by rw [serialize_length]; omega
  simp only [digestBlock, List.getD_eq_getElem?_getD, List.getElem?_append_right h,
    serialize_length, Nat.add_sub_cancel_left]

theorem digestBlock_beWord_tail (a : State) (i : Nat) :
    beWord (digestBlock a) (8 + i) = beWord padTail32 i := by
  simp only [beWord]
  rw [getD_idx _ (4 * (8 + i)) (32 + 4 * i) (by omega),
    getD_idx _ (4 * (8 + i) + 1) (32 + (4 * i + 1)) (by omega),
    getD_idx _ (4 * (8 + i) + 2) (32 + (4 * i + 2)) (by omega),
    getD_idx _ (4 * (8 + i) + 3) (32 + (4 * i + 3)) (by omega),
    digestBlock_getD_tail, digestBlock_getD_tail, digestBlock_getD_tail, digestBlock_getD_tail]

theorem padTail32_words :
    beWord padTail32 0 = 0x80000000 ∧ beWord padTail32 1 = 0 ∧ beWord padTail32 2 = 0 ∧
    beWord padTail32 3 = 0 ∧ beWord padTail32 4 = 0 ∧ beWord padTail32 5 = 0 ∧
    beWord padTail32 6 = 0 ∧ beWord padTail32 7 = 0x100 := by
  decide

theorem digestBlock_tail (a : State) :
    Wt (digestBlock a) 8 = 0x80000000 ∧ Wt (digestBlock a) 9 = 0 ∧ Wt (digestBlock a) 10 = 0 ∧
    Wt (digestBlock a) 11 = 0 ∧ Wt (digestBlock a) 12 = 0 ∧ Wt (digestBlock a) 13 = 0 ∧
    Wt (digestBlock a) 14 = 0 ∧ Wt (digestBlock a) 15 = 0x100 := by
  rw [Wt_low _ _ (by decide), Wt_low _ _ (by decide), Wt_low _ _ (by decide),
    Wt_low _ _ (by decide), Wt_low _ _ (by decide), Wt_low _ _ (by decide),
    Wt_low _ _ (by decide), Wt_low _ _ (by decide)]
  have h := padTail32_words
  exact ⟨(digestBlock_beWord_tail a 0).trans h.1, (digestBlock_beWord_tail a 1).trans h.2.1,
    (digestBlock_beWord_tail a 2).trans h.2.2.1, (digestBlock_beWord_tail a 3).trans h.2.2.2.1,
    (digestBlock_beWord_tail a 4).trans h.2.2.2.2.1,
    (digestBlock_beWord_tail a 5).trans h.2.2.2.2.2.1,
    (digestBlock_beWord_tail a 6).trans h.2.2.2.2.2.2.1,
    (digestBlock_beWord_tail a 7).trans h.2.2.2.2.2.2.2⟩

theorem digestBlock_bytes (a : State) : ∀ b ∈ digestBlock a, b < 256 := by
  intro b hb
  simp only [digestBlock, serialize, be32Bytes, padTail32, be64Bytes, List.mem_append,
    List.mem_cons, List.mem_replicate, List.mem_singleton, List.not_mem_nil, or_false] at hb
  rcases hb with ((((((((h | h | h | h) | h | h | h | h) | h | h | h | h) | h | h | h | h) |
    h | h | h | h) | h | h | h | h) | h | h | h | h) | h | h | h | h) | h
  all_goals omega

theorem wk_list (w : Nat → Nat) :
    (List.range 64).map (fun t => w t + K.getD t 0) =
    [w 0 + 0x428A2F98, w 1 + 0x71374491, w 2 + 0xB5C0FBCF, w 3 + 0xE9B5DBA5,
     w 4 + 0x3956C25B, w 5 + 0x59F111F1, w 6 + 0x923F82A4, w 7 + 0xAB1C5ED5,
     w 8 + 0xD807AA98, w 9 + 0x12835B01, w 10 + 0x243185BE, w 11 + 0x550C7DC3,
     w 12 + 0x72BE5D74, w 13 + 0x80DEB1FE, w 14 + 0x9BDC06A7, w 15 + 0xC19BF174,
     w 16 + 0xE49B69C1, w 17 + 0xEFBE4786, w 18 + 0x0FC19DC6, w 19 + 0x240CA1CC,
     w 20 + 0x2DE92C6F, w 21 + 0x4A7484AA, w 22 + 0x5CB0A9DC, w 23 + 0x76F988DA,
     w 24 + 0x983E5152, w 25 + 0xA831C66D, w 26 + 0xB00327C8, w 27 + 0xBF597FC7,
     w 28 + 0xC6E00BF3, w 29 + 0xD5A79147, w 30 + 0x06CA6351, w 31 + 0x14292967,
     w 32 + 0x27B70A85, w 33 + 0x2E1B2138, w 34 + 0x4D2C6DFC, w 35 + 0x53380D13,
     w 36 + 0x650A7354, w 37 + 0x766A0ABB, w 38 + 0x81C2C92E, w 39 + 0x92722C85,
     w 40 + 0xA2BFE8A1, w 41 + 0xA81A664B, w 42 + 0xC24B8B70, w 43 + 0xC76C51A3,
     w 44 + 0xD192E819, w 45 + 0xD6990624, w 46 + 0xF40E3585, w 47 + 0x106AA070,
     w 48 + 0x19A4C116, w 49 + 0x1E376C08, w 50 + 0x2748774C, w 51 + 0x34B0BCB5,
     w 52 + 0x391C0CB3, w 53 + 0x4ED8AA4A, w 54 + 0x5B9CCA4F, w 55 + 0x682E6FF3,
     w 56 + 0x748F82EE, w 57 + 0x78A5636F, w 58 + 0x84C87814, w 59 + 0x8CC70208,
     w 60 + 0x90BEFFFA, w 61 + 0xA4506CEB, w 62 + 0xBEF9A3F7, w 63 + 0xC67178F2] := by
  rfl

theorem wk_tail_congr (w : Nat → Nat) (s : State) (h8 : w 8 = 0x80000000) (h9 : w 9 = 0)
    (h10 : w 10 = 0) (h11 : w 11 = 0) (h12 : w 12 = 0) (h13 : w 13 = 0) (h14 : w 14 = 0)
    (h15 : w 15 = 0x100) :
    wkRounds s
    [w 0 + 0x428A2F98, w 1 + 0x71374491, w 2 + 0xB5C0FBCF, w 3 + 0xE9B5DBA5,
     w 4 + 0x3956C25B, w 5 + 0x59F111F1, w 6 + 0x923F82A4, w 7 + 0xAB1C5ED5,
     w 8 + 0xD807AA98, w 9 + 0x12835B01, w 10 + 0x243185BE, w 11 + 0x550C7DC3,
     w 12 + 0x72BE5D74, w 13 + 0x80DEB1FE, w 14 + 0x9BDC06A7, w 15 + 0xC19BF174,
     w 16 + 0xE49B69C1, w 17 + 0xEFBE4786, w 18 + 0x0FC19DC6, w 19 + 0x240CA1CC,
     w 20 + 0x2DE92C6F, w 21 + 0x4A7484AA, w 22 + 0x5CB0A9DC, w 23 + 0x76F988DA,
     w 24 + 0x983E5152, w 25 + 0xA831C66D, w 26 + 0xB00327C8, w 27 + 0xBF597FC7,
     w 28 + 0xC6E00BF3, w 29 + 0xD5A79147, w 30 + 0x06CA6351, w 31 + 0x14292967,
     w 32 + 0x27B70A85, w 33 + 0x2E1B2138, w 34 + 0x4D2C6DFC, w 35 + 0x53380D13,
     w 36 + 0x650A7354, w 37 + 0x766A0ABB, w 38 + 0x81C2C92E, w 39 + 0x92722C85,
     w 40 + 0xA2BFE8A1, w 41 + 0xA81A664B, w 42 + 0xC24B8B70, w 43 + 0xC76C51A3,
     w 44 + 0xD192E819, w 45 + 0xD6990624, w 46 + 0xF40E3585, w 47 + 0x106AA070,
     w 48 + 0x19A4C116, w 49 + 0x1E376C08, w 50 + 0x2748774C, w 51 + 0x34B0BCB5,
     w 52 + 0x391C0CB3, w 53 + 0x4ED8AA4A, w 54 + 0x5B9CCA4F, w 55 + 0x682E6FF3,
     w 56 + 0x748F82EE, w 57 + 0x78A5636F, w 58 + 0x84C87814, w 59 + 0x8CC70208,
     w 60 + 0x90BEFFFA, w 61 + 0xA4506CEB, w 62 + 0xBEF9A3F7, w 63 + 0xC67178F2] =
    wkRounds s
    [w 0 + 0x428A2F98, w 1 + 0x71374491, w 2 + 0xB5C0FBCF, w 3 + 0xE9B5DBA5,
     w 4 + 0x3956C25B, w 5 + 0x59F111F1, w 6 + 0x923F82A4, w 7 + 0xAB1C5ED5,
     0x5807AA98, 0x12835B01, 0x243185BE, 0x550C7DC3,
     0x72BE5D74, 0x80DEB1FE, 0x9BDC06A7, 0xC19BF274,
     w 16 + 0xE49B69C1, w 17 + 0xEFBE4786, w 18 + 0x0FC19DC6, w 19 + 0x240CA1CC,
     w 20 + 0x2DE92C6F, w 21 + 0x4A7484AA, w 22 + 0x5CB0A9DC, w 23 + 0x76F988DA,
     w 24 + 0x983E5152, w 25 + 0xA831C66D, w 26 + 0xB00327C8, w 27 + 0xBF597FC7,
     w 28 + 0xC6E00BF3, w 29 + 0xD5A79147, w 30 + 0x06CA6351, w 31 + 0x14292967,
     w 32 + 0x27B70A85, w 33 + 0x2E1B2138, w 34 + 0x4D2C6DFC, w 35 + 0x53380D13,
     w 36 + 0x650A7354, w 37 + 0x766A0ABB, w 38 + 0x81C2C92E, w 39 + 0x92722C85,
     w 40 + 0xA2BFE8A1, w 41 + 0xA81A664B, w 42 + 0xC24B8B70, w 43 + 0xC76C51A3,
     w 44 + 0xD192E819, w 45 + 0xD6990624, w 46 + 0xF40E3585, w 47 + 0x106AA070,
     w 48 + 0x19A4C116, w 49 + 0x1E376C08, w 50 + 0x2748774C, w 51 + 0x34B0BCB5,
     w 52 + 0x391C0CB3, w 53 + 0x4ED8AA4A, w 54 + 0x5B9CCA4F, w 55 + 0x682E6FF3,
     w 56 + 0x748F82EE, w 57 + 0x78A5636F, w 58 + 0x84C87814, w 59 + 0x8CC70208,
     w 60 + 0x90BEFFFA, w 61 + 0xA4506CEB, w 62 + 0xBEF9A3F7, w 63 + 0xC67178F2] := by
  apply wkRounds_congr_mod
  simp only [List.map_cons, List.map_nil, h8, h9, h10, h11, h12, h13, h14, h15, Nat.reduceAdd,
    Nat.reduceMod]

set_option maxHeartbeats 1000000 in
set_option maxRecDepth 10000 in
theorem d64Transform3_eq (a b : State) (ha : a.wf) (hb : b.wf) :
    d64Transform3 (layout a) (layout b) =
      (layout (compress IV (digestBlock a)), layout (compress IV (digestBlock b))) := by
  have hwA := fun t h16 h64 => Wt_rec (digestBlock a) t h16 h64
  have hltA := Wt_lt (digestBlock a) (digestBlock_bytes a)
  have shA := shift_Qv (Wt (digestBlock a)) hwA hltA
  have hwB := fun t h16 h64 => Wt_rec (digestBlock b) t h16 h64
  have hltB := Wt_lt (digestBlock b) (digestBlock_bytes b)
  have shB := shift_Qv (Wt (digestBlock b)) hwB hltB
  have a0 := shA 0 (by decide)
  have a4 := shA 4 (by decide)
  have a8 := shA 8 (by decide)
  have a12 := shA 12 (by decide)
  have a16 := shA 16 (by decide)
  have a20 := shA 20 (by decide)
  have a24 := shA 24 (by decide)
  have a28 := shA 28 (by decide)
  have a32 := shA 32 (by decide)
  have a36 := shA 36 (by decide)
  have a40 := shA 40 (by decide)
  have a44 := shA 44 (by decide)
  have c0 := shB 0 (by decide)
  have c4 := shB 4 (by decide)
  have c8 := shB 8 (by decide)
  have c12 := shB 12 (by decide)
  have c16 := shB 16 (by decide)
  have c20 := shB 20 (by decide)
  have c24 := shB 24 (by decide)
  have c28 := shB 28 (by decide)
  have c32 := shB 32 (by decide)
  have c36 := shB 36 (by decide)
  have c40 := shB 40 (by decide)
  have c44 := shB 44 (by decide)
  simp only [Nat.reduceAdd] at a0 a4 a8 a12 a16 a20 a24 a28 a32 a36 a40 a44
  simp only [Nat.reduceAdd] at c0 c4 c8 c12 c16 c20 c24 c28 c32 c36 c40 c44
  obtain ⟨wa0, wa1, wa2, wa3, wa4, wa5, wa6, wa7⟩ := digestBlock_words a ha
  obtain ⟨wa8, wa9, wa10, wa11, wa12, wa13, wa14, wa15⟩ := digestBlock_tail a
  obtain ⟨wb0, wb1, wb2, wb3, wb4, wb5, wb6, wb7⟩ := digestBlock_words b hb
  obtain ⟨wb8, wb9, wb10, wb11, wb12, wb13, wb14, wb15⟩ := digestBlock_tail b
  have qa0 : (⟨a.a, a.b, a.c, a.d⟩ : M128) = Qv (Wt (digestBlock a)) 0 := by
    simp only [Qv, wa0, wa1, wa2, wa3]
  have qa1 : (⟨a.e, a.f, a.g, a.h⟩ : M128) = Qv (Wt (digestBlock a)) 4 := by
    simp only [Qv, wa4, wa5, wa6, wa7]
  have qb0 : (⟨b.a, b.b, b.c, b.d⟩ : M128) = Qv (Wt (digestBlock b)) 0 := by
    simp only [Qv, wb0, wb1, wb2, wb3]
  have qb1 : (⟨b.e, b.f, b.g, b.h⟩ : M128) = Qv (Wt (digestBlock b)) 4 := by
    simp only [Qv, wb4, wb5, wb6, wb7]
  have m2 : _mm_set_epi64x 0x0 0x80000000 = ⟨0x80000000, 0, 0, 0⟩ := by decide
  have m3 : _mm_set_epi64x 0x10000000000 0x0 = ⟨0, 0, 0, 0x100⟩ := by decide
  have qa2 : (⟨0x80000000, 0, 0, 0⟩ : M128) = Qv (Wt (digestBlock a)) 8 := by
    simp only [Qv, wa8, wa9, wa10, wa11]
  have qa3 : (⟨0, 0, 0, 0x100⟩ : M128) = Qv (Wt (digestBlock a)) 12 := by
    simp only [Qv, wa12, wa13, wa14, wa15]
  have qb2 : (⟨0x80000000, 0, 0, 0⟩ : M128) = Qv (Wt (digestBlock b)) 8 := by
    simp only [Qv, wb8, wb9, wb10, wb11]
  have qb3 : (⟨0, 0, 0, 0x100⟩ : M128) = Qv (Wt (digestBlock b)) 12 := by
    simp only [Qv, wb12, wb13, wb14, wb15]
  rw [← qa2] at a0 a4 a8
  rw [← qa3] at a0 a4 a8 a12
  rw [← qb2] at c0 c4 c8
  rw [← qb3] at c0 c4 c8 c12
  simp only [d64Transform3, Unshuffle_layout a ha, Unshuffle_layout b hb, qa0, qa1, qb0, qb1,
    m2, m3, ShiftMessageB, a0, a4, a8, a12, a16, a20, a24, a28, a32, a36, a40, a44,
    c0, c4, c8, c12, c16, c20, c24, c28, c32, c36, c40, c44, INIT_layout, add_INIT_feed,
    QuadRound2_wk, QuadRound_wk, wkRounds_wkRounds, List.cons_append, List.nil_append,
    Qv_l0, Qv_l1, Qv_l2, Qv_l3, Nat.reduceAdd, Nat.reduceMod, Nat.reduceDiv]
  rw [compress_eq_feed, compress_eq_feed, wk_list, wk_list,
    wk_tail_congr _ _ wa8 wa9 wa10 wa11 wa12 wa13 wa14 wa15,
    wk_tail_congr _ _ wb8 wb9 wb10 wb11 wb12 wb13 wb14 wb15]

theorem byte_rev (x0 x1 x2 x3 : Nat) (h0 : x0 < 256) (h1 : x1 < 256) (h2 : x2 < 256)
    (h3 : x3 < 256) :
    (x3 + 256 * x2 + 65536 * x1 + 16777216 * x0) % 256 = x3 ∧
    (x3 + 256 * x2 + 65536 * x1 + 16777216 * x0) / 256 % 256 = x2 ∧
    (x3 + 256 * x2 + 65536 * x1 + 16777216 * x0) / 65536 % 256 = x1 ∧
    (x3 + 256 * x2 + 65536 * x1 + 16777216 * x0) / 16777216 % 256 = x0 := by
  omega

theorem store_shuffle_MASK (v : M128) :
    _mm_storeu_si128 (_mm_shuffle_epi8 v (_mm_load_si128 MASK)) =
      be32Bytes v.l0 ++ be32Bytes v.l1 ++ be32Bytes v.l2 ++ be32Bytes v.l3 := by
  obtain ⟨a, b, c, d⟩ := v
  simp [_mm_storeu_si128, _mm_shuffle_epi8, _mm_load_si128, MASK, M128.ofBytes, le32At, M128.bytes,
    le32Bytes, be32Bytes]
  have ha := byte_rev (a % 256) (a / 256 % 256) (a / 65536 % 256) (a / 16777216 % 256)
    (Nat.mod_lt _ (by decide)) (Nat.mod_lt _ (by decide)) (Nat.mod_lt _ (by decide))
    (Nat.mod_lt _ (by decide))
  have hb := byte_rev (b % 256) (b / 256 % 256) (b / 65536 % 256) (b / 16777216 % 256)
    (Nat.mod_lt _ (by decide)) (Nat.mod_lt _ (by decide)) (Nat.mod_lt _ (by decide))
    (Nat.mod_lt _ (by decide))
  have hc := byte_rev (c % 256) (c / 256 % 256) (c / 65536 % 256) (c / 16777216 % 256)
    (Nat.mod_lt _ (by decide)) (Nat.mod_lt _ (by decide)) (Nat.mod_lt _ (by decide))
    (Nat.mod_lt _ (by decide))
  have hd := byte_rev (d % 256) (d / 256 % 256) (d / 65536 % 256) (d / 16777216 % 256)
    (Nat.mod_lt _ (by decide)) (Nat.mod_lt _ (by decide)) (Nat.mod_lt _ (by decide))
    (Nat.mod_lt _ (by decide))
  exact ⟨ha.1, ha.2.1, ha.2.2.1, ha.2.2.2, hb.1, hb.2.1, hb.2.2.1, hb.2.2.2,
    hc.1, hc.2.1, hc.2.2.1, hc.2.2.2, hd.1, hd.2.1, hd.2.2.1, hd.2.2.2⟩

theorem Save_eq (out : List Nat) (p : Nat) (v : M128) (h : p + 16 ≤ out.length) :
    Save out p v = some (out.take p ++
      (be32Bytes v.l0 ++ be32Bytes v.l1 ++ be32Bytes v.l2 ++ be32Bytes v.l3) ++
      out.drop (p + 16)) := by
  simp only [Save, h, if_true, store_shuffle_MASK]

theorem beBytes_length (v : M128) : (beBytes v).length = 16 := by
  simp [beBytes, be32Bytes]

theorem Save_beBytes (out : List Nat) (p : Nat) (v : M128) (h : p + 16 ≤ out.length) :
    Save out p v = some (out.take p ++ beBytes v ++ out.drop (p + 16)) := by
  rw [Save_eq out p v h]; rfl

theorem splice_eq (pre seg post x : List Nat) (p : Nat) (hp : pre.length = p)
    (hs : seg.length = 16) :
    (pre ++ seg ++ post).take p ++ x ++ (pre ++ seg ++ post).drop (p + 16) = pre ++ x ++ post := by
  subst hp
  rw [List.append_assoc pre seg post, List.take_left, ← hs, ← List.append_assoc,
    ← List.length_append, List.drop_left]

theorem split64 (out : List Nat) (h : out.length = 64) :
    ∃ o0 o1 o2 o3 : List Nat, out = o0 ++ o1 ++ o2 ++ o3 ∧ o0.length = 16 ∧ o1.length = 16 ∧
      o2.length = 16 ∧ o3.length = 16 := by
  refine ⟨out.take 16, (out.drop 16).take 16, (out.drop 32).take 16, out.drop 48, ?_, ?_, ?_, ?_, ?_⟩
  · conv_lhs => rw [← List.take_append_drop 16 out, ← List.take_append_drop 16 (out.drop 16),
      ← List.take_append_drop 16 (List.drop 16 (List.drop 16 out))]
    simp only [List.drop_drop, List.append_assoc, Nat.reduceAdd]
  · simp only [List.length_take, h]; decide
  · simp only [List.length_take, List.length_drop, h]; decide
  · simp only [List.length_take, List.length_drop, h]; decide
  · simp only [List.length_drop, h]

theorem save4 (out : List Nat) (v0 v1 v2 v3 : M128) (hout : out.length = 64) :
    ((Save out 0 v0).bind (fun o => (Save o 16 v1).bind (fun o => (Save o 32 v2).bind
      (fun o => Save o 48 v3)))) = some (beBytes v0 ++ beBytes v1 ++ beBytes v2 ++ beBytes v3) := by
  obtain ⟨o0, o1, o2, o3, rfl, h0, h1, h2, h3⟩ := split64 out hout
  have e0 := splice_eq [] o0 (o1 ++ o2 ++ o3) (beBytes v0) 0 rfl h0
  have e1 := splice_eq (beBytes v0) o1 (o2 ++ o3) (beBytes v1) 16 (beBytes_length v0) h1
  have e2 := splice_eq (beBytes v0 ++ beBytes v1) o2 o3 (beBytes v2) 32
    (by rw [List.length_append, beBytes_length, beBytes_length]) h2
  have e3 := splice_eq (beBytes v0 ++ beBytes v1 ++ beBytes v2) o3 [] (beBytes v3) 48
    (by rw [List.length_append, List.length_append, beBytes_length, beBytes_length,
      beBytes_length]) h3
  simp only [List.nil_append, List.append_nil, List.append_assoc, Nat.reduceAdd] at e0 e1 e2 e3
  have l0 : 0 + 16 ≤ (o0 ++ o1 ++ o2 ++ o3).length := by
    simp only [List.length_append, h0, h1, h2, h3]; decide
  rw [Save_beBytes _ _ _ l0]
  simp only [Option.bind, List.append_assoc, Nat.reduceAdd, e0]
  have l1 : 16 + 16 ≤ (beBytes v0 ++ (o1 ++ (o2 ++ o3))).length := by
    simp only [List.length_append, beBytes_length, h1, h2, h3]; decide
  rw [Save_beBytes _ _ _ l1]
  simp only [Option.bind, List.append_assoc, Nat.reduceAdd, e1]
  have l2 : 32 + 16 ≤ (beBytes v0 ++ (beBytes v1 ++ (o2 ++ o3))).length := by
    simp only [List.length_append, beBytes_length, h2, h3]; decide
  rw [Save_beBytes _ _ _ l2]
  simp only [Option.bind, List.append_assoc, Nat.reduceAdd, e2]
  have l3 : 48 + 16 ≤ (beBytes v0 ++ (beBytes v1 ++ (beBytes v2 ++ o3))).length := by
    simp only [List.length_append, beBytes_length, h3]; decide
  rw [Save_beBytes _ _ _ l3]
  simp only [List.append_assoc, Nat.reduceAdd, e3]

theorem beBytes_serialize (r : State) :
    beBytes ⟨r.a, r.b, r.c, r.d⟩ ++ beBytes ⟨r.e, r.f, r.g, r.h⟩ = serialize r := by
  simp only [beBytes, serialize, List.append_assoc]

theorem d64Extract_eq (out : List Nat) (a b : State) (ha : a.wf) (hb : b.wf)
    (hout : out.length = 64) :
    d64Extract out (layout a) (layout b) = some (serialize a ++ serialize b) := by
  have s4 := save4 out ⟨a.a, a.b, a.c, a.d⟩ ⟨a.e, a.f, a.g, a.h⟩ ⟨b.a, b.b, b.c, b.d⟩
    ⟨b.e, b.f, b.g, b.h⟩ hout
  simp only [d64Extract, sizeof_sha256, Unshuffle_layout a ha, Unshuffle_layout b hb, bind, pure,
    Option.bind_some,
    Nat.reduceMul, Nat.reduceAdd]
  rw [s4, ← beBytes_serialize a, ← beBytes_serialize b]
  simp only [List.append_assoc]

theorem d64_eq (out : List Nat) (inp : Nat) (bs rs : List Nat) (hb : ∀ b ∈ bs, b < 256)
    (hlen : inp + 128 ≤ bs.length) (hout : out.length = 64) :
    transform_sha256d64_shani_2way out inp ⟨bs, rs⟩ =
      some (serialize (dshaState ((bs.drop inp).take 64)) ++
            serialize (dshaState ((bs.drop (inp + 64)).take 64)),
        ⟨bs, rs ++ [inp, inp + 64, inp + 16, inp + 80, inp + 32, inp + 96, inp + 48,
          inp + 112]⟩) := by
  have h3 := d64Transform3_eq (compress (compress IV ((bs.drop inp).take 64)) padBlock64)
    (compress (compress IV ((bs.drop (inp + 64)).take 64)) padBlock64)
    (compress_wf _ _) (compress_wf _ _)
  simp only [transform_sha256d64_shani_2way, bind, StateT.bind, d64Transform1_eq inp bs rs hb hlen,
    Option.bind, d64Transform2_eq, h3, d64Extract_eq _ _ _ (compress_wf _ _) (compress_wf _ _) hout,
    liftM, monadLift, MonadLift.monadLift, StateT.lift, pure, dshaState]

theorem padBlock64_length : padBlock64.length = 64 := by decide

theorem padTail32_length : padTail32.length = 32 := by decide

theorem pad_64 (msg : List Nat) (h : msg.length = 64) : pad msg = msg ++ padBlock64 := by
  simp only [pad, h, padBlock64, List.append_assoc]

theorem pad_32 (msg : List Nat) (h : msg.length = 32) : pad msg = msg ++ padTail32 := by
  simp only [pad, h, padTail32, List.append_assoc]

theorem sha256_64 (msg : List Nat) (h : msg.length = 64) :
    sha256 msg = serialize (compress (compress IV msg) padBlock64) := by
  have hl : (msg ++ padBlock64).length / 64 = 2 := by
    rw [List.length_append, h, padBlock64_length]
  have b0 : ((msg ++ padBlock64).drop (64 * 0)).take 64 = msg := by
    rw [Nat.mul_zero, List.drop_zero, ← h, List.take_left]
  have b1 : ((msg ++ padBlock64).drop (64 * 1)).take 64 = padBlock64 := by
    rw [Nat.mul_one, ← h, List.drop_left, h, ← padBlock64_length, List.take_length]
  simp only [sha256, pad_64 msg h, hl, blocksOf]
  rw [show List.range 2 = [0, 1] by rfl]
  simp only [List.map_cons, List.map_nil, b0, b1, List.foldl_cons, List.foldl_nil]

theorem sha256_32 (msg : List Nat) (h : msg.length = 32) :
    sha256 msg = serialize (compress IV (msg ++ padTail32)) := by
  have hl : (msg ++ padTail32).length / 64 = 1 := by
    rw [List.length_append, h, padTail32_length]
  have b0 : ((msg ++ padTail32).drop (64 * 0)).take 64 = msg ++ padTail32 := by
    rw [Nat.mul_zero, List.drop_zero]
    apply List.take_of_length_le
    rw [List.length_append, h, padTail32_length]
  simp only [sha256, pad_32 msg h, hl, blocksOf]
  rw [show List.range 1 = [0] by rfl]
  simp only [List.map_cons, List.map_nil, b0, List.foldl_cons, List.foldl_nil]

theorem sha256d_64 (msg : List Nat) (h : msg.length = 64) :
    sha256 (sha256 msg) = serialize (dshaState msg) := by
  rw [sha256_64 msg h, sha256_32 _ (serialize_length _)]
  rfl

theorem list_two (p : List Nat) (h : 2 ≤ p.length) : ∃ a b r, p = a :: b :: r := by
  match p, h with
  | a :: b :: r, _ => exact ⟨a, b, r, rfl⟩

theorem list_four (p : List Nat) (h : 4 ≤ p.length) : ∃ a b c d r, p = a :: b :: c :: d :: r := by
  match p, h with
  | a :: b :: c :: d :: r, _ => exact ⟨a, b, c, d, r, rfl⟩

theorem list_eight (p : List Nat) (h : 8 ≤ p.length) :
    ∃ a b c d e f g k r, p = a :: b :: c :: d :: e :: f :: g :: k :: r := by
  match p, h with
  | a :: b :: c :: d :: e :: f :: g :: k :: r, _ => exact ⟨a, b, c, d, e, f, g, k, r, rfl⟩

theorem div256_le (b acc : Nat) (h : b < 256) : (b + 256 * acc) / 256 = acc := by omega
theorem mod256_le (b acc : Nat) (h : b < 256) : (b + 256 * acc) % 256 = b := by omega
theorem div256_be (b acc : Nat) (h : b < 256) : (acc * 256 + b) / 256 = acc := by omega
theorem mod256_be (b acc : Nat) (h : b < 256) : (acc * 256 + b) % 256 = b := by omega

theorem div_pow2 (x : Nat) : x / 65536 = x / 256 / 256 := by omega
theorem div_pow3 (x : Nat) : x / 16777216 = x / 256 / 256 / 256 := by omega
theorem div_pow4 (x : Nat) : x / 4294967296 = x / 256 / 256 / 256 / 256 := by omega
theorem div_pow5 (x : Nat) : x / 1099511627776 = x / 256 / 256 / 256 / 256 / 256 := by omega
theorem div_pow6 (x : Nat) : x / 281474976710656 = x / 256 / 256 / 256 / 256 / 256 / 256 := by
  omega
theorem div_pow7 (x : Nat) :
    x / 72057594037927936 = x / 256 / 256 / 256 / 256 / 256 / 256 / 256 := by omega

theorem ReadLE16_eq (be : Bool) (p : List Nat) (hb : ∀ b ∈ p, b < 256) (h : 2 ≤ p.length) :
    ReadLE16 be p = some (p.getD 0 0 + p.getD 1 0 * 256) := by
  obtain ⟨a, b, r, rfl⟩ := list_two p h
  have ha : a < 256 := hb a (by simp)
  have hb2 : b < 256 := hb b (by simp)
  cases be <;>
    simp [ReadLE16, memcpyFrom, le16toh, ofObjectBytes, bswap, List.range, List.range.loop,
      div256_be, mod256_be, ha, hb2] <;>
    omega

theorem ReadBE16_eq (be : Bool) (p : List Nat) (hb : ∀ b ∈ p, b < 256) (h : 2 ≤ p.length) :
    ReadBE16 be p = some (p.getD 0 0 * 256 + p.getD 1 0) := by
  obtain ⟨a, b, r, rfl⟩ := list_two p h
  have ha : a < 256 := hb a (by simp)
  have hb2 : b < 256 := hb b (by simp)
  cases be
  · simp [ReadBE16, memcpyFrom, be16toh, ofObjectBytes, bswap, List.range, List.range.loop,
      div256_le, mod256_le, ha, hb2]
    omega
  · simp [ReadBE16, memcpyFrom, be16toh, ofObjectBytes, bswap, List.range, List.range.loop,
      div256_le, mod256_le, ha, hb2]

theorem ReadLE32_eq (be : Bool) (p : List Nat) (hb : ∀ b ∈ p, b < 256) (h : 4 ≤ p.length) :
    ReadLE32 be p = some (p.getD 0 0 + p.getD 1 0 * 256 + p.getD 2 0 * 65536 +
      p.getD 3 0 * 16777216) := by
  obtain ⟨a, b, c, d, r, rfl⟩ := list_four p h
  have ha : a < 256 := hb a (by simp)
  have hb2 : b < 256 := hb b (by simp)
  have hc : c < 256 := hb c (by simp)
  have hd : d < 256 := hb d (by simp)
  cases be <;>
    simp [ReadLE32, memcpyFrom, le32toh, ofObjectBytes, bswap, List.range, List.range.loop,
      div_pow2, div_pow3, div256_be, mod256_be, ha, hb2, hc, hd] <;>
    omega

theorem ReadBE32_eq (be : Bool) (p : List Nat) (hb : ∀ b ∈ p, b < 256) (h : 4 ≤ p.length) :
    ReadBE32 be p = some (p.getD 0 0 * 16777216 + p.getD 1 0 * 65536 + p.getD 2 0 * 256 +
      p.getD 3 0) := by
  obtain ⟨a, b, c, d, r, rfl⟩ := list_four p h
  have ha : a < 256 := hb a (by simp)
  have hb2 : b < 256 := hb b (by simp)
  have hc : c < 256 := hb c (by simp)
  have hd : d < 256 := hb d (by simp)
  cases be <;>
    simp [ReadBE32, memcpyFrom, be32toh, ofObjectBytes, bswap, List.range, List.range.loop,
      div_pow2, div_pow3, div256_le, mod256_le, ha, hb2, hc, hd] <;>
    omega

theorem ReadLE64_eq (be : Bool) (p : List Nat) (hb : ∀ b ∈ p, b < 256) (h : 8 ≤ p.length) :
    ReadLE64 be p = some (p.getD 0 0 + p.getD 1 0 * 256 + p.getD 2 0 * 65536 +
      p.getD 3 0 * 16777216 + p.getD 4 0 * 4294967296 + p.getD 5 0 * 1099511627776 +
      p.getD 6 0 * 281474976710656 + p.getD 7 0 * 72057594037927936) := by
  obtain ⟨a, b, c, d, e, f, g, k, r, rfl⟩ := list_eight p h
  have ha : a < 256 := hb a (by simp)
  have hb2 : b < 256 := hb b (by simp)
  have hc : c < 256 := hb c (by simp)
  have hd : d < 256 := hb d (by simp)
  have he : e < 256 := hb e (by simp)
  have hf : f < 256 := hb f (by simp)
  have hg : g < 256 := hb g (by simp)
  have hk : k < 256 := hb k (by simp)
  cases be <;>
    simp [ReadLE64, memcpyFrom, le64toh, ofObjectBytes, bswap, List.range, List.range.loop,
      div_pow2, div_pow3, div_pow4, div_pow5, div_pow6, div_pow7, div256_be, mod256_be,
      ha, hb2, hc, hd, he, hf, hg, hk] <;>
    omega

theorem ReadBE64_eq (be : Bool) (p : List Nat) (hb : ∀ b ∈ p, b < 256) (h : 8 ≤ p.length) :
    ReadBE64 be p = some (p.getD 0 0 * 72057594037927936 + p.getD 1 0 * 281474976710656 +
      p.getD 2 0 * 1099511627776 + p.getD 3 0 * 4294967296 + p.getD 4 0 * 16777216 +
      p.getD 5 0 * 65536 + p.getD 6 0 * 256 + p.getD 7 0) := by
  obtain ⟨a, b, c, d, e, f, g, k, r, rfl⟩ := list_eight p h
  have ha : a < 256 := hb a (by simp)
  have hb2 : b < 256 := hb b (by simp)
  have hc : c < 256 := hb c (by simp)
  have hd : d < 256 := hb d (by simp)
  have he : e < 256 := hb e (by simp)
  have hf : f < 256 := hb f (by simp)
  have hg : g < 256 := hb g (by simp)
  have hk : k < 256 := hb k (by simp)
  cases be <;>
    simp [ReadBE64, memcpyFrom, be64toh, ofObjectBytes, bswap, List.range, List.range.loop,
      div_pow2, div_pow3, div_pow4, div_pow5, div_pow6, div_pow7, div256_le, mod256_le,
      ha, hb2, hc, hd, he, hf, hg, hk] <;>
    omega

theorem mod256_lt (x : Nat) : x % 256 < 256 := Nat.mod_lt _ (by decide)

theorem WriteLE16_eq (be : Bool) (p : List Nat) (x : Nat) (h : 2 ≤ p.length) :
    WriteLE16 be p x = some (x % 256 :: x / 256 % 256 :: p.drop 2) := by
  cases be <;>
    simp [WriteLE16, memcpyTo, htole16, objectBytes, bswap, List.range, List.range.loop, h,
      div256_le, mod256_le, mod256_lt]

theorem WriteBE16_eq (be : Bool) (p : List Nat) (x : Nat) (adj : List Nat) (h : 4 ≤ p.length)
    (hadj : 2 ≤ adj.length) :
    WriteBE16 be p x adj = some (x / 256 % 256 :: x % 256 :: adj.getD 0 0 :: adj.getD 1 0 ::
      p.drop 4) := by
  obtain ⟨j0, j1, r, rfl⟩ := list_two adj hadj
  cases be <;>
    simp [WriteBE16, memcpyTo, htobe16, objectBytes, bswap, List.range, List.range.loop, h,
      div256_le, mod256_le, mod256_lt]

theorem WriteLE32_eq (be : Bool) (p : List Nat) (x : Nat) (h : 4 ≤ p.length) :
    WriteLE32 be p x = some (x % 256 :: x / 256 % 256 :: x / 65536 % 256 ::
      x / 16777216 % 256 :: p.drop 4) := by
  cases be <;>
    simp [WriteLE32, memcpyTo, htole32, objectBytes, bswap, List.range, List.range.loop, h,
      div_pow2, div_pow3, div256_le, mod256_le, mod256_lt]

theorem WriteBE32_eq (be : Bool) (p : List Nat) (x : Nat) (h : 4 ≤ p.length) :
    WriteBE32 be p x = some (x / 16777216 % 256 :: x / 65536 % 256 :: x / 256 % 256 ::
      x % 256 :: p.drop 4) := by
  cases be <;>
    simp [WriteBE32, memcpyTo, htobe32, objectBytes, bswap, List.range, List.range.loop, h,
      div_pow2, div_pow3, div256_le, mod256_le, mod256_lt]

theorem WriteLE64_eq (be : Bool) (p : List Nat) (x : Nat) (h : 8 ≤ p.length) :
    WriteLE64 be p x = some (x % 256 :: x / 256 % 256 :: x / 65536 % 256 ::
      x / 16777216 % 256 :: x / 4294967296 % 256 :: x / 1099511627776 % 256 ::
      x / 281474976710656 % 256 :: x / 72057594037927936 % 256 :: p.drop 8) := by
  cases be <;>
    simp [WriteLE64, memcpyTo, htole64, objectBytes, bswap, List.range, List.range.loop, h,
      div_pow2, div_pow3, div_pow4, div_pow5, div_pow6, div_pow7, div256_le, mod256_le,
      mod256_lt]

theorem WriteBE64_eq (be : Bool) (p : List Nat) (x : Nat) (h : 8 ≤ p.length) :
    WriteBE64 be p x = some (x / 72057594037927936 % 256 :: x / 281474976710656 % 256 ::
      x / 1099511627776 % 256 :: x / 4294967296 % 256 :: x / 16777216 % 256 ::
      x / 65536 % 256 :: x / 256 % 256 :: x % 256 :: p.drop 8) := by
  cases be <;>
    simp [WriteBE64, memcpyTo, htobe64, objectBytes, bswap, List.range, List.range.loop, h,
      div_pow2, div_pow3, div_pow4, div_pow5, div_pow6, div_pow7, div256_le, mod256_le,
      mod256_lt]

set_option maxRecDepth 10000 in
theorem loopBody_reads (chunk : Nat) (st : M128 × M128) (bs rs : List Nat)
    (hlen : chunk + 64 ≤ bs.length) :
    ∃ st2, loopBody chunk st ⟨bs, rs⟩ =
      some (st2, ⟨bs, rs ++ [chunk, chunk + 16, chunk + 32, chunk + 48]⟩) := by
  have h0 : chunk + 16 ≤ bs.length := by omega
  have h1 : chunk + 16 + 16 ≤ bs.length := by omega
  have h2 : chunk + 32 + 16 ≤ bs.length := by omega
  have h3 : chunk + 48 + 16 ≤ bs.length := by omega
  simp only [loopBody, bind, StateT.bind, Load_mk, if_pos h0, if_pos h1, if_pos h2, if_pos h3,
    pure, StateT.pure, Option.bind, List.append_assoc, List.cons_append, List.nil_append]
  exact ⟨_, rfl⟩

theorem whileBlocks_reads (n : Nat) : ∀ (chunk : Nat) (st : M128 × M128) (bs rs : List Nat),
    chunk + 64 * n ≤ bs.length →
    ∃ st2, whileBlocks n chunk st ⟨bs, rs⟩ = some (st2, ⟨bs, rs ++ loadOffsets chunk n⟩) := by
  induction n with
  | zero =>
    intro chunk st bs rs _
    exact ⟨st, by simp [whileBlocks, loadOffsets, pure, StateT.pure]⟩
  | succ n ih =>
    intro chunk st bs rs hlen
    obtain ⟨st1, h1⟩ := loopBody_reads chunk st bs rs (by omega)
    obtain ⟨st2, h2⟩ := ih (chunk + 64) st1 bs (rs ++ [chunk, chunk + 16, chunk + 32, chunk + 48])
      (by omega)
    refine ⟨st2, ?_⟩
    simp only [whileBlocks, bind, StateT.bind, h1, Option.bind, h2, loadOffsets_succ,
      List.append_assoc]

theorem transform_reads (s : State) (chunk n : Nat) (bs rs : List Nat)
    (hlen : chunk + 64 * n ≤ bs.length) :
    ∃ s2, transform_sha256_shani s chunk n ⟨bs, rs⟩ =
      some (s2, ⟨bs, rs ++ loadOffsets chunk n⟩) := by
  obtain ⟨st2, h2⟩ := whileBlocks_reads n chunk
    (Shuffle (_mm_loadu_si128 (le32Bytes s.a ++ le32Bytes s.b ++ le32Bytes s.c ++ le32Bytes s.d),
      _mm_loadu_si128 (le32Bytes s.e ++ le32Bytes s.f ++ le32Bytes s.g ++ le32Bytes s.h)))
    bs rs hlen
  simp only [transform_sha256_shani, bind, StateT.bind, h2, Option.bind, pure, StateT.pure]
  exact ⟨_, rfl⟩

theorem loadOffsets_snoc (chunk n : Nat) :
    loadOffsets chunk (n + 1) = loadOffsets chunk n ++
      [chunk + 64 * n, chunk + 64 * n + 16, chunk + 64 * n + 32, chunk + 64 * n + 48] := by
  simp only [loadOffsets, List.range_succ, List.flatMap_append, List.flatMap_cons,
    List.flatMap_nil, List.append_nil]

theorem loadOffsets_cover (n k : Nat) :
    (loadOffsets 0 n).countP (fun p => decide (p ≤ k ∧ k < p + 16)) =
      if k < 64 * n then 1 else 0 := by
  induction n with
  | zero => simp [loadOffsets]
  | succ n ih =>
    rw [loadOffsets_snoc, List.countP_append, ih]
    simp only [List.countP_cons, List.countP_nil, Nat.zero_add]
    by_cases h1 : k < 64 * n
    · have h2 : k < 64 * (n + 1) := by omega
      simp only [h1, h2, if_true, decide_eq_true_eq]
      have e0 : ¬ (64 * n ≤ k ∧ k < 64 * n + 16) := by omega
      have e1 : ¬ (64 * n + 16 ≤ k ∧ k < 64 * n + 16 + 16) := by omega
      have e2 : ¬ (64 * n + 32 ≤ k ∧ k < 64 * n + 32 + 16) := by omega
      have e3 : ¬ (64 * n + 48 ≤ k ∧ k < 64 * n + 48 + 16) := by omega
      simp only [e0, e1, e2, e3, if_false]
    · by_cases h2 : k < 64 * (n + 1)
      · simp only [h1, h2, if_true, if_false, decide_eq_true_eq]
        by_cases c0 : k < 64 * n + 16
        · have e0 : (64 * n ≤ k ∧ k < 64 * n + 16) := by omega
          have e1 : ¬ (64 * n + 16 ≤ k ∧ k < 64 * n + 16 + 16) := by omega
          have e2 : ¬ (64 * n + 32 ≤ k ∧ k < 64 * n + 32 + 16) := by omega
          have e3 : ¬ (64 * n + 48 ≤ k ∧ k < 64 * n + 48 + 16) := by omega
          simp only [e0, e1, e2, e3, if_false, if_true, and_self]
        · by_cases c1 : k < 64 * n + 32
          · have e0 : ¬ (64 * n ≤ k ∧ k < 64 * n + 16) := by omega
            have e1 : (64 * n + 16 ≤ k ∧ k < 64 * n + 16 + 16) := by omega
            have e2 : ¬ (64 * n + 32 ≤ k ∧ k < 64 * n + 32 + 16) := by omega
            have e3 : ¬ (64 * n + 48 ≤ k ∧ k < 64 * n + 48 + 16) := by omega
            simp only [e0, e1, e2, e3, if_false, if_true, and_self]
          · by_cases c2 : k < 64 * n + 48
            · have e0 : ¬ (64 * n ≤ k ∧ k < 64 * n + 16) := by omega
              have e1 : ¬ (64 * n + 16 ≤ k ∧ k < 64 * n + 16 + 16) := by omega
              have e2 : (64 * n + 32 ≤ k ∧ k < 64 * n + 32 + 16) := by omega
              have e3 : ¬ (64 * n + 48 ≤ k ∧ k < 64 * n + 48 + 16) := by omega
              simp only [e0, e1, e2, e3, if_false, if_true, and_self]
            · have e0 : ¬ (64 * n ≤ k ∧ k < 64 * n + 16) := by omega
              have e1 : ¬ (64 * n + 16 ≤ k ∧ k < 64 * n + 16 + 16) := by omega
              have e2 : ¬ (64 * n + 32 ≤ k ∧ k < 64 * n + 32 + 16) := by omega
              have e3 : (64 * n + 48 ≤ k ∧ k < 64 * n + 48 + 16) := by omega
              simp only [e0, e1, e2, e3, if_false, if_true, and_self]
      · simp only [h1, h2, if_false, decide_eq_true_eq]
        have e0 : ¬ (64 * n ≤ k ∧ k < 64 * n + 16) := by omega
        have e1 : ¬ (64 * n + 16 ≤ k ∧ k < 64 * n + 16 + 16) := by omega
        have e2 : ¬ (64 * n + 32 ≤ k ∧ k < 64 * n + 32 + 16) := by omega
        have e3 : ¬ (64 * n + 48 ≤ k ∧ k < 64 * n + 48 + 16) := by omega
        simp only [e0, e1, e2, e3, if_false]

theorem blocksFrom_zero (bs : List Nat) (n : Nat) : blocksFrom bs 0 n = blocksOf n bs := by
  simp only [blocksFrom, blocksOf, Nat.zero_add]

theorem blocksOf_append (c1 c2 : List Nat) (n1 n2 : Nat) (h1 : c1.length = 64 * n1) :
    blocksOf (n1 + n2) (c1 ++ c2) = blocksOf n1 c1 ++ blocksOf n2 c2 := by
  simp only [blocksOf, List.range_add, List.map_append, List.map_map]
  congr 1
  · apply List.map_congr_left
    intro i hi
    have hi2 : i < n1 := List.mem_range.mp hi
    rw [List.drop_append_of_le_length (by omega),
      List.take_append_of_le_length (by rw [List.length_drop]; omega)]
  · apply List.map_congr_left
    intro i _
    simp only [Function.comp]
    rw [show 64 * (n1 + i) = c1.length + 64 * i by omega, List.drop_append]

theorem transform_fst (s : State) (n : Nat) (bs : List Nat) (hs : s.wf)
    (hb : ∀ b ∈ bs, b < 256) (hlen : bs.length = 64 * n) :
    (transform_sha256_shani s 0 n ⟨bs, []⟩).map Prod.fst =
      some ((blocksOf n bs).foldl compress s) := by
  rw [transform_eq s 0 n bs [] hs hb (by omega), blocksFrom_zero]
  rfl

theorem bytes_append (xs ys : List Nat) (hx : ∀ b ∈ xs, b < 256) (hy : ∀ b ∈ ys, b < 256) :
    ∀ b ∈ xs ++ ys, b < 256 := by
  intro b hb
  rcases List.mem_append.mp hb with h | h
  · exact hx b h
  · exact hy b h

theorem padBlock64_bytes : ∀ b ∈ padBlock64, b < 256 := by decide

theorem d64_fst (in0 in1 in2 in3 out : List Nat) (h0 : in0.length = 32) (h1 : in1.length = 32)
    (h2 : in2.length = 32) (h3 : in3.length = 32)
    (hb : ∀ b ∈ in0 ++ in1 ++ in2 ++ in3, b < 256) (hout : out.length = 64) :
    (transform_sha256d64_shani_2way out 0 ⟨in0 ++ in1 ++ in2 ++ in3, []⟩).map Prod.fst =
      some (serialize (dshaState (in0 ++ in1)) ++ serialize (dshaState (in2 ++ in3))) := by
  have hA : (in0 ++ in1).length = 64 := by rw [List.length_append, h0, h1]
  have hB : (in2 ++ in3).length = 64 := by rw [List.length_append, h2, h3]
  have e : in0 ++ in1 ++ in2 ++ in3 = (in0 ++ in1) ++ (in2 ++ in3) := by
    simp only [List.append_assoc]
  have bA : ((in0 ++ in1 ++ in2 ++ in3).drop 0).take 64 = in0 ++ in1 := by
    rw [e, List.drop_zero, ← hA, List.take_left]
  have bB : ((in0 ++ in1 ++ in2 ++ in3).drop (0 + 64)).take 64 = in2 ++ in3 := by
    rw [e, Nat.zero_add, ← hA, List.drop_left, hA, ← hB, List.take_length]
  have hl : 0 + 128 ≤ (in0 ++ in1 ++ in2 ++ in3).length := by
    rw [e, List.length_append, hA, hB]
  rw [d64_eq out 0 _ [] hb hl hout, bA, bB]
  rfl

theorem serialize_append_take (a b : State) :
    (serialize a ++ serialize b).take 32 = serialize a ∧
    (serialize a ++ serialize b).drop 32 = serialize b := by
  constructor
  · rw [← serialize_length a, List.take_left]
  · rw [← serialize_length a, List.drop_left]

theorem doubleHashViaTransform_eq (x y : List Nat) (hx : x.length = 32) (hy : y.length = 32)
    (hbx : ∀ b ∈ x, b < 256) (hby : ∀ b ∈ y, b < 256) :
    doubleHashViaTransform x y = some (serialize (dshaState (x ++ y))) := by
  have hxy : (x ++ y).length = 64 := by rw [List.length_append, hx, hy]
  have hl1 : (x ++ y ++ padBlock64).length = 64 * 2 := by
    rw [List.length_append, hxy, padBlock64_length]
  have hb1 : ∀ b ∈ x ++ y ++ padBlock64, b < 256 :=
    bytes_append _ _ (bytes_append _ _ hbx hby) padBlock64_bytes
  have t1 := transform_eq IV 0 2 (x ++ y ++ padBlock64) [] (by decide) hb1 (by omega)
  have b1 : blocksFrom (x ++ y ++ padBlock64) 0 2 = [x ++ y, padBlock64] := by
    rw [blocksFrom_zero]
    simp only [blocksOf]
    rw [show List.range 2 = [0, 1] by rfl]
    simp only [List.map_cons, List.map_nil, Nat.mul_zero, Nat.mul_one, List.drop_zero]
    rw [← hxy, List.take_left, List.drop_left, hxy, ← padBlock64_length, List.take_length]
  rw [b1] at t1
  simp only [List.foldl_cons, List.foldl_nil] at t1
  have hl2 : (digestBlock (compress (compress IV (x ++ y)) padBlock64)).length = 64 * 1 := by
    rw [digestBlock, List.length_append, serialize_length, padTail32_length]
  have t2 := transform_eq IV 0 1 (digestBlock (compress (compress IV (x ++ y)) padBlock64)) []
    (by decide) (digestBlock_bytes _) (by omega)
  have b2 : blocksFrom (digestBlock (compress (compress IV (x ++ y)) padBlock64)) 0 1 =
      [digestBlock (compress (compress IV (x ++ y)) padBlock64)] := by
    rw [blocksFrom_zero]
    simp only [blocksOf]
    rw [show List.range 1 = [0] by rfl]
    simp only [List.map_cons, List.map_nil, Nat.mul_zero, List.drop_zero]
    rw [List.take_of_length_le (by omega)]
  rw [b2] at t2
  simp only [List.foldl_cons, List.foldl_nil] at t2
  simp only [doubleHashViaTransform, bind, Option.bind, t1]
  rw [show serialize (compress (compress IV (x ++ y)) padBlock64) ++ padTail32 =
    digestBlock (compress (compress IV (x ++ y)) padBlock64) from rfl, t2]
  rfl

theorem loadOffsets_length (chunk n : Nat) : (loadOffsets chunk n).length = 4 * n := by
  induction n with
  | zero => simp [loadOffsets]
  | succ n ih =>
    rw [loadOffsets_snoc, List.length_append, ih]
    simp only [List.length_cons, List.length_nil]
    omega

theorem and_255 (y : Nat) : y &&& 0xff = y % 256 := Nat.and_pow_two_sub_one_eq_mod y 8

theorem bytes_cons (a : Nat) (l : List Nat) (ha : a < 256) (hl : ∀ b ∈ l, b < 256) :
    ∀ b ∈ a :: l, b < 256 := by
  intro b hb
  rcases List.mem_cons.mp hb with h | h
  · rw [h]; exact ha
  · exact hl b h

theorem bytes_drop (p : List Nat) (n : Nat) (hb : ∀ b ∈ p, b < 256) :
    ∀ b ∈ p.drop n, b < 256 :=
  fun b h => hb b (List.mem_of_mem_drop h)

theorem digits8_sum (x : Nat) (hx : x < 18446744073709551616) :
    x % 256 + x / 256 % 256 * 256 + x / 65536 % 256 * 65536 + x / 16777216 % 256 * 16777216 +
      x / 4294967296 % 256 * 4294967296 + x / 1099511627776 % 256 * 1099511627776 +
      x / 281474976710656 % 256 * 281474976710656 +
      x / 72057594037927936 % 256 * 72057594037927936 = x := by
  simp only [div_pow2, div_pow3, div_pow4, div_pow5, div_pow6, div_pow7]
  omega

theorem digits8_of_sum (a b c d e f g k v : Nat) (ha : a < 256) (hb : b < 256) (hc : c < 256)
    (hd : d < 256) (he : e < 256) (hf : f < 256) (hg : g < 256) (hk : k < 256)
    (hv : v = a + b * 256 + c * 65536 + d * 16777216 + e * 4294967296 +
      f * 1099511627776 + g * 281474976710656 + k * 72057594037927936) :
    v % 256 = a ∧ v / 256 % 256 = b ∧ v / 65536 % 256 = c ∧ v / 16777216 % 256 = d ∧
    v / 4294967296 % 256 = e ∧ v / 1099511627776 % 256 = f ∧
    v / 281474976710656 % 256 = g ∧ v / 72057594037927936 % 256 = k := by
  have e1 : v = a + 256 * (b + 256 * (c + 256 * (d + 256 * (e + 256 * (f + 256 * (g + 256 * k)))))) := by
    omega
  rw [e1]
  simp only [div_pow2, div_pow3, div_pow4, div_pow5, div_pow6, div_pow7, div256_le, mod256_le,
    ha, hb, hc, hd, he, hf, hg, hk, Nat.mod_eq_of_lt, and_self]

set_option maxHeartbeats 1000000 in
/-- The round trips that hold: reading back what was written gives the value (for `WriteBE16`
on a buffer of 4 bytes), and writing back what was read restores the buffer, for every
function except `WriteBE16`. -/
theorem byte_order_round_trips (be : Bool) (p : List Nat) (x : Nat) (adj : List Nat)
    (hb : ∀ b ∈ p, b < 256) :
    (2 ≤ p.length → x < 65536 → (WriteLE16 be p x).bind (ReadLE16 be) = some x) ∧
    (4 ≤ p.length → x < 4294967296 → (WriteLE32 be p x).bind (ReadLE32 be) = some x) ∧
    (8 ≤ p.length → x < 18446744073709551616 →
      (WriteLE64 be p x).bind (ReadLE64 be) = some x) ∧
    (4 ≤ p.length → 2 ≤ adj.length → x < 65536 →
      (WriteBE16 be p x adj).bind (ReadBE16 be) = some x) ∧
    (4 ≤ p.length → x < 4294967296 → (WriteBE32 be p x).bind (ReadBE32 be) = some x) ∧
    (8 ≤ p.length → x < 18446744073709551616 →
      (WriteBE64 be p x).bind (ReadBE64 be) = some x) ∧
    (2 ≤ p.length → (ReadLE16 be p).bind (WriteLE16 be p) = some p) ∧
    (4 ≤ p.length → (ReadLE32 be p).bind (WriteLE32 be p) = some p) ∧
    (8 ≤ p.length → (ReadLE64 be p).bind (WriteLE64 be p) = some p) ∧
    (4 ≤ p.length → (ReadBE32 be p).bind (WriteBE32 be p) = some p) ∧
    (8 ≤ p.length → (ReadBE64 be p).bind (WriteBE64 be p) = some p) := by
  have m := mod256_lt
  refine ⟨?_, ?_, ?_, ?_, ?_, ?_, ?_, ?_, ?_, ?_, ?_⟩
  · intro h hx
    rw [WriteLE16_eq be p x h, Option.some_bind, ReadLE16_eq be _
      (bytes_cons _ _ (m _) (bytes_cons _ _ (m _) (bytes_drop p 2 hb))) (by simp)]
    simp only [List.getD_cons_zero, List.getD_cons_succ]
    congr 1
    omega
  · intro h hx
    rw [WriteLE32_eq be p x h, Option.some_bind, ReadLE32_eq be _
      (bytes_cons _ _ (m _) (bytes_cons _ _ (m _) (bytes_cons _ _ (m _) (bytes_cons _ _ (m _)
        (bytes_drop p 4 hb))))) (by simp)]
    simp only [List.getD_cons_zero, List.getD_cons_succ]
    congr 1
    omega
  · intro h hx
    rw [WriteLE64_eq be p x h, Option.some_bind, ReadLE64_eq be _
      (bytes_cons _ _ (m _) (bytes_cons _ _ (m _) (bytes_cons _ _ (m _) (bytes_cons _ _ (m _)
        (bytes_cons _ _ (m _) (bytes_cons _ _ (m _) (bytes_cons _ _ (m _) (bytes_cons _ _ (m _)
        (bytes_drop p 8 hb))))))))) (by simp)]
    simp only [List.getD_cons_zero, List.getD_cons_succ]
    rw [digits8_sum x hx]
  · intro h hadj hx
    obtain ⟨j0, j1, r, rfl⟩ := list_two adj hadj
    rw [WriteBE16_eq be p x _ h hadj, Option.some_bind]
    have e : ReadBE16 be (x / 256 % 256 :: x % 256 :: List.getD (j0 :: j1 :: r) 0 0 ::
        List.getD (j0 :: j1 :: r) 1 0 :: p.drop 4) = some (x / 256 % 256 * 256 + x % 256) := by
      cases be
      · simp [ReadBE16, memcpyFrom, be16toh, ofObjectBytes, bswap, List.range, List.range.loop,
          div256_le, mod256_le, mod256_lt]
        omega
      · simp [ReadBE16, memcpyFrom, be16toh, ofObjectBytes, bswap, List.range, List.range.loop,
          div256_le, mod256_le, mod256_lt]
    rw [e]
    congr 1
    omega
  · intro h hx
    rw [WriteBE32_eq be p x h, Option.some_bind, ReadBE32_eq be _
      (bytes_cons _ _ (m _) (bytes_cons _ _ (m _) (bytes_cons _ _ (m _) (bytes_cons _ _ (m _)
        (bytes_drop p 4 hb))))) (by simp)]
    simp only [List.getD_cons_zero, List.getD_cons_succ]
    congr 1
    omega
  · intro h hx
    rw [WriteBE64_eq be p x h, Option.some_bind, ReadBE64_eq be _
      (bytes_cons _ _ (m _) (bytes_cons _ _ (m _) (bytes_cons _ _ (m _) (bytes_cons _ _ (m _)
        (bytes_cons _ _ (m _) (bytes_cons _ _ (m _) (bytes_cons _ _ (m _) (bytes_cons _ _ (m _)
        (bytes_drop p 8 hb))))))))) (by simp)]
    simp only [List.getD_cons_zero, List.getD_cons_succ]
    congr 1
    have e := digits8_sum x hx
    linarith
  · intro h
    obtain ⟨a, b, r, rfl⟩ := list_two p h
    have ha : a < 256 := hb a (by simp)
    have hb2 : b < 256 := hb b (by simp)
    rw [ReadLE16_eq be _ hb h, Option.some_bind, WriteLE16_eq be _ _ h]
    simp only [List.getD_cons_zero, List.getD_cons_succ, List.drop_succ_cons, List.drop_zero]
    congr 2
    · omega
    · congr 1; omega
  · intro h
    obtain ⟨a, b, c, d, r, rfl⟩ := list_four p h
    have ha : a < 256 := hb a (by simp)
    have hb2 : b < 256 := hb b (by simp)
    have hc : c < 256 := hb c (by simp)
    have hd : d < 256 := hb d (by simp)
    rw [ReadLE32_eq be _ hb h, Option.some_bind, WriteLE32_eq be _ _ h]
    simp only [List.getD_cons_zero, List.getD_cons_succ, List.drop_succ_cons, List.drop_zero]
    obtain ⟨v, hv⟩ : ∃ v, v = a + b * 256 + c * 65536 + d * 16777216 := ⟨_, rfl⟩
    rw [← hv]
    have d0 : v % 256 = a := by omega
    have d1 : v / 256 % 256 = b := by omega
    have d2 : v / 65536 % 256 = c := by omega
    have d3 : v / 16777216 % 256 = d := by omega
    rw [d0, d1, d2, d3]
  · intro h
    obtain ⟨a, b, c, d, e, f, g, k, r, rfl⟩ := list_eight p h
    have ha : a < 256 := hb a (by simp)
    have hb2 : b < 256 := hb b (by simp)
    have hc : c < 256 := hb c (by simp)
    have hd : d < 256 := hb d (by simp)
    have he : e < 256 := hb e (by simp)
    have hf : f < 256 := hb f (by simp)
    have hg : g < 256 := hb g (by simp)
    have hk : k < 256 := hb k (by simp)
    rw [ReadLE64_eq be _ hb h, Option.some_bind, WriteLE64_eq be _ _ h]
    simp only [List.getD_cons_zero, List.getD_cons_succ, List.drop_succ_cons, List.drop_zero]
    obtain ⟨v, hv⟩ : ∃ v, v = a + b * 256 + c * 65536 + d * 16777216 + e * 4294967296 +
      f * 1099511627776 + g * 281474976710656 + k * 72057594037927936 := ⟨_, rfl⟩
    rw [← hv]
    obtain ⟨d0, d1, d2, d3, d4, d5, d6, d7⟩ :=
      digits8_of_sum a b c d e f g k v ha hb2 hc hd he hf hg hk hv
    rw [d0, d1, d2, d3, d4, d5, d6, d7]
  · intro h
    obtain ⟨a, b, c, d, r, rfl⟩ := list_four p h
    have ha : a < 256 := hb a (by simp)
    have hb2 : b < 256 := hb b (by simp)
    have hc : c < 256 := hb c (by simp)
    have hd : d < 256 := hb d (by simp)
    rw [ReadBE32_eq be _ hb h, Option.some_bind, WriteBE32_eq be _ _ h]
    simp only [List.getD_cons_zero, List.getD_cons_succ, List.drop_succ_cons, List.drop_zero]
    obtain ⟨v, hv⟩ : ∃ v, v = a * 16777216 + b * 65536 + c * 256 + d := ⟨_, rfl⟩
    rw [← hv]
    have d0 : v % 256 = d := by omega
    have d1 : v / 256 % 256 = c := by omega
    have d2 : v / 65536 % 256 = b := by omega
    have d3 : v / 16777216 % 256 = a := by omega
    rw [d0, d1, d2, d3]
  · intro h
    obtain ⟨a, b, c, d, e, f, g, k, r, rfl⟩ := list_eight p h
    have ha : a < 256 := hb a (by simp)
    have hb2 : b < 256 := hb b (by simp)
    have hc : c < 256 := hb c (by simp)
    have hd : d < 256 := hb d (by simp)
    have he : e < 256 := hb e (by simp)
    have hf : f < 256 := hb f (by simp)
    have hg : g < 256 := hb g (by simp)
    have hk : k < 256 := hb k (by simp)
    rw [ReadBE64_eq be _ hb h, Option.some_bind, WriteBE64_eq be _ _ h]
    simp only [List.getD_cons_zero, List.getD_cons_succ, List.drop_succ_cons, List.drop_zero]
    obtain ⟨v, hv⟩ : ∃ v, v = a * 72057594037927936 + b * 281474976710656 + c * 1099511627776 +
      d * 4294967296 + e * 16777216 + f * 65536 + g * 256 + k := ⟨_, rfl⟩
    rw [← hv]
    obtain ⟨d0, d1, d2, d3, d4, d5, d6, d7⟩ :=
      digits8_of_sum k g f e d c b a v hk hg hf he hd hc hb2 ha (by omega)
    rw [d0, d1, d2, d3, d4, d5, d6, d7]

/-! ## The claims -/

/-- C1: for every initial state `s` of eight 32-bit words, every `n` and every chunk of exactly
`64 * n` bytes, `transform_sha256_shani(s, chunk, n)` leaves in `s` the state obtained by
applying the FIPS 180-4 SHA-256 compression function (block parsed as 16 big-endian words,
64-word message schedule, 64 rounds with the constants `K`, feed-forward addition modulo
`2^32`) to the `n` blocks in order, starting from `s`. -/
theorem transform_sha256_shani_is_fips_compression (s : State) (chunk : List Nat) (n : Nat)
    (hs : s.wf) (hb : ∀ b ∈ chunk, b < 256) (hlen : chunk.length = 64 * n) :
    (transform_sha256_shani s 0 n ⟨chunk, []⟩).map Prod.fst =
      some ((blocksOf n chunk).foldl compress s) :=
  transform_fst s n chunk hs hb hlen

theorem transform_sha256_shani_is_fips_compression_witness :
    IV.wf ∧ (∀ b ∈ emptyBlock, b < 256) ∧ emptyBlock.length = 64 * 1 ∧
    (transform_sha256_shani IV 0 1 ⟨emptyBlock, []⟩).map Prod.fst =
      some ((blocksOf 1 emptyBlock).foldl compress IV) :=
  ⟨by decide, by decide, by decide,
    transform_sha256_shani_is_fips_compression IV emptyBlock 1 (by decide) (by decide)
      (by decide)⟩

/-- C2: for every four 32-byte inputs `in[0..3]`, `transform_sha256d64_shani_2way` writes
`out[0] = SHA256(SHA256(in[0] ‖ in[1]))` and `out[1] = SHA256(SHA256(in[2] ‖ in[3]))`, with
`SHA256` the full FIPS 180-4 hash (padding and length framing included) and each output the
32-byte big-endian serialisation of the final state. -/
theorem d64_2way_is_double_sha256 (in0 in1 in2 in3 out : List Nat) (h0 : in0.length = 32)
    (h1 : in1.length = 32) (h2 : in2.length = 32) (h3 : in3.length = 32)
    (hb : ∀ b ∈ in0 ++ in1 ++ in2 ++ in3, b < 256) (hout : out.length = 64) :
    ∃ o, (transform_sha256d64_shani_2way out 0 ⟨in0 ++ in1 ++ in2 ++ in3, []⟩).map Prod.fst
        = some o ∧
      o.take 32 = sha256 (sha256 (in0 ++ in1)) ∧ o.drop 32 = sha256 (sha256 (in2 ++ in3)) := by
  refine ⟨_, d64_fst in0 in1 in2 in3 out h0 h1 h2 h3 hb hout, ?_, ?_⟩
  · rw [(serialize_append_take _ _).1, sha256d_64 _ (by rw [List.length_append, h0, h1])]
  · rw [(serialize_append_take _ _).2, sha256d_64 _ (by rw [List.length_append, h2, h3])]

set_option maxRecDepth 10000 in
theorem d64_2way_is_double_sha256_witness :
    (List.replicate 32 1).length = 32 ∧ (List.replicate 32 2).length = 32 ∧
    (List.replicate 32 3).length = 32 ∧ (List.replicate 32 4).length = 32 ∧
    (∀ b ∈ List.replicate 32 1 ++ List.replicate 32 2 ++ List.replicate 32 3 ++
      List.replicate 32 4, b < 256) ∧ (List.replicate 64 0).length = 64 ∧
    ∃ o, (transform_sha256d64_shani_2way (List.replicate 64 0) 0
        ⟨List.replicate 32 1 ++ List.replicate 32 2 ++ List.replicate 32 3 ++
          List.replicate 32 4, []⟩).map Prod.fst = some o ∧
      o.take 32 = sha256 (sha256 (List.replicate 32 1 ++ List.replicate 32 2)) ∧
      o.drop 32 = sha256 (sha256 (List.replicate 32 3 ++ List.replicate 32 4)) :=
  ⟨by decide, by decide, by decide, by decide, by decide, by decide,
    d64_2way_is_double_sha256 _ _ _ _ _ (by decide) (by decide) (by decide) (by decide)
      (by decide) (by decide)⟩

/-- C3: for every pair of 32-byte values `(x, y)` and every lane-B input, `out[0]` of
`transform_sha256d64_shani_2way` equals the result of two calls of `transform_sha256_shani`
(the initial state with the blocks `x‖y` and the padding block of a 64-byte message, then the
initial state with the serialised first state followed by the padding of a 32-byte message),
serialised big-endian; the same holds for `out[1]` with `in[2]`, `in[3]`. -/
theorem d64_2way_refines_transform (in0 in1 in2 in3 out : List Nat) (h0 : in0.length = 32)
    (h1 : in1.length = 32) (h2 : in2.length = 32) (h3 : in3.length = 32)
    (hb : ∀ b ∈ in0 ++ in1 ++ in2 ++ in3, b < 256) (hout : out.length = 64) :
    ∃ o, (transform_sha256d64_shani_2way out 0 ⟨in0 ++ in1 ++ in2 ++ in3, []⟩).map Prod.fst
        = some o ∧
      doubleHashViaTransform in0 in1 = some (o.take 32) ∧
      doubleHashViaTransform in2 in3 = some (o.drop 32) := by
  have hb0 : ∀ b ∈ in0, b < 256 := fun b h => hb b (by simp [h])
  have hb1 : ∀ b ∈ in1, b < 256 := fun b h => hb b (by simp [h])
  have hb2 : ∀ b ∈ in2, b < 256 := fun b h => hb b (by simp [h])
  have hb3 : ∀ b ∈ in3, b < 256 := fun b h => hb b (by simp [h])
  refine ⟨_, d64_fst in0 in1 in2 in3 out h0 h1 h2 h3 hb hout, ?_, ?_⟩
  · rw [(serialize_append_take _ _).1, doubleHashViaTransform_eq in0 in1 h0 h1 hb0 hb1]
  · rw [(serialize_append_take _ _).2, doubleHashViaTransform_eq in2 in3 h2 h3 hb2 hb3]

set_option maxRecDepth 10000 in
theorem d64_2way_refines_transform_witness :
    (List.replicate 32 5).length = 32 ∧ (List.replicate 32 6).length = 32 ∧
    (List.replicate 32 7).length = 32 ∧ (List.replicate 32 8).length = 32 ∧
    (∀ b ∈ List.replicate 32 5 ++ List.replicate 32 6 ++ List.replicate 32 7 ++
      List.replicate 32 8, b < 256) ∧ (List.replicate 64 0).length = 64 ∧
    ∃ o, (transform_sha256d64_shani_2way (List.replicate 64 0) 0
        ⟨List.replicate 32 5 ++ List.replicate 32 6 ++ List.replicate 32 7 ++
          List.replicate 32 8, []⟩).map Prod.fst = some o ∧
      doubleHashViaTransform (List.replicate 32 5) (List.replicate 32 6) = some (o.take 32) ∧
      doubleHashViaTransform (List.replicate 32 7) (List.replicate 32 8) = some (o.drop 32) :=
  ⟨by decide, by decide, by decide, by decide, by decide, by decide,
    d64_2way_refines_transform _ _ _ _ _ (by decide) (by decide) (by decide) (by decide)
      (by decide) (by decide)⟩

/-- C4: blocks are chained strictly sequentially: for every state `s`, every `n1`, `n2` and
chunks `c1` of `64 * n1` bytes and `c2` of `64 * n2` bytes, the call on `c1 ++ c2` with
`n1 + n2` blocks yields the same state as the call on `c1` with `n1` blocks followed by the
call on the resulting state with `c2` and `n2` blocks. -/
theorem transform_sha256_shani_chains (s : State) (c1 c2 : List Nat) (n1 n2 : Nat) (hs : s.wf)
    (hb1 : ∀ b ∈ c1, b < 256) (hb2 : ∀ b ∈ c2, b < 256) (h1 : c1.length = 64 * n1)
    (h2 : c2.length = 64 * n2) :
    ∃ s1 s2, (transform_sha256_shani s 0 n1 ⟨c1, []⟩).map Prod.fst = some s1 ∧
      (transform_sha256_shani s1 0 n2 ⟨c2, []⟩).map Prod.fst = some s2 ∧
      (transform_sha256_shani s 0 (n1 + n2) ⟨c1 ++ c2, []⟩).map Prod.fst = some s2 := by
  refine ⟨_, _, transform_fst s n1 c1 hs hb1 h1,
    transform_fst _ n2 c2 (foldl_compress_wf _ s hs) hb2 h2, ?_⟩
  rw [transform_fst s (n1 + n2) (c1 ++ c2) hs (bytes_append c1 c2 hb1 hb2)
    (by rw [List.length_append, h1, h2]; omega), blocksOf_append c1 c2 n1 n2 h1,
    List.foldl_append]

set_option maxRecDepth 10000 in
theorem transform_sha256_shani_chains_witness :
    IV.wf ∧ (∀ b ∈ emptyBlock, b < 256) ∧ (∀ b ∈ List.replicate 128 7, b < 256) ∧
    emptyBlock.length = 64 * 1 ∧ (List.replicate 128 7).length = 64 * 2 ∧
    ∃ s1 s2, (transform_sha256_shani IV 0 1 ⟨emptyBlock, []⟩).map Prod.fst = some s1 ∧
      (transform_sha256_shani s1 0 2 ⟨List.replicate 128 7, []⟩).map Prod.fst = some s2 ∧
      (transform_sha256_shani IV 0 (1 + 2) ⟨emptyBlock ++ List.replicate 128 7, []⟩).map
        Prod.fst = some s2 :=
  ⟨by decide, by decide, by decide, by decide, by decide,
    transform_sha256_shani_chains IV emptyBlock (List.replicate 128 7) 1 2 (by decide)
      (by decide) (by decide) (by decide) (by decide)⟩

/-- C5: for every state `s` of eight 32-bit words and every chunk, a call with zero blocks
leaves all eight words of `s` unchanged (and performs no load). -/
theorem transform_sha256_shani_zero_blocks (s : State) (chunk : Nat) (mem : Mem) (hs : s.wf) :
    transform_sha256_shani s chunk 0 mem = some (s, mem) := by
  have hs2 := hs
  simp only [State.wf] at hs2
  obtain ⟨h1, h2, h3, h4, h5, h6, h7, h8⟩ := hs2
  have e1 := storeu_words ⟨s.a, s.b, s.c, s.d⟩ ⟨h1, h2, h3, h4⟩
  have e2 := storeu_words ⟨s.e, s.f, s.g, s.h⟩ ⟨h5, h6, h7, h8⟩
  simp only [transform_sha256_shani, bind, StateT.bind, loadu_words _ _ _ _ h1 h2 h3 h4,
    loadu_words _ _ _ _ h5 h6 h7 h8, Shuffle_state s hs, whileBlocks, pure, StateT.pure,
    Option.bind, Unshuffle_layout s hs, e1, e2]

theorem transform_sha256_shani_zero_blocks_witness :
    IV.wf ∧ transform_sha256_shani IV 0 0 ⟨[1, 2, 3], []⟩ = some (IV, ⟨[1, 2, 3], []⟩) :=
  ⟨by decide, transform_sha256_shani_zero_blocks IV 0 ⟨[1, 2, 3], []⟩ (by decide)⟩

set_option maxRecDepth 100000 in
/-- C6 (as stated, refuted): the 32-byte big-endian serialisation of the state after one
compression of the padded empty message from the initial hash value, in lower-case
hexadecimal, is not the 63-character string of the claim. -/
theorem known_answer_not_63_chars :
    ¬ ((transform_sha256_shani
        ⟨0x6a09e667, 0xbb67ae85, 0x3c6ef372, 0xa54ff53a, 0x510e527f, 0x9b05688c, 0x1f83d9ab,
          0x5be0cd19⟩ 0 1 ⟨emptyBlock, []⟩).map (fun r => toHex (serialize r.1)) =
      some "e3b0c44298fc1c149afbf4c8996fb92427ae41e4649b934ca495991b7852b85") := by
  decide

set_option maxRecDepth 100000 in
/-- C6 (amended): `transform_sha256_shani` applied to the initial hash value with the one
block `0x80` followed by 63 zero bytes yields the state whose 32-byte big-endian
serialisation, in lower-case hexadecimal, is the 64-character SHA-256 digest of the empty
message. -/
theorem known_answer_empty_message :
    (transform_sha256_shani
        ⟨0x6a09e667, 0xbb67ae85, 0x3c6ef372, 0xa54ff53a, 0x510e527f, 0x9b05688c, 0x1f83d9ab,
          0x5be0cd19⟩ 0 1 ⟨emptyBlock, []⟩).map (fun r => toHex (serialize r.1)) =
      some "e3b0c44298fc1c149afbf4c8996fb92427ae41e4649b934ca495991b7852b855" := by
  decide

/-- C7: no cross-lane data flow in `transform_sha256d64_shani_2way`: two input arrays that
agree on `in[0]` and `in[1]` give the same `out[0]`, and two input arrays that agree on
`in[2]` and `in[3]` give the same `out[1]`. -/
theorem d64_2way_no_cross_lane_flow (a0 a1 a2 a3 b0 b1 b2 b3 out outB : List Nat)
    (ha0 : a0.length = 32) (ha1 : a1.length = 32) (ha2 : a2.length = 32) (ha3 : a3.length = 32)
    (hb0 : b0.length = 32) (hb1 : b1.length = 32) (hb2 : b2.length = 32) (hb3 : b3.length = 32)
    (hba : ∀ b ∈ a0 ++ a1 ++ a2 ++ a3, b < 256) (hbb : ∀ b ∈ b0 ++ b1 ++ b2 ++ b3, b < 256)
    (hout : out.length = 64) (houtB : outB.length = 64) :
    ∃ o oB,
      (transform_sha256d64_shani_2way out 0 ⟨a0 ++ a1 ++ a2 ++ a3, []⟩).map Prod.fst = some o ∧
      (transform_sha256d64_shani_2way outB 0 ⟨b0 ++ b1 ++ b2 ++ b3, []⟩).map Prod.fst = some oB ∧
      (a0 = b0 → a1 = b1 → o.take 32 = oB.take 32) ∧
      (a2 = b2 → a3 = b3 → o.drop 32 = oB.drop 32) := by
  refine ⟨_, _, d64_fst a0 a1 a2 a3 out ha0 ha1 ha2 ha3 hba hout,
    d64_fst b0 b1 b2 b3 outB hb0 hb1 hb2 hb3 hbb houtB, ?_, ?_⟩
  · intro e0 e1
    rw [(serialize_append_take _ _).1, (serialize_append_take _ _).1, e0, e1]
  · intro e2 e3
    rw [(serialize_append_take _ _).2, (serialize_append_take _ _).2, e2, e3]

set_option maxRecDepth 10000 in
theorem d64_2way_no_cross_lane_flow_witness :
    (List.replicate 32 1).length = 32 ∧ (List.replicate 32 2).length = 32 ∧
    (List.replicate 32 3).length = 32 ∧ (List.replicate 32 4).length = 32 ∧
    (List.replicate 32 1).length = 32 ∧ (List.replicate 32 2).length = 32 ∧
    (List.replicate 32 5).length = 32 ∧ (List.replicate 32 6).length = 32 ∧
    (∀ b ∈ List.replicate 32 1 ++ List.replicate 32 2 ++ List.replicate 32 3 ++
      List.replicate 32 4, b < 256) ∧
    (∀ b ∈ List.replicate 32 1 ++ List.replicate 32 2 ++ List.replicate 32 5 ++
      List.replicate 32 6, b < 256) ∧
    (List.replicate 64 0).length = 64 ∧ (List.replicate 64 9).length = 64 ∧
    ∃ o oB,
      (transform_sha256d64_shani_2way (List.replicate 64 0) 0
        ⟨List.replicate 32 1 ++ List.replicate 32 2 ++ List.replicate 32 3 ++
          List.replicate 32 4, []⟩).map Prod.fst = some o ∧
      (transform_sha256d64_shani_2way (List.replicate 64 9) 0
        ⟨List.replicate 32 1 ++ List.replicate 32 2 ++ List.replicate 32 5 ++
          List.replicate 32 6, []⟩).map Prod.fst = some oB ∧
      (List.replicate 32 1 = List.replicate 32 1 → List.replicate 32 2 = List.replicate 32 2 →
        o.take 32 = oB.take 32) ∧
      (List.replicate 32 3 = List.replicate 32 5 → List.replicate 32 4 = List.replicate 32 6 →
        o.drop 32 = oB.drop 32) :=
  ⟨by decide, by decide, by decide, by decide, by decide, by decide, by decide, by decide,
    by decide, by decide, by decide, by decide,
    d64_2way_no_cross_lane_flow _ _ _ _ _ _ _ _ _ _ (by decide) (by decide) (by decide)
      (by decide) (by decide) (by decide) (by decide) (by decide) (by decide) (by decide)
      (by decide) (by decide)⟩

/-- C8: when `chunk` holds exactly `64 * n` bytes, `transform_sha256_shani(s, chunk, n)`
performs only in-range reads: the call returns a result (no load fails, the loop ends after
`n` iterations), the loads are exactly the four 16-byte loads at offsets `64*i`, `64*i+16`,
`64*i+32`, `64*i+48` for `i < n` in this order, and every byte of `chunk` lies in exactly one
loaded 16-byte window. -/
theorem transform_sha256_shani_reads_in_range (s : State) (chunk : List Nat) (n : Nat)
    (hlen : chunk.length = 64 * n) :
    ∃ s2 reads, transform_sha256_shani s 0 n ⟨chunk, []⟩ = some (s2, ⟨chunk, reads⟩) ∧
      reads = (List.range n).flatMap
        (fun i => [64 * i, 64 * i + 16, 64 * i + 32, 64 * i + 48]) ∧
      reads.length = 4 * n ∧
      ∀ k, k < chunk.length → reads.countP (fun p => decide (p ≤ k ∧ k < p + 16)) = 1 := by
  obtain ⟨s2, h⟩ := transform_reads s 0 n chunk [] (by omega)
  have e : loadOffsets 0 n = (List.range n).flatMap
      (fun i => [64 * i, 64 * i + 16, 64 * i + 32, 64 * i + 48]) := by
    simp only [loadOffsets, Nat.zero_add]
  refine ⟨s2, loadOffsets 0 n, ?_, e, ?_, ?_⟩
  · rw [h, List.nil_append]
  · exact loadOffsets_length 0 n
  · intro k hk
    rw [loadOffsets_cover, if_pos (by omega)]

theorem transform_sha256_shani_reads_in_range_witness :
    emptyBlock.length = 64 * 1 ∧
    ∃ s2 reads, transform_sha256_shani IV 0 1 ⟨emptyBlock, []⟩ = some (s2, ⟨emptyBlock, reads⟩) ∧
      reads = (List.range 1).flatMap
        (fun i => [64 * i, 64 * i + 16, 64 * i + 32, 64 * i + 48]) ∧
      reads.length = 4 * 1 ∧
      ∀ k, k < emptyBlock.length → reads.countP (fun p => decide (p ≤ k ∧ k < p + 16)) = 1 :=
  ⟨by decide, transform_sha256_shani_reads_in_range IV emptyBlock 1 (by decide)⟩

/-- C9 (code defect, evaluated at the failing input): on either host byte order,
`ReadBE16` of the buffer `12 34 56 78` is `0x1234`, but `WriteBE16` of `0x1234` to that
buffer copies 4 bytes, so the bytes at offsets 2 and 3 are overwritten with the two bytes
`adj` that follow the local `v` in memory; on a 2-byte buffer the copy runs past its end. -/
theorem WriteBE16_copies_four_bytes (be : Bool) :
    ReadBE16 be [0x12, 0x34, 0x56, 0x78] = some 0x1234 ∧
    WriteBE16 be [0x12, 0x34, 0x56, 0x78] 0x1234 [0xAA, 0xBB] = some [0x12, 0x34, 0xAA, 0xBB] ∧
    WriteBE16 be [0x12, 0x34] 0x1234 [0xAA, 0xBB] = none ∧
    WriteLE16 be [0x34, 0x12, 0x56, 0x78] 0x1234 = some [0x34, 0x12, 0x56, 0x78] := by
  cases be <;> decide

/-- Endian-safety of the byte-order functions where the copy fits: on either host byte order
`be` (with the `endian.h` conversions the identity or a byte swap accordingly), `ReadLEw(p)` is
the sum of
`p[i] * 256^i` and `ReadBEw(p)` the sum of `p[i] * 256^(w/8 - 1 - i)` over `i < w/8`, and
`WriteLEw` / `WriteBEw` store `(x >> 8*i) & 0xff` and `(x >> 8*(w/8 - 1 - i)) & 0xff` as
byte `i < w/8`, for `w` in 16, 32, 64.  Each function is taken on a buffer long enough for its
copy: `w/8` bytes, and 4 bytes for `WriteBE16`, whose copy is 4 bytes long. -/
theorem byte_order_endian_safe (be : Bool) (p : List Nat) (x : Nat) (adj : List Nat)
    (hb : ∀ b ∈ p, b < 256) :
    (2 ≤ p.length → ReadLE16 be p = some (∑ i in Finset.range 2, p.getD i 0 * 256 ^ i)) ∧
    (4 ≤ p.length → ReadLE32 be p = some (∑ i in Finset.range 4, p.getD i 0 * 256 ^ i)) ∧
    (8 ≤ p.length → ReadLE64 be p = some (∑ i in Finset.range 8, p.getD i 0 * 256 ^ i)) ∧
    (2 ≤ p.length →
      ReadBE16 be p = some (∑ i in Finset.range 2, p.getD i 0 * 256 ^ (2 - 1 - i))) ∧
    (4 ≤ p.length →
      ReadBE32 be p = some (∑ i in Finset.range 4, p.getD i 0 * 256 ^ (4 - 1 - i))) ∧
    (8 ≤ p.length →
      ReadBE64 be p = some (∑ i in Finset.range 8, p.getD i 0 * 256 ^ (8 - 1 - i))) ∧
    (2 ≤ p.length → ∃ q, WriteLE16 be p x = some q ∧
      ∀ i, i < 2 → q.getD i 0 = (x >>> (8 * i)) &&& 0xff) ∧
    (4 ≤ p.length → ∃ q, WriteLE32 be p x = some q ∧
      ∀ i, i < 4 → q.getD i 0 = (x >>> (8 * i)) &&& 0xff) ∧
    (8 ≤ p.length → ∃ q, WriteLE64 be p x = some q ∧
      ∀ i, i < 8 → q.getD i 0 = (x >>> (8 * i)) &&& 0xff) ∧
    (4 ≤ p.length → 2 ≤ adj.length → ∃ q, WriteBE16 be p x adj = some q ∧
      ∀ i, i < 2 → q.getD i 0 = (x >>> (8 * (2 - 1 - i))) &&& 0xff) ∧
    (4 ≤ p.length → ∃ q, WriteBE32 be p x = some q ∧
      ∀ i, i < 4 → q.getD i 0 = (x >>> (8 * (4 - 1 - i))) &&& 0xff) ∧
    (8 ≤ p.length → ∃ q, WriteBE64 be p x = some q ∧
      ∀ i, i < 8 → q.getD i 0 = (x >>> (8 * (8 - 1 - i))) &&& 0xff) := by
  refine ⟨?_, ?_, ?_, ?_, ?_, ?_, ?_, ?_, ?_, ?_, ?_, ?_⟩
  · intro h
    rw [ReadLE16_eq be p hb h]
    simp only [Finset.sum_range_succ, Finset.sum_range_zero]
    congr 1
    omega
  · intro h
    rw [ReadLE32_eq be p hb h]
    simp only [Finset.sum_range_succ, Finset.sum_range_zero]
    congr 1
    omega
  · intro h
    rw [ReadLE64_eq be p hb h]
    simp only [Finset.sum_range_succ, Finset.sum_range_zero]
    congr 1
    omega
  · intro h
    rw [ReadBE16_eq be p hb h]
    simp only [Finset.sum_range_succ, Finset.sum_range_zero]
    congr 1
    omega
  · intro h
    rw [ReadBE32_eq be p hb h]
    simp only [Finset.sum_range_succ, Finset.sum_range_zero]
    congr 1
    omega
  · intro h
    rw [ReadBE64_eq be p hb h]
    simp only [Finset.sum_range_succ, Finset.sum_range_zero]
    congr 1
    omega
  · intro h
    refine ⟨_, WriteLE16_eq be p x h, ?_⟩
    intro i hi
    interval_cases i <;> simp [Nat.shiftRight_eq_div_pow, and_255]
  · intro h
    refine ⟨_, WriteLE32_eq be p x h, ?_⟩
    intro i hi
    interval_cases i <;> simp [Nat.shiftRight_eq_div_pow, and_255]
  · intro h
    refine ⟨_, WriteLE64_eq be p x h, ?_⟩
    intro i hi
    interval_cases i <;> simp [Nat.shiftRight_eq_div_pow, and_255]
  · intro h hadj
    refine ⟨_, WriteBE16_eq be p x adj h hadj, ?_⟩
    intro i hi
    interval_cases i <;> simp [Nat.shiftRight_eq_div_pow, and_255]
  · intro h
    refine ⟨_, WriteBE32_eq be p x h, ?_⟩
    intro i hi
    interval_cases i <;> simp [Nat.shiftRight_eq_div_pow, and_255]
  · intro h
    refine ⟨_, WriteBE64_eq be p x h, ?_⟩
    intro i hi
    interval_cases i <;> simp [Nat.shiftRight_eq_div_pow, and_255]

theorem byte_order_endian_safe_witness :
    (∀ b ∈ [1, 2, 3, 4, 5, 6, 7, 8], b < 256) ∧
    ((2 ≤ [1, 2, 3, 4, 5, 6, 7, 8].length →
      ReadLE16 true [1, 2, 3, 4, 5, 6, 7, 8] =
        some (∑ i in Finset.range 2, [1, 2, 3, 4, 5, 6, 7, 8].getD i 0 * 256 ^ i)) ∧
    (4 ≤ [1, 2, 3, 4, 5, 6, 7, 8].length →
      ReadLE32 true [1, 2, 3, 4, 5, 6, 7, 8] =
        some (∑ i in Finset.range 4, [1, 2, 3, 4, 5, 6, 7, 8].getD i 0 * 256 ^ i)) ∧
    (8 ≤ [1, 2, 3, 4, 5, 6, 7, 8].length →
      ReadLE64 true [1, 2, 3, 4, 5, 6, 7, 8] =
        some (∑ i in Finset.range 8, [1, 2, 3, 4, 5, 6, 7, 8].getD i 0 * 256 ^ i)) ∧
    (2 ≤ [1, 2, 3, 4, 5, 6, 7, 8].length →
      ReadBE16 true [1, 2, 3, 4, 5, 6, 7, 8] =
        some (∑ i in Finset.range 2, [1, 2, 3, 4, 5, 6, 7, 8].getD i 0 * 256 ^ (2 - 1 - i))) ∧
    (4 ≤ [1, 2, 3, 4, 5, 6, 7, 8].length →
      ReadBE32 true [1, 2, 3, 4, 5, 6, 7, 8] =
        some (∑ i in Finset.range 4, [1, 2, 3, 4, 5, 6, 7, 8].getD i 0 * 256 ^ (4 - 1 - i))) ∧
    (8 ≤ [1, 2, 3, 4, 5, 6, 7, 8].length →
      ReadBE64 true [1, 2, 3, 4, 5, 6, 7, 8] =
        some (∑ i in Finset.range 8, [1, 2, 3, 4, 5, 6, 7, 8].getD i 0 * 256 ^ (8 - 1 - i))) ∧
    (2 ≤ [1, 2, 3, 4, 5, 6, 7, 8].length →
      ∃ q, WriteLE16 true [1, 2, 3, 4, 5, 6, 7, 8] 0x1234 = some q ∧
        ∀ i, i < 2 → q.getD i 0 = (0x1234 >>> (8 * i)) &&& 0xff) ∧
    (4 ≤ [1, 2, 3, 4, 5, 6, 7, 8].length →
      ∃ q, WriteLE32 true [1, 2, 3, 4, 5, 6, 7, 8] 0x1234 = some q ∧
        ∀ i, i < 4 → q.getD i 0 = (0x1234 >>> (8 * i)) &&& 0xff) ∧
    (8 ≤ [1, 2, 3, 4, 5, 6, 7, 8].length →
      ∃ q, WriteLE64 true [1, 2, 3, 4, 5, 6, 7, 8] 0x1234 = some q ∧
        ∀ i, i < 8 → q.getD i 0 = (0x1234 >>> (8 * i)) &&& 0xff) ∧
    (4 ≤ [1, 2, 3, 4, 5, 6, 7, 8].length → 2 ≤ [0xAA, 0xBB].length →
      ∃ q, WriteBE16 true [1, 2, 3, 4, 5, 6, 7, 8] 0x1234 [0xAA, 0xBB] = some q ∧
        ∀ i, i < 2 → q.getD i 0 = (0x1234 >>> (8 * (2 - 1 - i))) &&& 0xff) ∧
    (4 ≤ [1, 2, 3, 4, 5, 6, 7, 8].length →
      ∃ q, WriteBE32 true [1, 2, 3, 4, 5, 6, 7, 8] 0x1234 = some q ∧
        ∀ i, i < 4 → q.getD i 0 = (0x1234 >>> (8 * (4 - 1 - i))) &&& 0xff) ∧
    (8 ≤ [1, 2, 3, 4, 5, 6, 7, 8].length →
      ∃ q, WriteBE64 true [1, 2, 3, 4, 5, 6, 7, 8] 0x1234 = some q ∧
        ∀ i, i < 8 → q.getD i 0 = (0x1234 >>> (8 * (8 - 1 - i))) &&& 0xff)) :=
  ⟨by decide, byte_order_endian_safe true [1, 2, 3, 4, 5, 6, 7, 8] 0x1234 [0xAA, 0xBB]
    (by decide)⟩

/-- C10 (code defect, evaluated at the failing input): on either host byte order, `WriteBE16`
of `0xBEEF` to a destination of `w/8 = 2` bytes does not store the bytes
`(x >> 8) & 0xff`, `x & 0xff`: its copy is 4 bytes long and runs past the end of the
destination (also of a 3-byte one), so no result with those two bytes is produced, while
`WriteLE16` on the same destination stores `x & 0xff`, `(x >> 8) & 0xff`. -/
theorem WriteBE16_overruns_two_byte_destination (be : Bool) :
    WriteBE16 be [0x00, 0x00] 0xBEEF [0xAA, 0xBB] = none ∧
    WriteBE16 be [0x00, 0x00, 0x00] 0xBEEF [0xAA, 0xBB] = none ∧
    (¬ ∃ q, WriteBE16 be [0x00, 0x00] 0xBEEF [0xAA, 0xBB] = some q ∧
      ∀ i, i < 2 → q.getD i 0 = (0xBEEF >>> (8 * (2 - 1 - i))) &&& 0xff) ∧
    WriteLE16 be [0x00, 0x00] 0xBEEF =
      some [(0xBEEF >>> (8 * 0)) &&& 0xff, (0xBEEF >>> (8 * 1)) &&& 0xff] := by
  have h : WriteBE16 be [0x00, 0x00] 0xBEEF [0xAA, 0xBB] = none := by
    cases be <;> decide
  refine ⟨h, ?_, ?_, ?_⟩
  · cases be <;> decide
  · rintro ⟨q, hq, _⟩
    rw [h] at hq
    exact Option.noConfusion hq
  · cases be <;> decide

/-! ## Bit counting and write frames -/

theorem testBit_top (w x : Nat) (h : x < 2 ^ (w + 1)) : x.testBit w = decide (2 ^ w ≤ x) := by
  rw [Nat.testBit_to_div_mod]
  have h2 : x / 2 ^ w < 2 := by
    rw [Nat.div_lt_iff_lt_mul (by positivity)]
    rw [pow_succ] at h; omega
  by_cases hx : 2 ^ w ≤ x
  · have : 0 < x / 2 ^ w := Nat.div_pos hx (by positivity)
    have : x / 2 ^ w % 2 = 1 := by omega
    simp [this, hx]
  · have : x / 2 ^ w = 0 := by
      apply Nat.div_eq_of_lt; omega
    simp [this, hx]

theorem leadingZeros_size (w x : Nat) (h : x < 2 ^ w) : leadingZeros w x + Nat.size x = w := by
  induction w with
  | zero =>
    have : x = 0 := by simpa using h
    subst this; simp [leadingZeros]
  | succ w ih =>
    rw [leadingZeros, testBit_top w x h]
    by_cases hx : 2 ^ w ≤ x
    · simp only [hx, decide_True, if_true]
      have h1 : Nat.size x ≤ w + 1 := Nat.size_le.2 h
      have h2 : w < Nat.size x := Nat.lt_size.2 hx
      omega
    · simp only [hx, decide_False]
      have := ih (by omega)
      simp only [Bool.false_eq_true, if_false]
      omega

theorem size_half (x : Nat) (h : x ≠ 0) : Nat.size (x / 2) + 1 = Nat.size x := by
  have h1 : Nat.size (x / 2) ≤ Nat.size x - 1 := by
    rw [Nat.size_le]
    have := Nat.lt_size_self x
    have hs : 0 < Nat.size x := Nat.size_pos.2 (Nat.pos_of_ne_zero h)
    have e : 2 ^ Nat.size x = 2 ^ (Nat.size x - 1) * 2 := by
      rw [← pow_succ]; congr 1; omega
    rw [Nat.div_lt_iff_lt_mul (by decide)]; omega
  have h2 : Nat.size x ≤ Nat.size (x / 2) + 1 := by
    rw [Nat.size_le]
    have := Nat.lt_size_self (x / 2)
    rw [pow_succ]; omega
  have hs : 0 < Nat.size x := Nat.size_pos.2 (Nat.pos_of_ne_zero h)
  omega

theorem CountBitsLoop_eq (fuel : Nat) : ∀ (x ret : Nat), Nat.size x ≤ fuel →
    CountBitsLoop fuel x ret = some (ret + Nat.size x) := by
  induction fuel with
  | zero =>
    intro x ret h
    have : x = 0 := Nat.size_eq_zero.1 (by omega)
    subst this; simp [CountBitsLoop]
  | succ fuel ih =>
    intro x ret h
    rw [CountBitsLoop]
    by_cases hx : x = 0
    · subst hx; simp
    · simp only [hx, if_false, Nat.shiftRight_succ, Nat.shiftRight_zero]
      have := size_half x hx
      rw [ih _ _ (by omega)]
      congr 1; omega

theorem clzl_eq (size x : Nat) (hs : 8 ≤ size) (hx : x < 2 ^ 64) (h0 : x ≠ 0) :
    __builtin_clzl size x = some (8 * size - Nat.size x) := by
  have hlt : x < 2 ^ (8 * size) :=
    lt_of_lt_of_le hx (Nat.pow_le_pow_right (by decide) (by omega))
  rw [__builtin_clzl, Nat.mod_eq_of_lt hlt, if_neg h0]
  have := leadingZeros_size (8 * size) x hlt
  congr 1; omega

theorem clzll_eq (size x : Nat) (hs : 8 ≤ size) (hx : x < 2 ^ 64) (h0 : x ≠ 0) :
    __builtin_clzll size x = some (8 * size - Nat.size x) := by
  have hlt : x < 2 ^ (8 * size) :=
    lt_of_lt_of_le hx (Nat.pow_le_pow_right (by decide) (by omega))
  rw [__builtin_clzll, Nat.mod_eq_of_lt hlt, if_neg h0]
  have := leadingZeros_size (8 * size) x hlt
  congr 1; omega

theorem CountBits_eq (cfg : BuildConfig) (fuel x : Nat) (hf : 64 ≤ fuel) (hx : x < 2 ^ 64) :
    CountBits cfg fuel x = some (Nat.size x) := by
  have hsz : Nat.size x ≤ 64 := Nat.size_le.2 hx
  have key : ∀ size, 8 ≤ size → (8 * size - (8 * size - Nat.size x)) % 18446744073709551616
      = Nat.size x := by
    intro size h8; omega
  unfold CountBits
  split
  · rename_i h
    by_cases h0 : x = 0
    · subst h0; simp
    · rw [if_pos h0, clzl_eq _ _ h.2 hx h0]
      simp only [Option.map_some']
      rw [key _ h.2]
  · split
    · rename_i h
      by_cases h0 : x = 0
      · subst h0; simp
      · rw [if_pos h0, clzll_eq _ _ h.2 hx h0]
        simp only [Option.map_some']
        rw [key _ h.2]
    · rw [CountBitsLoop_eq _ _ _ (by omega)]; simp

theorem CountBitsLoop_none (fuel : Nat) : ∀ (x ret : Nat), fuel < Nat.size x →
    CountBitsLoop fuel x ret = none := by
  induction fuel with
  | zero =>
    intro x ret h
    have : x ≠ 0 := by
      intro h0; subst h0; simp at h
    simp [CountBitsLoop, this]
  | succ fuel ih =>
    intro x ret h
    have hx : x ≠ 0 := by
      intro h0; subst h0; simp at h
    rw [CountBitsLoop]
    simp only [hx, if_false, Nat.shiftRight_succ, Nat.shiftRight_zero]
    have := size_half x hx
    exact ih _ _ (by omega)

theorem size_eq_clz (x : Nat) (hx : x < 2 ^ 64) :
    Nat.size x = if x = 0 then 0 else 64 - leadingZeros 64 x := by
  have := leadingZeros_size 64 x hx
  by_cases h0 : x = 0
  · subst h0; simp
  · rw [if_neg h0]; omega

/-- C12: for every 64-bit `x`, under every build configuration, `CountBits(x)` returns the
number `n` of bits of `x`: `n` is at most 64, `x < 2^n`, and `n` is the smallest such number;
`n = 0` for `x = 0`; for `x > 0`, `2^(n-1) ≤ x`, bit `n - 1` is the highest set bit of `x`;
and `n = 64` exactly when bit 63 of `x` is set. -/
theorem CountBits_is_bit_length (cfg : BuildConfig) (fuel x : Nat) (hf : 64 ≤ fuel)
    (hx : x < 2 ^ 64) :
    ∃ n, CountBits cfg fuel x = some n ∧ n ≤ 64 ∧ x < 2 ^ n ∧ (∀ m, x < 2 ^ m → n ≤ m) ∧
      (x = 0 → n = 0) ∧
      (0 < x → 2 ^ (n - 1) ≤ x ∧ x.testBit (n - 1) = true ∧
        ∀ i, n ≤ i → x.testBit i = false) ∧
      (n = 64 ↔ x.testBit 63 = true) := by
  refine ⟨Nat.size x, CountBits_eq cfg fuel x hf hx, Nat.size_le.2 hx, Nat.lt_size_self x,
    fun m hm => Nat.size_le.2 hm, ?_, ?_, ?_⟩
  · intro h0; subst h0; simp
  · intro hpos
    have hs : 0 < Nat.size x := Nat.size_pos.2 hpos
    have h1 : 2 ^ (Nat.size x - 1) ≤ x := Nat.lt_size.1 (by omega)
    have h2 : x < 2 ^ (Nat.size x - 1 + 1) := by
      have := Nat.lt_size_self x
      have e : Nat.size x - 1 + 1 = Nat.size x := by omega
      rw [e]; exact this
    refine ⟨h1, ?_, ?_⟩
    · rw [testBit_top _ _ h2]; simp [h1]
    · intro i hi
      exact Nat.testBit_lt_two_pow
        (lt_of_lt_of_le (Nat.lt_size_self x) (Nat.pow_le_pow_right (by decide) hi))
  · rw [testBit_top 63 x hx]
    have h1 : Nat.size x ≤ 64 := Nat.size_le.2 hx
    have h2 : 63 < Nat.size x ↔ 2 ^ 63 ≤ x := Nat.lt_size
    simp only [decide_eq_true_eq]
    constructor
    · intro h; exact h2.1 (by omega)
    · intro h; have := h2.2 h; omega

theorem CountBits_is_bit_length_witness :
    64 ≤ 64 ∧ 9223372036854775813 < 2 ^ 64 ∧
    ∃ n, CountBits ⟨true, 8, true, 8⟩ 64 9223372036854775813 = some n ∧ n ≤ 64 ∧
      9223372036854775813 < 2 ^ n ∧ (∀ m, 9223372036854775813 < 2 ^ m → n ≤ m) ∧
      (9223372036854775813 = 0 → n = 0) ∧
      (0 < 9223372036854775813 → 2 ^ (n - 1) ≤ 9223372036854775813 ∧
        Nat.testBit 9223372036854775813 (n - 1) = true ∧
        ∀ i, n ≤ i → Nat.testBit 9223372036854775813 i = false) ∧
      (n = 64 ↔ Nat.testBit 9223372036854775813 63 = true) :=
  ⟨by decide, by decide,
    CountBits_is_bit_length ⟨true, 8, true, 8⟩ 64 9223372036854775813 (by decide) (by decide)⟩

/-- C20: the three implementations of `CountBits` agree on every 64-bit `x`: the
`__builtin_clzl` branch with an 8-byte `unsigned long`, the `__builtin_clzll` branch with an
8-byte `unsigned long long`, and the fallback shift loop all return 0 for `x = 0` and 64 minus
the number of leading zero bits of `x` otherwise; the first two do not depend on the loop
fuel, and the loop ends after exactly `n ≤ 64` iterations, `n` being the returned value. -/
theorem CountBits_branches_agree (x s1 s2 : Nat) (b : Bool) (hx : x < 2 ^ 64) :
    (∀ fuel, CountBits ⟨true, 8, b, s2⟩ fuel x =
      some (if x = 0 then 0 else 64 - leadingZeros 64 x)) ∧
    (∀ fuel, CountBits ⟨false, s1, true, 8⟩ fuel x =
      some (if x = 0 then 0 else 64 - leadingZeros 64 x)) ∧
    (∀ fuel, 64 ≤ fuel → CountBits ⟨false, s1, false, s2⟩ fuel x =
      some (if x = 0 then 0 else 64 - leadingZeros 64 x)) ∧
    ∃ n, n ≤ 64 ∧ n = (if x = 0 then 0 else 64 - leadingZeros 64 x) ∧
      (∀ fuel, n ≤ fuel → CountBitsLoop fuel x 0 = some n) ∧
      ∀ fuel, fuel < n → CountBitsLoop fuel x 0 = none := by
  have hsz : Nat.size x ≤ 64 := Nat.size_le.2 hx
  have hc := size_eq_clz x hx
  have hA : ∀ (cfg : BuildConfig) (fuel : Nat),
      (cfg.HAVE_BUILTIN_CLZL = true ∧ 8 ≤ cfg.sizeof_unsigned_long) ∨
      ((cfg.HAVE_BUILTIN_CLZLL = true ∧ 8 ≤ cfg.sizeof_unsigned_long_long)) →
      CountBits cfg fuel x = CountBits cfg 64 x := by
    intro cfg fuel h
    unfold CountBits
    rcases h with h | h
    · rw [if_pos h, if_pos h]
    · by_cases h1 : cfg.HAVE_BUILTIN_CLZL = true ∧ 8 ≤ cfg.sizeof_unsigned_long
      · rw [if_pos h1, if_pos h1]
      · rw [if_neg h1, if_neg h1, if_pos h, if_pos h]
  refine ⟨?_, ?_, ?_, Nat.size x, hsz, hc, ?_, ?_⟩
  · intro fuel
    rw [hA _ fuel (Or.inl ⟨rfl, le_refl 8⟩), CountBits_eq _ 64 x (le_refl 64) hx, hc]
  · intro fuel
    rw [hA _ fuel (Or.inr ⟨rfl, le_refl 8⟩), CountBits_eq _ 64 x (le_refl 64) hx, hc]
  · intro fuel hf
    rw [CountBits_eq _ fuel x hf hx, hc]
  · intro fuel hf
    rw [CountBitsLoop_eq fuel x 0 hf, Nat.zero_add]
  · intro fuel hf
    exact CountBitsLoop_none fuel x 0 hf

theorem CountBits_branches_agree_witness :
    255 < 2 ^ 64 ∧
    ((∀ fuel, CountBits ⟨true, 8, false, 4⟩ fuel 255 =
      some (if 255 = 0 then 0 else 64 - leadingZeros 64 255)) ∧
    (∀ fuel, CountBits ⟨false, 4, true, 8⟩ fuel 255 =
      some (if 255 = 0 then 0 else 64 - leadingZeros 64 255)) ∧
    (∀ fuel, 64 ≤ fuel → CountBits ⟨false, 4, false, 4⟩ fuel 255 =
      some (if 255 = 0 then 0 else 64 - leadingZeros 64 255)) ∧
    ∃ n, n ≤ 64 ∧ n = (if 255 = 0 then 0 else 64 - leadingZeros 64 255) ∧
      (∀ fuel, n ≤ fuel → CountBitsLoop fuel 255 0 = some n) ∧
      ∀ fuel, fuel < n → CountBitsLoop fuel 255 0 = none) :=
  ⟨by decide, CountBits_branches_agree 255 4 4 false (by decide)⟩

theorem write_frame (be : Bool) (p : List Nat) (x : Nat) :
    (2 ≤ p.length → ∃ q, WriteLE16 be p x = some q ∧ q.length = p.length ∧
      q.drop 2 = p.drop 2) ∧
    (4 ≤ p.length → ∃ q, WriteLE32 be p x = some q ∧ q.length = p.length ∧
      q.drop 4 = p.drop 4) ∧
    (8 ≤ p.length → ∃ q, WriteLE64 be p x = some q ∧ q.length = p.length ∧
      q.drop 8 = p.drop 8) ∧
    (4 ≤ p.length → ∃ q, WriteBE32 be p x = some q ∧ q.length = p.length ∧
      q.drop 4 = p.drop 4) ∧
    (8 ≤ p.length → ∃ q, WriteBE64 be p x = some q ∧ q.length = p.length ∧
      q.drop 8 = p.drop 8) := by
  refine ⟨?_, ?_, ?_, ?_, ?_⟩
  · intro h
    refine ⟨_, WriteLE16_eq be p x h, ?_, ?_⟩
    · simp only [List.length_cons, List.length_drop]; omega
    · simp
  · intro h
    refine ⟨_, WriteLE32_eq be p x h, ?_, ?_⟩
    · simp only [List.length_cons, List.length_drop]; omega
    · simp
  · intro h
    refine ⟨_, WriteLE64_eq be p x h, ?_, ?_⟩
    · simp only [List.length_cons, List.length_drop]; omega
    · simp
  · intro h
    refine ⟨_, WriteBE32_eq be p x h, ?_, ?_⟩
    · simp only [List.length_cons, List.length_drop]; omega
    · simp
  · intro h
    refine ⟨_, WriteBE64_eq be p x h, ?_, ?_⟩
    · simp only [List.length_cons, List.length_drop]; omega
    · simp

theorem WriteBE16_frame (be : Bool) (p : List Nat) (x : Nat) (adj : List Nat)
    (h : 4 ≤ p.length) (ha : 2 ≤ adj.length) :
    ∃ q, WriteBE16 be p x adj = some q ∧ q.length = p.length ∧
      q.getD 2 0 = adj.getD 0 0 ∧ q.getD 3 0 = adj.getD 1 0 ∧ q.drop 4 = p.drop 4 := by
  refine ⟨_, WriteBE16_eq be p x adj h ha, ?_, ?_, ?_, ?_⟩
  · simp only [List.length_cons, List.length_drop]; omega
  · simp
  · simp
  · simp

/-- C11 (code defect, evaluated at the failing input): on either host byte order,
`WriteBE16` of `0xABCD` to the buffer `11 22 33 44 55`, with the bytes `EE FF` following the
local `v` in memory, stores `AB CD EE FF 55`: the bytes at offsets 2 and 3 are modified, while
`WriteLE16` on the same buffer stores `CD AB 33 44 55` and leaves them unchanged. -/
theorem WriteBE16_modifies_bytes_2_and_3 (be : Bool) :
    WriteBE16 be [0x11, 0x22, 0x33, 0x44, 0x55] 0xABCD [0xEE, 0xFF] =
      some [0xAB, 0xCD, 0xEE, 0xFF, 0x55] ∧
    WriteLE16 be [0x11, 0x22, 0x33, 0x44, 0x55] 0xABCD = some [0xCD, 0xAB, 0x33, 0x44, 0x55] := by
  cases be <;> decide

/-! ## Quad-rounds, message schedule and constants -/

set_option maxHeartbeats 1000000 in
set_option maxRecDepth 10000 in
theorem loopBody_calls (chunk : Nat) (st : M128 × M128) (bs rs : List Nat)
    (hb : ∀ b ∈ bs, b < 256) (hlen : chunk + 64 ≤ bs.length) :
    loopBody chunk st ⟨bs, rs⟩ =
      some (addPair (runQuads st
          (scheduleCalls (Wt ((bs.drop chunk).take 64)) loopPairs (fun _ => false))) st,
        ⟨bs, rs ++ [chunk, chunk + 16, chunk + 32, chunk + 48]⟩) := by
  have hw := fun t h16 h64 => Wt_rec ((bs.drop chunk).take 64) t h16 h64
  have hlt := Wt_lt ((bs.drop chunk).take 64)
    (fun b hb2 => hb b (List.mem_of_mem_drop (List.mem_of_mem_take hb2)))
  have sh := shift_Qv (Wt ((bs.drop chunk).take 64)) hw hlt
  have s0 := sh 0 (by decide)
  have s4 := sh 4 (by decide)
  have s8 := sh 8 (by decide)
  have s12 := sh 12 (by decide)
  have s16 := sh 16 (by decide)
  have s20 := sh 20 (by decide)
  have s24 := sh 24 (by decide)
  have s28 := sh 28 (by decide)
  have s32 := sh 32 (by decide)
  have s36 := sh 36 (by decide)
  have s40 := sh 40 (by decide)
  have s44 := sh 44 (by decide)
  simp only [Nat.reduceAdd] at s0 s4 s8 s12 s16 s20 s24 s28 s32 s36 s40 s44
  have b0 := beVec_block bs chunk 0 (by decide)
  have b1 := beVec_block bs chunk 1 (by decide)
  have b2 := beVec_block bs chunk 2 (by decide)
  have b3 := beVec_block bs chunk 3 (by decide)
  simp only [Nat.reduceMul, Nat.add_zero] at b0 b1 b2 b3
  have h0 : chunk + 16 ≤ bs.length := by omega
  have h1 : chunk + 16 + 16 ≤ bs.length := by omega
  have h2 : chunk + 32 + 16 ≤ bs.length := by omega
  have h3 : chunk + 48 + 16 ≤ bs.length := by omega
  simp only [loopBody, bind, StateT.bind, Load_mk, if_pos h0, if_pos h1, if_pos h2, if_pos h3,
    shuffle_epi8_MASK bs hb, pure, StateT.pure, Option.bind, b0, b1, b2, b3,
    ShiftMessageB, s0, s4, s8, s12, s16, s20, s24, s28, s32, s36, s40, s44,
    List.cons_append, List.nil_append, Nat.reduceAdd, List.append_assoc]
  rfl
set_option maxHeartbeats 1000000 in
set_option maxRecDepth 10000 in
theorem d64Transform1_calls (inp : Nat) (bs rs : List Nat) (hb : ∀ b ∈ bs, b < 256)
    (hlen : inp + 128 ≤ bs.length) :
    d64Transform1 inp ⟨bs, rs⟩ =
      some ((addPair (runQuads (_mm_load_si128 INIT0, _mm_load_si128 INIT1)
               (scheduleCalls (Wt ((bs.drop inp).take 64)) loopPairs (fun _ => false)))
               (_mm_load_si128 INIT0, _mm_load_si128 INIT1),
             addPair (runQuads (_mm_load_si128 INIT0, _mm_load_si128 INIT1)
               (scheduleCalls (Wt ((bs.drop (inp + 64)).take 64)) loopPairs (fun _ => false)))
               (_mm_load_si128 INIT0, _mm_load_si128 INIT1)),
        ⟨bs, rs ++ [inp, inp + 64, inp + 16, inp + 80, inp + 32, inp + 96, inp + 48,
          inp + 112]⟩) := by
  have hwA := fun t h16 h64 => Wt_rec ((bs.drop inp).take 64) t h16 h64
  have hltA := Wt_lt ((bs.drop inp).take 64)
    (fun b hb2 => hb b (List.mem_of_mem_drop (List.mem_of_mem_take hb2)))
  have shA := shift_Qv (Wt ((bs.drop inp).take 64)) hwA hltA
  have hwB := fun t h16 h64 => Wt_rec ((bs.drop (inp + 64)).take 64) t h16 h64
  have hltB := Wt_lt ((bs.drop (inp + 64)).take 64)
    (fun b hb2 => hb b (List.mem_of_mem_drop (List.mem_of_mem_take hb2)))
  have shB := shift_Qv (Wt ((bs.drop (inp + 64)).take 64)) hwB hltB
  have a0 := shA 0 (by decide)
  have a4 := shA 4 (by decide)
  have a8 := shA 8 (by decide)
  have a12 := shA 12 (by decide)
  have a16 := shA 16 (by decide)
  have a20 := shA 20 (by decide)
  have a24 := shA 24 (by decide)
  have a28 := shA 28 (by decide)
  have a32 := shA 32 (by decide)
  have a36 := shA 36 (by decide)
  have a40 := shA 40 (by decide)
  have a44 := shA 44 (by decide)
  have c0 := shB 0 (by decide)
  have c4 := shB 4 (by decide)
  have c8 := shB 8 (by decide)
  have c12 := shB 12 (by decide)
  have c16 := shB 16 (by decide)
  have c20 := shB 20 (by decide)
  have c24 := shB 24 (by decide)
  have c28 := shB 28 (by decide)
  have c32 := shB 32 (by decide)
  have c36 := shB 36 (by decide)
  have c40 := shB 40 (by decide)
  have c44 := shB 44 (by decide)
  simp only [Nat.reduceAdd] at a0 a4 a8 a12 a16 a20 a24 a28 a32 a36 a40 a44
  simp only [Nat.reduceAdd] at c0 c4 c8 c12 c16 c20 c24 c28 c32 c36 c40 c44
  have b0 := beVec_block bs inp 0 (by decide)
  have b1 := beVec_block bs inp 1 (by decide)
  have b2 := beVec_block bs inp 2 (by decide)
  have b3 := beVec_block bs inp 3 (by decide)
  have d0 := beVec_block bs (inp + 64) 0 (by decide)
  have d1 := beVec_block bs (inp + 64) 1 (by decide)
  have d2 := beVec_block bs (inp + 64) 2 (by decide)
  have d3 := beVec_block bs (inp + 64) 3 (by decide)
  simp only [Nat.reduceMul, Nat.add_zero, Nat.add_assoc, Nat.reduceAdd] at b0 b1 b2 b3 d0 d1 d2 d3
  have h0 : inp + 16 ≤ bs.length := by omega
  have h1 : inp + (16 + 16) ≤ bs.length := by omega
  have h2 : inp + (32 + 16) ≤ bs.length := by omega
  have h3 : inp + (48 + 16) ≤ bs.length := by omega
  have h4 : inp + (64 + 16) ≤ bs.length := by omega
  have h5 : inp + (80 + 16) ≤ bs.length := by omega
  have h6 : inp + (96 + 16) ≤ bs.length := by omega
  have h7 : inp + (112 + 16) ≤ bs.length := by omega
  simp only [Nat.reduceAdd] at h1 h2 h3 h4 h5 h6 h7
  simp only [d64Transform1, sizeof_sha256, bind, StateT.bind, Load_mk, Nat.reduceMul,
    Nat.add_zero,
    Nat.add_assoc, Nat.reduceAdd,
    if_pos h0, if_pos h1, if_pos h2, if_pos h3, if_pos h4, if_pos h5, if_pos h6, if_pos h7,
    shuffle_epi8_MASK bs hb, pure, StateT.pure, Option.bind, b0, b1, b2, b3, d0, d1, d2, d3,
    ShiftMessageB, a0, a4, a8, a12, a16, a20, a24, a28, a32, a36, a40, a44,
    c0, c4, c8, c12, c16, c20, c24, c28, c32, c36, c40, c44, List.cons_append, List.nil_append, Nat.reduceAdd, List.append_assoc]
  rfl

set_option maxHeartbeats 1000000 in
set_option maxRecDepth 10000 in
theorem d64Transform3_calls (a b : State) (ha : a.wf) (hb : b.wf) :
    d64Transform3 (layout a) (layout b) =
      (addPair (runQuads (_mm_load_si128 INIT0, _mm_load_si128 INIT1)
         (scheduleCalls (Wt (digestBlock a)) digestPairs (fun j => j == 2 || j == 3)))
         (_mm_load_si128 INIT0, _mm_load_si128 INIT1),
       addPair (runQuads (_mm_load_si128 INIT0, _mm_load_si128 INIT1)
         (scheduleCalls (Wt (digestBlock b)) digestPairs (fun j => j == 2 || j == 3)))
         (_mm_load_si128 INIT0, _mm_load_si128 INIT1)) := by
  have hwA := fun t h16 h64 => Wt_rec (digestBlock a) t h16 h64
  have hltA := Wt_lt (digestBlock a) (digestBlock_bytes a)
  have shA := shift_Qv (Wt (digestBlock a)) hwA hltA
  have hwB := fun t h16 h64 => Wt_rec (digestBlock b) t h16 h64
  have hltB := Wt_lt (digestBlock b) (digestBlock_bytes b)
  have shB := shift_Qv (Wt (digestBlock b)) hwB hltB
  have a0 := shA 0 (by decide)
  have a4 := shA 4 (by decide)
  have a8 := shA 8 (by decide)
  have a12 := shA 12 (by decide)
  have a16 := shA 16 (by decide)
  have a20 := shA 20 (by decide)
  have a24 := shA 24 (by decide)
  have a28 := shA 28 (by decide)
  have a32 := shA 32 (by decide)
  have a36 := shA 36 (by decide)
  have a40 := shA 40 (by decide)
  have a44 := shA 44 (by decide)
  have c0 := shB 0 (by decide)
  have c4 := shB 4 (by decide)
  have c8 := shB 8 (by decide)
  have c12 := shB 12 (by decide)
  have c16 := shB 16 (by decide)
  have c20 := shB 20 (by decide)
  have c24 := shB 24 (by decide)
  have c28 := shB 28 (by decide)
  have c32 := shB 32 (by decide)
  have c36 := shB 36 (by decide)
  have c40 := shB 40 (by decide)
  have c44 := shB 44 (by decide)
  simp only [Nat.reduceAdd] at a0 a4 a8 a12 a16 a20 a24 a28 a32 a36 a40 a44
  simp only [Nat.reduceAdd] at c0 c4 c8 c12 c16 c20 c24 c28 c32 c36 c40 c44
  obtain ⟨wa0, wa1, wa2, wa3, wa4, wa5, wa6, wa7⟩ := digestBlock_words a ha
  obtain ⟨wa8, wa9, wa10, wa11, wa12, wa13, wa14, wa15⟩ := digestBlock_tail a
  obtain ⟨wb0, wb1, wb2, wb3, wb4, wb5, wb6, wb7⟩ := digestBlock_words b hb
  obtain ⟨wb8, wb9, wb10, wb11, wb12, wb13, wb14, wb15⟩ := digestBlock_tail b
  have qa0 : (⟨a.a, a.b, a.c, a.d⟩ : M128) = Qv (Wt (digestBlock a)) 0 := by
    simp only [Qv, wa0, wa1, wa2, wa3]
  have qa1 : (⟨a.e, a.f, a.g, a.h⟩ : M128) = Qv (Wt (digestBlock a)) 4 := by
    simp only [Qv, wa4, wa5, wa6, wa7]
  have qb0 : (⟨b.a, b.b, b.c, b.d⟩ : M128) = Qv (Wt (digestBlock b)) 0 := by
    simp only [Qv, wb0, wb1, wb2, wb3]
  have qb1 : (⟨b.e, b.f, b.g, b.h⟩ : M128) = Qv (Wt (digestBlock b)) 4 := by
    simp only [Qv, wb4, wb5, wb6, wb7]
  have m2 : _mm_set_epi64x 0x0 0x80000000 = ⟨0x80000000, 0, 0, 0⟩ := by decide
  have m3 : _mm_set_epi64x 0x10000000000 0x0 = ⟨0, 0, 0, 0x100⟩ := by decide
  have qa2 : (⟨0x80000000, 0, 0, 0⟩ : M128) = Qv (Wt (digestBlock a)) 8 := by
    simp only [Qv, wa8, wa9, wa10, wa11]
  have qa3 : (⟨0, 0, 0, 0x100⟩ : M128) = Qv (Wt (digestBlock a)) 12 := by
    simp only [Qv, wa12, wa13, wa14, wa15]
  have qb2 : (⟨0x80000000, 0, 0, 0⟩ : M128) = Qv (Wt (digestBlock b)) 8 := by
    simp only [Qv, wb8, wb9, wb10, wb11]
  have qb3 : (⟨0, 0, 0, 0x100⟩ : M128) = Qv (Wt (digestBlock b)) 12 := by
    simp only [Qv, wb12, wb13, wb14, wb15]
  rw [← qa2] at a0 a4 a8
  rw [← qa3] at a0 a4 a8 a12
  rw [← qb2] at c0 c4 c8
  rw [← qb3] at c0 c4 c8 c12
  simp only [d64Transform3, Unshuffle_layout a ha, Unshuffle_layout b hb, qa0, qa1, qb0, qb1,
    m2, m3, ShiftMessageB, a0, a4, a8, a12, a16, a20, a24, a28, a32, a36, a40, a44,
    c0, c4, c8, c12, c16, c20, c24, c28, c32, c36, c40, c44, Nat.reduceAdd]
  rfl

theorem d64Transform2_calls (ast bst : M128 × M128) :
    d64Transform2 ast bst =
      (addPair (runQuads ast (scheduleCalls (fun _ => 0) pad64Pairs (fun _ => true))) ast,
       addPair (runQuads bst (scheduleCalls (fun _ => 0) pad64Pairs (fun _ => true))) bst) :=
  rfl

/-- C15: `QuadRound2(state0, state1, m, k1, k0)` applied to the working layout
`state0 = (F,E,B,A)`, `state1 = (H,G,D,C)` of a state yields the working layout of the state
after four consecutive scalar FIPS 180-4 rounds whose round inputs satisfy
`W[i] + K[i] = m[i] + k[i]` modulo `2^32`, where `k[0]`, `k[1]` are the low and high half of
`k0` and `k[2]`, `k[3]` those of `k1`; and `QuadRound` is `QuadRound2` with `m = 0`. -/
theorem QuadRound2_is_four_fips_rounds (s : State) (m : M128)
    (k1 k0 K0 K1 K2 K3 W0 W1 W2 W3 : Nat)
    (h0 : (W0 + K0) % 4294967296 = (m.l0 + k0 % 4294967296) % 4294967296)
    (h1 : (W1 + K1) % 4294967296 = (m.l1 + k0 / 4294967296 % 4294967296) % 4294967296)
    (h2 : (W2 + K2) % 4294967296 = (m.l2 + k1 % 4294967296) % 4294967296)
    (h3 : (W3 + K3) % 4294967296 = (m.l3 + k1 / 4294967296 % 4294967296) % 4294967296) :
    QuadRound2 (layout s) m k1 k0 =
      layout (FIPS.round (FIPS.round (FIPS.round (FIPS.round s K0 W0) K1 W1) K2 W2) K3 W3) ∧
    (∀ st : M128 × M128, QuadRound st k1 k0 = QuadRound2 st ⟨0, 0, 0, 0⟩ k1 k0) := by
  constructor
  · rw [QuadRound2_layout]
    simp only [round_eq_roundWK, h0, h1, h2, h3, roundWK_mod]
  · intro st
    simp only [QuadRound, QuadRound2, _mm_add_epi32, _mm_set_epi64x, Nat.zero_add, Nat.mod_mod]

theorem QuadRound2_is_four_fips_rounds_witness :
    (1 + 0x428A2F98) % 4294967296 = (1 + 0x71374491428a2f98 % 4294967296) % 4294967296 ∧
    (2 + 0x71374491) % 4294967296 =
      (2 + 0x71374491428a2f98 / 4294967296 % 4294967296) % 4294967296 ∧
    (3 + 0xB5C0FBCF) % 4294967296 = (3 + 0xe9b5dba5b5c0fbcf % 4294967296) % 4294967296 ∧
    (4 + 0xE9B5DBA5) % 4294967296 =
      (4 + 0xe9b5dba5b5c0fbcf / 4294967296 % 4294967296) % 4294967296 ∧
    QuadRound2 (layout IV) ⟨1, 2, 3, 4⟩ 0xe9b5dba5b5c0fbcf 0x71374491428a2f98 =
      layout (FIPS.round (FIPS.round (FIPS.round (FIPS.round IV 0x428A2F98 1) 0x71374491 2)
        0xB5C0FBCF 3) 0xE9B5DBA5 4) ∧
    (∀ st : M128 × M128, QuadRound st 0xe9b5dba5b5c0fbcf 0x71374491428a2f98 =
      QuadRound2 st ⟨0, 0, 0, 0⟩ 0xe9b5dba5b5c0fbcf 0x71374491428a2f98) :=
  ⟨by decide, by decide, by decide, by decide,
    QuadRound2_is_four_fips_rounds IV ⟨1, 2, 3, 4⟩ 0xe9b5dba5b5c0fbcf 0x71374491428a2f98
      0x428A2F98 0x71374491 0xB5C0FBCF 0xE9B5DBA5 1 2 3 4
      (by decide) (by decide) (by decide) (by decide)⟩

theorem getD_map_range (f : Nat → Nat) (n t : Nat) (h : t < n) :
    ((List.range n).map f).getD t 0 = f t := by
  simp [List.getD_eq_getElem?_getD, h]

theorem pad64Pairs_unpack :
    pad64Pairs.flatMap unpackPair =
      (List.range 64).map (fun t => (K.getD t 0 + Wt padBlock64 t) % 4294967296) := by
  decide

/-- C13: stage "Transform 2" is, for each lane, one FIPS 180-4 compression of the lane's
midstate with the padding block of a 64-byte message (`0x80`, 55 zero bytes, the big-endian
bit length 512): the stage is sixteen message-free `QuadRound` calls on the packed pairs
`pad64Pairs` followed by the addition of the saved midstate, the `t`-th 32-bit constant of
those pairs is `K[t] + W[t]` modulo `2^32` for the schedule `W` of that block, for every
`t < 64`, and the result is the working layout of the compression of the midstate. -/
theorem transform2_compresses_padding_block (a b : State) :
    d64Transform2 (layout a) (layout b) =
      (layout (compress a padBlock64), layout (compress b padBlock64)) ∧
    (∀ ast bst : M128 × M128, d64Transform2 ast bst =
      (addPair (runQuads ast (scheduleCalls (fun _ => 0) pad64Pairs (fun _ => true))) ast,
       addPair (runQuads bst (scheduleCalls (fun _ => 0) pad64Pairs (fun _ => true))) bst)) ∧
    (∀ t, t < 64 → (pad64Pairs.flatMap unpackPair).getD t 0 =
      (K.getD t 0 + (schedule (parseBlock padBlock64)).getD t 0) % 4294967296) ∧
    padBlock64 = 0x80 :: (List.replicate 55 0 ++ [0, 0, 0, 0, 0, 0, 2, 0]) ∧
    (∀ msg : List Nat, msg.length = 64 → pad msg = msg ++ padBlock64) := by
  refine ⟨d64Transform2_eq a b, d64Transform2_calls, ?_, by decide, pad_64⟩
  intro t ht
  rw [pad64Pairs_unpack, getD_map_range _ 64 t ht]
  rfl

theorem digestPairs_tail (a : State) (t : Nat) (h8 : 8 ≤ t) (h16 : t < 16) :
    (digestPairs.flatMap unpackPair).getD t 0 =
      (K.getD t 0 + Wt (digestBlock a) t) % 4294967296 := by
  obtain ⟨w8, w9, w10, w11, w12, w13, w14, w15⟩ := digestBlock_tail a
  interval_cases t
  · rw [w8]; decide
  · rw [w9]; decide
  · rw [w10]; decide
  · rw [w11]; decide
  · rw [w12]; decide
  · rw [w13]; decide
  · rw [w14]; decide
  · rw [w15]; decide

/-- C14: stage "Transform 3" is, for each lane, one FIPS 180-4 compression from the initial
hash value of the single padded block of the lane's 32-byte first-level digest: the block is
the digest followed by the padding of a 32-byte message; the unshuffled stage-2 state is the
message words `W[0..7]`; the vectors `am2 = (0x80000000,0,0,0)` and `am3 = (0,0,0,0x100)` are
`W[8..15]`; the stage is the call sequence on the pairs `digestPairs` with message-free calls
at positions 2 and 3, whose constants `0x5807aa98` and `0xc19bf274` are `K[8] + W[8]` and
`K[15] + W[15]` modulo `2^32` (and likewise `K[t] + W[t]` for every `t` in 8..15). -/
theorem transform3_compresses_digest_block (a b : State) (ha : a.wf) (hb : b.wf) :
    d64Transform3 (layout a) (layout b) =
      (layout (compress IV (digestBlock a)), layout (compress IV (digestBlock b))) ∧
    pad (serialize a) = digestBlock a ∧
    digestBlock a = serialize a ++ (0x80 :: (List.replicate 23 0 ++ [0, 0, 0, 0, 0, 0, 1, 0])) ∧
    Unshuffle (layout a) = (Qv (Wt (digestBlock a)) 0, Qv (Wt (digestBlock a)) 4) ∧
    _mm_set_epi64x 0x0 0x80000000 = ⟨0x80000000, 0, 0, 0⟩ ∧
    _mm_set_epi64x 0x10000000000 0x0 = ⟨0, 0, 0, 0x100⟩ ∧
    _mm_set_epi64x 0x0 0x80000000 = Qv (Wt (digestBlock a)) 8 ∧
    _mm_set_epi64x 0x10000000000 0x0 = Qv (Wt (digestBlock a)) 12 ∧
    d64Transform3 (layout a) (layout b) =
      (addPair (runQuads (_mm_load_si128 INIT0, _mm_load_si128 INIT1)
         (scheduleCalls (Wt (digestBlock a)) digestPairs (fun j => j == 2 || j == 3)))
         (_mm_load_si128 INIT0, _mm_load_si128 INIT1),
       addPair (runQuads (_mm_load_si128 INIT0, _mm_load_si128 INIT1)
         (scheduleCalls (Wt (digestBlock b)) digestPairs (fun j => j == 2 || j == 3)))
         (_mm_load_si128 INIT0, _mm_load_si128 INIT1)) ∧
    (unpackPair (digestPairs.getD 2 (0, 0))).getD 0 0 = 0x5807aa98 ∧
    0x5807aa98 = (K.getD 8 0 + Wt (digestBlock a) 8) % 4294967296 ∧
    (unpackPair (digestPairs.getD 3 (0, 0))).getD 3 0 = 0xc19bf274 ∧
    0xc19bf274 = (K.getD 15 0 + Wt (digestBlock a) 15) % 4294967296 ∧
    (∀ t, 8 ≤ t → t < 16 → (digestPairs.flatMap unpackPair).getD t 0 =
      (K.getD t 0 + Wt (digestBlock a) t) % 4294967296) := by
  obtain ⟨w0, w1, w2, w3, w4, w5, w6, w7⟩ := digestBlock_words a ha
  obtain ⟨w8, w9, w10, w11, w12, w13, w14, w15⟩ := digestBlock_tail a
  refine ⟨d64Transform3_eq a b ha hb, pad_32 _ (serialize_length a), ?_, ?_, by decide,
    by decide, ?_, ?_, d64Transform3_calls a b ha hb, by decide, ?_, by decide, ?_,
    digestPairs_tail a⟩
  · simp only [digestBlock]
    congr 1
  · rw [Unshuffle_layout a ha]
    simp only [Qv, w0, w1, w2, w3, w4, w5, w6, w7]
  · simp only [Qv, w8, w9, w10, w11]
    decide
  · simp only [Qv, w12, w13, w14, w15]
    decide
  · rw [w8]; decide
  · rw [w15]; decide

set_option maxRecDepth 10000 in
theorem transform3_compresses_digest_block_witness :
    IV.wf ∧ IV.wf ∧
    (d64Transform3 (layout IV) (layout IV) =
      (layout (compress IV (digestBlock IV)), layout (compress IV (digestBlock IV))) ∧
    pad (serialize IV) = digestBlock IV ∧
    digestBlock IV =
      serialize IV ++ (0x80 :: (List.replicate 23 0 ++ [0, 0, 0, 0, 0, 0, 1, 0])) ∧
    Unshuffle (layout IV) = (Qv (Wt (digestBlock IV)) 0, Qv (Wt (digestBlock IV)) 4) ∧
    _mm_set_epi64x 0x0 0x80000000 = ⟨0x80000000, 0, 0, 0⟩ ∧
    _mm_set_epi64x 0x10000000000 0x0 = ⟨0, 0, 0, 0x100⟩ ∧
    _mm_set_epi64x 0x0 0x80000000 = Qv (Wt (digestBlock IV)) 8 ∧
    _mm_set_epi64x 0x10000000000 0x0 = Qv (Wt (digestBlock IV)) 12 ∧
    d64Transform3 (layout IV) (layout IV) =
      (addPair (runQuads (_mm_load_si128 INIT0, _mm_load_si128 INIT1)
         (scheduleCalls (Wt (digestBlock IV)) digestPairs (fun j => j == 2 || j == 3)))
         (_mm_load_si128 INIT0, _mm_load_si128 INIT1),
       addPair (runQuads (_mm_load_si128 INIT0, _mm_load_si128 INIT1)
         (scheduleCalls (Wt (digestBlock IV)) digestPairs (fun j => j == 2 || j == 3)))
         (_mm_load_si128 INIT0, _mm_load_si128 INIT1)) ∧
    (unpackPair (digestPairs.getD 2 (0, 0))).getD 0 0 = 0x5807aa98 ∧
    0x5807aa98 = (K.getD 8 0 + Wt (digestBlock IV) 8) % 4294967296 ∧
    (unpackPair (digestPairs.getD 3 (0, 0))).getD 3 0 = 0xc19bf274 ∧
    0xc19bf274 = (K.getD 15 0 + Wt (digestBlock IV) 15) % 4294967296 ∧
    (∀ t, 8 ≤ t → t < 16 → (digestPairs.flatMap unpackPair).getD t 0 =
      (K.getD t 0 + Wt (digestBlock IV) t) % 4294967296)) :=
  ⟨by decide, by decide, transform3_compresses_digest_block IV IV (by decide) (by decide)⟩

/-- C16: in one iteration of the loop of `transform_sha256_shani` on the 64-byte block at
offset `chunk`, let `W[0..15]` be the big-endian words of the block and
`W[t] = sigma1(W[t-2]) + W[t-7] + sigma0(W[t-15]) + W[t-16]` modulo `2^32` for `t` in 16..63
(the FIPS 180-4 message schedule).  The four `Load`s yield `(W[4k..4k+3])` for `k < 4`, one
window step of `ShiftMessageA` / `ShiftMessageC` turns the vectors of `W[t..t+15]` into
`(W[t+16..t+19])`, and the iteration is the sequence of sixteen `QuadRound2` calls whose
`j`-th message vector is `(W[4j], W[4j+1], W[4j+2], W[4j+3])`, followed by the
feed-forward. -/
theorem loop_messages_are_fips_schedule (chunk : Nat) (st : M128 × M128) (bs rs : List Nat)
    (hb : ∀ b ∈ bs, b < 256) (hlen : chunk + 64 ≤ bs.length) :
    (∀ t, t < 16 → Wt ((bs.drop chunk).take 64) t =
      bs.getD (chunk + 4 * t) 0 * 16777216 + bs.getD (chunk + 4 * t + 1) 0 * 65536 +
        bs.getD (chunk + 4 * t + 2) 0 * 256 + bs.getD (chunk + 4 * t + 3) 0) ∧
    (∀ t, 16 ≤ t → t < 64 → Wt ((bs.drop chunk).take 64) t =
      (sigma1 (Wt ((bs.drop chunk).take 64) (t - 2)) + Wt ((bs.drop chunk).take 64) (t - 7) +
        sigma0 (Wt ((bs.drop chunk).take 64) (t - 15)) +
        Wt ((bs.drop chunk).take 64) (t - 16)) % 4294967296) ∧
    (∀ t, t < 64 → Wt ((bs.drop chunk).take 64) t =
      (schedule (parseBlock ((bs.drop chunk).take 64))).getD t 0) ∧
    (∀ k, k < 4 → Load (chunk + 16 * k) ⟨bs, rs⟩ =
      some (Qv (Wt ((bs.drop chunk).take 64)) (4 * k), ⟨bs, rs ++ [chunk + 16 * k]⟩)) ∧
    (∀ t, t + 19 < 64 →
      ShiftMessageC (Qv (Wt ((bs.drop chunk).take 64)) (t + 8))
          (Qv (Wt ((bs.drop chunk).take 64)) (t + 12))
          (ShiftMessageA (Qv (Wt ((bs.drop chunk).take 64)) t)
            (Qv (Wt ((bs.drop chunk).take 64)) (t + 4))) =
        Qv (Wt ((bs.drop chunk).take 64)) (t + 16)) ∧
    loopBody chunk st ⟨bs, rs⟩ =
      some (addPair (runQuads st ((List.range 16).map (fun j =>
          (some ⟨Wt ((bs.drop chunk).take 64) (4 * j), Wt ((bs.drop chunk).take 64) (4 * j + 1),
                 Wt ((bs.drop chunk).take 64) (4 * j + 2),
                 Wt ((bs.drop chunk).take 64) (4 * j + 3)⟩,
           loopPairs.getD j (0, 0))))) st,
        ⟨bs, rs ++ [chunk, chunk + 16, chunk + 32, chunk + 48]⟩) := by
  refine ⟨?_, fun t h16 h64 => Wt_rec _ t h16 h64, fun t _ => rfl, ?_, ?_, ?_⟩
  · intro t ht
    rw [Wt_low _ t ht, beWord_take_drop bs chunk t ht]
  · intro k hk
    rw [Load_eq _ _ hb (by simp only []; omega), beVec_block bs chunk k hk]
  · exact shift_Qv _ (fun t h16 h64 => Wt_rec _ t h16 h64)
      (Wt_lt _ (fun b hb2 => hb b (List.mem_of_mem_drop (List.mem_of_mem_take hb2))))
  · rw [loopBody_calls chunk st bs rs hb hlen]
    rfl

set_option maxRecDepth 10000 in
theorem loop_messages_are_fips_schedule_witness :
    (∀ b ∈ emptyBlock, b < 256) ∧ 0 + 64 ≤ emptyBlock.length ∧
    ((∀ t, t < 16 → Wt ((emptyBlock.drop 0).take 64) t =
      emptyBlock.getD (0 + 4 * t) 0 * 16777216 + emptyBlock.getD (0 + 4 * t + 1) 0 * 65536 +
        emptyBlock.getD (0 + 4 * t + 2) 0 * 256 + emptyBlock.getD (0 + 4 * t + 3) 0) ∧
    (∀ t, 16 ≤ t → t < 64 → Wt ((emptyBlock.drop 0).take 64) t =
      (sigma1 (Wt ((emptyBlock.drop 0).take 64) (t - 2)) +
        Wt ((emptyBlock.drop 0).take 64) (t - 7) +
        sigma0 (Wt ((emptyBlock.drop 0).take 64) (t - 15)) +
        Wt ((emptyBlock.drop 0).take 64) (t - 16)) % 4294967296) ∧
    (∀ t, t < 64 → Wt ((emptyBlock.drop 0).take 64) t =
      (schedule (parseBlock ((emptyBlock.drop 0).take 64))).getD t 0) ∧
    (∀ k, k < 4 → Load (0 + 16 * k) ⟨emptyBlock, []⟩ =
      some (Qv (Wt ((emptyBlock.drop 0).take 64)) (4 * k), ⟨emptyBlock, [] ++ [0 + 16 * k]⟩)) ∧
    (∀ t, t + 19 < 64 →
      ShiftMessageC (Qv (Wt ((emptyBlock.drop 0).take 64)) (t + 8))
          (Qv (Wt ((emptyBlock.drop 0).take 64)) (t + 12))
          (ShiftMessageA (Qv (Wt ((emptyBlock.drop 0).take 64)) t)
            (Qv (Wt ((emptyBlock.drop 0).take 64)) (t + 4))) =
        Qv (Wt ((emptyBlock.drop 0).take 64)) (t + 16)) ∧
    loopBody 0 (layout IV) ⟨emptyBlock, []⟩ =
      some (addPair (runQuads (layout IV) ((List.range 16).map (fun j =>
          (some ⟨Wt ((emptyBlock.drop 0).take 64) (4 * j),
                 Wt ((emptyBlock.drop 0).take 64) (4 * j + 1),
                 Wt ((emptyBlock.drop 0).take 64) (4 * j + 2),
                 Wt ((emptyBlock.drop 0).take 64) (4 * j + 3)⟩,
           loopPairs.getD j (0, 0))))) (layout IV),
        ⟨emptyBlock, [] ++ [0, 0 + 16, 0 + 32, 0 + 48]⟩)) :=
  ⟨by decide, by decide,
    loop_messages_are_fips_schedule 0 (layout IV) emptyBlock [] (by decide) (by decide)⟩

theorem loopPairs_K (j : Nat) (h : j < 16) :
    loopPairs.getD j (0, 0) =
      (K.getD (4 * j + 2) 0 + 4294967296 * K.getD (4 * j + 3) 0,
       K.getD (4 * j) 0 + 4294967296 * K.getD (4 * j + 1) 0) := by
  interval_cases j <;> decide

theorem digestPairs_loopPairs (j : Nat) (h : j < 16) (h2 : j ≠ 2) (h3 : j ≠ 3) :
    digestPairs.getD j (0, 0) = loopPairs.getD j (0, 0) := by
  interval_cases j <;> first | decide | exact absurd rfl h2 | exact absurd rfl h3

/-- C17: the sixteen packed constant pairs of the `QuadRound2` calls of one iteration of
`transform_sha256_shani` are the 64 FIPS 180-4 constants in order: the `j`-th pair is
`k0 = K[4j] + 2^32 * K[4j+1]`, `k1 = K[4j+2] + 2^32 * K[4j+3]`; stage "Transform 1" of the
2-way function makes its sixteen `QuadRound2` calls with the same pairs at the same
positions in both lanes, and stage "Transform 3" does so at every position other than 2 and
3, where its calls are the message-free `QuadRound`. -/
theorem round_constants_are_fips_K (chunk inp : Nat) (st : M128 × M128) (bs rs : List Nat)
    (a b : State) (hb : ∀ x ∈ bs, x < 256) (hlen : chunk + 64 ≤ bs.length)
    (hinp : inp + 128 ≤ bs.length) (ha : a.wf) (hb2 : b.wf) :
    (∀ j, j < 16 → loopPairs.getD j (0, 0) =
      (K.getD (4 * j + 2) 0 + 4294967296 * K.getD (4 * j + 3) 0,
       K.getD (4 * j) 0 + 4294967296 * K.getD (4 * j + 1) 0)) ∧
    loopBody chunk st ⟨bs, rs⟩ =
      some (addPair (runQuads st
          (scheduleCalls (Wt ((bs.drop chunk).take 64)) loopPairs (fun _ => false))) st,
        ⟨bs, rs ++ [chunk, chunk + 16, chunk + 32, chunk + 48]⟩) ∧
    d64Transform1 inp ⟨bs, rs⟩ =
      some ((addPair (runQuads (_mm_load_si128 INIT0, _mm_load_si128 INIT1)
               (scheduleCalls (Wt ((bs.drop inp).take 64)) loopPairs (fun _ => false)))
               (_mm_load_si128 INIT0, _mm_load_si128 INIT1),
             addPair (runQuads (_mm_load_si128 INIT0, _mm_load_si128 INIT1)
               (scheduleCalls (Wt ((bs.drop (inp + 64)).take 64)) loopPairs (fun _ => false)))
               (_mm_load_si128 INIT0, _mm_load_si128 INIT1)),
        ⟨bs, rs ++ [inp, inp + 64, inp + 16, inp + 80, inp + 32, inp + 96, inp + 48,
          inp + 112]⟩) ∧
    d64Transform3 (layout a) (layout b) =
      (addPair (runQuads (_mm_load_si128 INIT0, _mm_load_si128 INIT1)
         (scheduleCalls (Wt (digestBlock a)) digestPairs (fun j => j == 2 || j == 3)))
         (_mm_load_si128 INIT0, _mm_load_si128 INIT1),
       addPair (runQuads (_mm_load_si128 INIT0, _mm_load_si128 INIT1)
         (scheduleCalls (Wt (digestBlock b)) digestPairs (fun j => j == 2 || j == 3)))
         (_mm_load_si128 INIT0, _mm_load_si128 INIT1)) ∧
    (∀ j, j < 16 → j ≠ 2 → j ≠ 3 → digestPairs.getD j (0, 0) = loopPairs.getD j (0, 0)) :=
  ⟨loopPairs_K, loopBody_calls chunk st bs rs hb hlen, d64Transform1_calls inp bs rs hb hinp,
    d64Transform3_calls a b ha hb2, digestPairs_loopPairs⟩

set_option maxRecDepth 10000 in
theorem round_constants_are_fips_K_witness :
    (∀ x ∈ emptyBlock ++ emptyBlock, x < 256) ∧ 64 + 64 ≤ (emptyBlock ++ emptyBlock).length ∧
    0 + 128 ≤ (emptyBlock ++ emptyBlock).length ∧ IV.wf ∧ IV.wf ∧
    ((∀ j, j < 16 → loopPairs.getD j (0, 0) =
      (K.getD (4 * j + 2) 0 + 4294967296 * K.getD (4 * j + 3) 0,
       K.getD (4 * j) 0 + 4294967296 * K.getD (4 * j + 1) 0)) ∧
    loopBody 64 (layout IV) ⟨emptyBlock ++ emptyBlock, []⟩ =
      some (addPair (runQuads (layout IV)
          (scheduleCalls (Wt (((emptyBlock ++ emptyBlock).drop 64).take 64)) loopPairs
            (fun _ => false))) (layout IV),
        ⟨emptyBlock ++ emptyBlock, [] ++ [64, 64 + 16, 64 + 32, 64 + 48]⟩) ∧
    d64Transform1 0 ⟨emptyBlock ++ emptyBlock, []⟩ =
      some ((addPair (runQuads (_mm_load_si128 INIT0, _mm_load_si128 INIT1)
               (scheduleCalls (Wt (((emptyBlock ++ emptyBlock).drop 0).take 64)) loopPairs
                 (fun _ => false)))
               (_mm_load_si128 INIT0, _mm_load_si128 INIT1),
             addPair (runQuads (_mm_load_si128 INIT0, _mm_load_si128 INIT1)
               (scheduleCalls (Wt (((emptyBlock ++ emptyBlock).drop (0 + 64)).take 64))
                 loopPairs (fun _ => false)))
               (_mm_load_si128 INIT0, _mm_load_si128 INIT1)),
        ⟨emptyBlock ++ emptyBlock, [] ++ [0, 0 + 64, 0 + 16, 0 + 80, 0 + 32, 0 + 96, 0 + 48,
          0 + 112]⟩) ∧
    d64Transform3 (layout IV) (layout IV) =
      (addPair (runQuads (_mm_load_si128 INIT0, _mm_load_si128 INIT1)
         (scheduleCalls (Wt (digestBlock IV)) digestPairs (fun j => j == 2 || j == 3)))
         (_mm_load_si128 INIT0, _mm_load_si128 INIT1),
       addPair (runQuads (_mm_load_si128 INIT0, _mm_load_si128 INIT1)
         (scheduleCalls (Wt (digestBlock IV)) digestPairs (fun j => j == 2 || j == 3)))
         (_mm_load_si128 INIT0, _mm_load_si128 INIT1)) ∧
    (∀ j, j < 16 → j ≠ 2 → j ≠ 3 → digestPairs.getD j (0, 0) = loopPairs.getD j (0, 0))) :=
  ⟨by decide, by decide, by decide, by decide, by decide,
    round_constants_are_fips_K 64 0 (layout IV) (emptyBlock ++ emptyBlock) [] IV IV
      (by decide) (by decide) (by decide) (by decide) (by decide)⟩

/-! ## `Load`, `Save` and the initial state -/

theorem be32Bytes_word (x0 x1 x2 x3 : Nat) (h0 : x0 < 256) (h1 : x1 < 256) (h2 : x2 < 256)
    (h3 : x3 < 256) :
    be32Bytes (x0 * 16777216 + x1 * 65536 + x2 * 256 + x3) = [x0, x1, x2, x3] := by
  have e : x0 * 16777216 + x1 * 65536 + x2 * 256 + x3 =
      x3 + 256 * x2 + 65536 * x1 + 16777216 * x0 := by omega
  obtain ⟨r0, r1, r2, r3⟩ := byte_rev x0 x1 x2 x3 h0 h1 h2 h3
  simp only [be32Bytes, e, r0, r1, r2, r3]

theorem take16_getD (l : List Nat) (p : Nat) (h : p + 16 ≤ l.length) :
    (l.drop p).take 16 =
      [l.getD p 0, l.getD (p + 1) 0, l.getD (p + 2) 0, l.getD (p + 3) 0,
       l.getD (p + 4) 0, l.getD (p + 5) 0, l.getD (p + 6) 0, l.getD (p + 7) 0,
       l.getD (p + 8) 0, l.getD (p + 9) 0, l.getD (p + 10) 0, l.getD (p + 11) 0,
       l.getD (p + 12) 0, l.getD (p + 13) 0, l.getD (p + 14) 0, l.getD (p + 15) 0] := by
  apply List.ext_getElem
  · simp only [List.length_take, List.length_drop, List.length_cons, List.length_nil]; omega
  · intro i h1 h2
    simp only [List.length_cons, List.length_nil] at h2
    have h3 := getD_take_drop l p 16 i (by omega)
    rw [List.getD_eq_getElem?_getD, List.getElem?_eq_getElem h1, Option.getD_some] at h3
    rw [h3]
    interval_cases i <;> simp

theorem beBytes_beVec (bs : List Nat) (hb : ∀ b ∈ bs, b < 256) (p : Nat)
    (h : p + 16 ≤ bs.length) : beBytes (beVec bs p) = (bs.drop p).take 16 := by
  have g := getD_lt_of_bytes bs hb
  rw [take16_getD bs p h]
  simp only [beBytes, beVec, be32Bytes_word _ _ _ _ (g _) (g _) (g _) (g _), List.cons_append,
    List.nil_append]

theorem beVec_beBytes (v : M128) (h : v.wf) : beVec (beBytes v) 0 = v := by
  obtain ⟨h0, h1, h2, h3⟩ := h
  cases v with
  | mk a b c d =>
    simp only [beBytes, be32Bytes, beVec, List.cons_append, List.nil_append, List.getD_cons_zero,
      List.getD_cons_succ, Nat.zero_add, Nat.reduceAdd]
    simp only at h0 h1 h2 h3
    rw [be32_roundtrip a h0, be32_roundtrip b h1, be32_roundtrip c h2, be32_roundtrip d h3]

theorem beBytes_lt (v : M128) : ∀ b ∈ beBytes v, b < 256 := by
  intro b hb
  simp only [beBytes, be32Bytes, List.cons_append, List.nil_append, List.mem_cons,
    List.mem_singleton, List.not_mem_nil, or_false] at hb
  rcases hb with h | h | h | h | h | h | h | h | h | h | h | h | h | h | h | h <;>
    (rw [h]; exact Nat.mod_lt _ (by decide))

theorem Load_window (q : List Nat) (o : Nat) (rs : List Nat) (v : M128) (hv : v.wf)
    (hq : o + 16 ≤ q.length) (hw : (q.drop o).take 16 = beBytes v) :
    Load o ⟨q, rs⟩ = some (v, ⟨q, rs ++ [o]⟩) := by
  rw [Load_mk, if_pos hq, hw]
  have e : beBytes v = ((beBytes v).drop 0).take 16 := by
    rw [List.drop_zero, List.take_of_length_le (by rw [beBytes_length])]
  rw [e, shuffle_epi8_MASK (beBytes v) (beBytes_lt v) 0, beVec_beBytes v hv]

theorem drop_window (pre seg post : List Nat) (o k : Nat) (hp : pre.length = o) :
    (pre ++ seg ++ post).drop (o + k) = (seg ++ post).drop k := by
  subst hp
  rw [List.append_assoc, List.drop_append]

theorem getD_drop_add (l : List Nat) (n k : Nat) : (l.drop n).getD k 0 = l.getD (n + k) 0 := by
  simp [List.getD_eq_getElem?_getD, List.getElem?_drop]

theorem mem_drop_lt (bs : List Nat) (hb : ∀ x ∈ bs, x < 256) (n : Nat) :
    ∀ x ∈ bs.drop n, x < 256 := fun x hx => hb x (List.mem_of_mem_drop hx)

theorem Load_lanes (be : Bool) (bs : List Nat) (p : Nat) (hb : ∀ x ∈ bs, x < 256)
    (hp : p + 16 ≤ bs.length) (i : Nat) (hi : i < 4) :
    ReadBE32 be (bs.drop (p + 4 * i)) = some ((beVec bs p).lane i) := by
  rw [ReadBE32_eq be _ (mem_drop_lt bs hb _) (by rw [List.length_drop]; omega)]
  simp only [getD_drop_add]
  interval_cases i <;> simp only [M128.lane, beVec, List.getD_cons_zero, List.getD_cons_succ,
    Nat.add_assoc, Nat.reduceAdd, Nat.reduceMul, Nat.add_zero]

theorem Save_lanes (be : Bool) (out : List Nat) (o : Nat) (v : M128) (ho : o + 16 ≤ out.length)
    (i : Nat) (hi : i < 4) :
    (WriteBE32 be (out.drop (o + 4 * i)) (v.lane i)).map (List.take 4) =
      some (((out.take o ++ beBytes v ++ out.drop (o + 16)).drop (o + 4 * i)).take 4) := by
  rw [WriteBE32_eq be _ _ (by rw [List.length_drop]; omega),
    drop_window _ _ _ o (4 * i) (by rw [List.length_take]; omega)]
  interval_cases i <;> simp [M128.lane, beBytes, be32Bytes]

theorem Load_lane_words (bs : List Nat) (p i : Nat) (hi : i < 4) :
    (beVec bs p).lane i =
      bs.getD (p + 4 * i) 0 * 16777216 + bs.getD (p + 4 * i + 1) 0 * 65536 +
        bs.getD (p + 4 * i + 2) 0 * 256 + bs.getD (p + 4 * i + 3) 0 := by
  interval_cases i <;> simp only [M128.lane, beVec, List.getD_cons_zero, List.getD_cons_succ,
    Nat.add_assoc, Nat.reduceAdd, Nat.reduceMul, Nat.add_zero]

theorem Save_lane_bytes (out : List Nat) (o : Nat) (v : M128) (ho : o + 16 ≤ out.length)
    (i : Nat) (hi : i < 4) :
    ((out.take o ++ beBytes v ++ out.drop (o + 16)).drop (o + 4 * i)).take 4 =
      [v.lane i / 16777216 % 256, v.lane i / 65536 % 256, v.lane i / 256 % 256,
       v.lane i % 256] := by
  rw [drop_window _ _ _ o (4 * i) (by rw [List.length_take]; omega)]
  interval_cases i <;> simp [M128.lane, beBytes, be32Bytes]

/-- C18: `Load` and `Save` are the per-word big-endian conversions and are mutually inverse.
`Load` of the 16 bytes at offset `p` yields the register whose lane `i` is
`b[4i]*2^24 + b[4i+1]*2^16 + b[4i+2]*2^8 + b[4i+3]`, which is `ReadBE32` of the bytes
`4i .. 4i+3`, and saving that register writes those 16 bytes back; `Save` of a register `v`
changes only the 16 bytes at its offset, bytes `4i .. 4i+3` of them being the big-endian
bytes of lane `i`, which are the four bytes that `WriteBE32` writes, and `Load` of what was
saved yields `v`. -/
theorem Load_Save_big_endian_inverse (be : Bool) (bs out rs : List Nat) (p o : Nat) (v : M128)
    (hb : ∀ x ∈ bs, x < 256) (hp : p + 16 ≤ bs.length) (ho : o + 16 ≤ out.length)
    (hv : v.wf) :
    (∃ u, Load p ⟨bs, rs⟩ = some (u, ⟨bs, rs ++ [p]⟩) ∧
      (∀ i, i < 4 → u.lane i =
        bs.getD (p + 4 * i) 0 * 16777216 + bs.getD (p + 4 * i + 1) 0 * 65536 +
          bs.getD (p + 4 * i + 2) 0 * 256 + bs.getD (p + 4 * i + 3) 0) ∧
      (∀ i, i < 4 → ReadBE32 be (bs.drop (p + 4 * i)) = some (u.lane i)) ∧
      Save out o u = some (out.take o ++ (bs.drop p).take 16 ++ out.drop (o + 16))) ∧
    (∃ q, Save out o v = some q ∧ q.length = out.length ∧ q.take o = out.take o ∧
      q.drop (o + 16) = out.drop (o + 16) ∧
      (∀ i, i < 4 → (q.drop (o + 4 * i)).take 4 =
        [v.lane i / 16777216 % 256, v.lane i / 65536 % 256, v.lane i / 256 % 256,
         v.lane i % 256]) ∧
      (∀ i, i < 4 → (WriteBE32 be (out.drop (o + 4 * i)) (v.lane i)).map (List.take 4) =
        some ((q.drop (o + 4 * i)).take 4)) ∧
      Load o ⟨q, rs⟩ = some (v, ⟨q, rs ++ [o]⟩)) := by
  have hlo : (out.take o).length = o := by rw [List.length_take]; omega
  constructor
  · refine ⟨beVec bs p, Load_eq p ⟨bs, rs⟩ hb hp, Load_lane_words bs p,
      Load_lanes be bs p hb hp, ?_⟩
    rw [Save_beBytes out o _ ho, beBytes_beVec bs hb p hp]
  · refine ⟨_, Save_beBytes out o v ho, ?_, ?_, ?_, Save_lane_bytes out o v ho,
      Save_lanes be out o v ho, ?_⟩
    · simp only [List.length_append, List.length_take, List.length_drop, beBytes_length]
      omega
    · rw [List.append_assoc, List.take_left' hlo]
    · rw [drop_window _ _ _ o 16 hlo, List.drop_left' (beBytes_length v)]
    · apply Load_window _ _ _ _ hv
      · simp only [List.length_append, List.length_take, List.length_drop, beBytes_length]
        omega
      · have := drop_window (out.take o) (beBytes v) (out.drop (o + 16)) o 0 hlo
        rw [Nat.add_zero, List.drop_zero] at this
        rw [this, List.take_left' (beBytes_length v)]

set_option maxRecDepth 10000 in
theorem Load_Save_big_endian_inverse_witness :
    (∀ x ∈ emptyBlock, x < 256) ∧ 16 + 16 ≤ emptyBlock.length ∧
    4 + 16 ≤ (List.replicate 24 7).length ∧
    M128.wf ⟨0x01020304, 0x05060708, 0x090a0b0c, 0x0d0e0f10⟩ ∧
    ((∃ u, Load 16 ⟨emptyBlock, []⟩ = some (u, ⟨emptyBlock, [] ++ [16]⟩) ∧
      (∀ i, i < 4 → u.lane i =
        emptyBlock.getD (16 + 4 * i) 0 * 16777216 + emptyBlock.getD (16 + 4 * i + 1) 0 * 65536 +
          emptyBlock.getD (16 + 4 * i + 2) 0 * 256 + emptyBlock.getD (16 + 4 * i + 3) 0) ∧
      (∀ i, i < 4 → ReadBE32 false (emptyBlock.drop (16 + 4 * i)) = some (u.lane i)) ∧
      Save (List.replicate 24 7) 4 u =
        some ((List.replicate 24 7).take 4 ++ (emptyBlock.drop 16).take 16 ++
          (List.replicate 24 7).drop (4 + 16))) ∧
    (∃ q, Save (List.replicate 24 7) 4 ⟨0x01020304, 0x05060708, 0x090a0b0c, 0x0d0e0f10⟩ =
        some q ∧
      q.length = (List.replicate 24 7).length ∧ q.take 4 = (List.replicate 24 7).take 4 ∧
      q.drop (4 + 16) = (List.replicate 24 7).drop (4 + 16) ∧
      (∀ i, i < 4 → (q.drop (4 + 4 * i)).take 4 =
        [M128.lane ⟨0x01020304, 0x05060708, 0x090a0b0c, 0x0d0e0f10⟩ i / 16777216 % 256,
         M128.lane ⟨0x01020304, 0x05060708, 0x090a0b0c, 0x0d0e0f10⟩ i / 65536 % 256,
         M128.lane ⟨0x01020304, 0x05060708, 0x090a0b0c, 0x0d0e0f10⟩ i / 256 % 256,
         M128.lane ⟨0x01020304, 0x05060708, 0x090a0b0c, 0x0d0e0f10⟩ i % 256]) ∧
      (∀ i, i < 4 → (WriteBE32 false ((List.replicate 24 7).drop (4 + 4 * i))
          (M128.lane ⟨0x01020304, 0x05060708, 0x090a0b0c, 0x0d0e0f10⟩ i)).map (List.take 4) =
        some ((q.drop (4 + 4 * i)).take 4)) ∧
      Load 4 ⟨q, []⟩ =
        some (⟨0x01020304, 0x05060708, 0x090a0b0c, 0x0d0e0f10⟩, ⟨q, [] ++ [4]⟩))) :=
  ⟨by decide, by decide, by decide, by decide,
    Load_Save_big_endian_inverse false emptyBlock (List.replicate 24 7) [] 16 4
      ⟨0x01020304, 0x05060708, 0x090a0b0c, 0x0d0e0f10⟩ (by decide) (by decide) (by decide)
      (by decide)⟩

theorem ivRegs_eq :
    Shuffle (_mm_loadu_si128 (le32Bytes IV.a ++ le32Bytes IV.b ++ le32Bytes IV.c ++ le32Bytes IV.d),
      _mm_loadu_si128 (le32Bytes IV.e ++ le32Bytes IV.f ++ le32Bytes IV.g ++ le32Bytes IV.h)) =
    (_mm_load_si128 INIT0, _mm_load_si128 INIT1) := by
  decide

/-- C19: `INIT0` and `INIT1` are the initial hash value in the working layout: loading the
canonical initial hash value `(0x6a09e667, .., 0x5be0cd19)` as two registers, as
`transform_sha256_shani` does with its state, and applying `Shuffle` yields the registers
loaded from `INIT0` and `INIT1`; so each lane of stage "Transform 1" is one loop iteration of
`transform_sha256_shani` started from the initial hash value, and each lane of stage
"Transform 3" is one such iteration on the padded digest block. -/
theorem INIT_is_shuffled_initial_hash (inp : Nat) (bs rs : List Nat) (a b : State)
    (hb : ∀ x ∈ bs, x < 256) (hinp : inp + 128 ≤ bs.length) (ha : a.wf) (hb2 : b.wf) :
    IV = ⟨0x6a09e667, 0xbb67ae85, 0x3c6ef372, 0xa54ff53a,
          0x510e527f, 0x9b05688c, 0x1f83d9ab, 0x5be0cd19⟩ ∧
    Shuffle (_mm_loadu_si128 (le32Bytes IV.a ++ le32Bytes IV.b ++ le32Bytes IV.c ++ le32Bytes IV.d),
      _mm_loadu_si128 (le32Bytes IV.e ++ le32Bytes IV.f ++ le32Bytes IV.g ++ le32Bytes IV.h)) =
      (_mm_load_si128 INIT0, _mm_load_si128 INIT1) ∧
    (∃ x y m1 m2 m3,
      loopBody inp (_mm_load_si128 INIT0, _mm_load_si128 INIT1) ⟨bs, rs⟩ = some (x, m1) ∧
      loopBody (inp + 64) (_mm_load_si128 INIT0, _mm_load_si128 INIT1) ⟨bs, rs⟩ = some (y, m2) ∧
      d64Transform1 inp ⟨bs, rs⟩ = some ((x, y), m3)) ∧
    (∃ m1 m2,
      loopBody 0 (_mm_load_si128 INIT0, _mm_load_si128 INIT1) ⟨digestBlock a, rs⟩ =
        some ((d64Transform3 (layout a) (layout b)).1, m1) ∧
      loopBody 0 (_mm_load_si128 INIT0, _mm_load_si128 INIT1) ⟨digestBlock b, rs⟩ =
        some ((d64Transform3 (layout a) (layout b)).2, m2)) := by
  refine ⟨rfl, ivRegs_eq, ?_, ?_⟩
  · refine ⟨layout (compress IV ((bs.drop inp).take 64)),
      layout (compress IV ((bs.drop (inp + 64)).take 64)),
      ⟨bs, rs ++ [inp, inp + 16, inp + 32, inp + 48]⟩,
      ⟨bs, rs ++ [inp + 64, inp + 64 + 16, inp + 64 + 32, inp + 64 + 48]⟩, _, ?_, ?_,
      d64Transform1_eq inp bs rs hb hinp⟩
    · rw [INIT_layout, loopBody_eq inp IV bs rs hb (by omega)]
    · rw [INIT_layout, loopBody_eq (inp + 64) IV bs rs hb (by omega)]
  · have la : (digestBlock a).length = 64 := by
      simp only [digestBlock, List.length_append, serialize_length, padTail32_length]
    have lb : (digestBlock b).length = 64 := by
      simp only [digestBlock, List.length_append, serialize_length, padTail32_length]
    refine ⟨⟨digestBlock a, rs ++ [0, 0 + 16, 0 + 32, 0 + 48]⟩,
      ⟨digestBlock b, rs ++ [0, 0 + 16, 0 + 32, 0 + 48]⟩, ?_, ?_⟩
    · rw [INIT_layout, loopBody_eq 0 IV _ rs (digestBlock_bytes a) (by omega),
        d64Transform3_eq a b ha hb2, List.drop_zero, List.take_of_length_le (by omega)]
    · rw [INIT_layout, loopBody_eq 0 IV _ rs (digestBlock_bytes b) (by omega),
        d64Transform3_eq a b ha hb2, List.drop_zero, List.take_of_length_le (by omega)]

set_option maxRecDepth 10000 in
theorem INIT_is_shuffled_initial_hash_witness :
    (∀ x ∈ emptyBlock ++ emptyBlock, x < 256) ∧ 0 + 128 ≤ (emptyBlock ++ emptyBlock).length ∧
    IV.wf ∧ IV.wf ∧
    (IV = ⟨0x6a09e667, 0xbb67ae85, 0x3c6ef372, 0xa54ff53a,
          0x510e527f, 0x9b05688c, 0x1f83d9ab, 0x5be0cd19⟩ ∧
    Shuffle (_mm_loadu_si128 (le32Bytes IV.a ++ le32Bytes IV.b ++ le32Bytes IV.c ++ le32Bytes IV.d),
      _mm_loadu_si128 (le32Bytes IV.e ++ le32Bytes IV.f ++ le32Bytes IV.g ++ le32Bytes IV.h)) =
      (_mm_load_si128 INIT0, _mm_load_si128 INIT1) ∧
    (∃ x y m1 m2 m3,
      loopBody 0 (_mm_load_si128 INIT0, _mm_load_si128 INIT1) ⟨emptyBlock ++ emptyBlock, []⟩ =
        some (x, m1) ∧
      loopBody (0 + 64) (_mm_load_si128 INIT0, _mm_load_si128 INIT1)
        ⟨emptyBlock ++ emptyBlock, []⟩ = some (y, m2) ∧
      d64Transform1 0 ⟨emptyBlock ++ emptyBlock, []⟩ = some ((x, y), m3)) ∧
    (∃ m1 m2,
      loopBody 0 (_mm_load_si128 INIT0, _mm_load_si128 INIT1) ⟨digestBlock IV, []⟩ =
        some ((d64Transform3 (layout IV) (layout IV)).1, m1) ∧
      loopBody 0 (_mm_load_si128 INIT0, _mm_load_si128 INIT1) ⟨digestBlock IV, []⟩ =
        some ((d64Transform3 (layout IV) (layout IV)).2, m2))) :=
  ⟨by decide, by decide, by decide, by decide,
    INIT_is_shuffled_initial_hash 0 (emptyBlock ++ emptyBlock) [] IV IV (by decide) (by decide)
      (by decide) (by decide)⟩

/-! ## Lane symmetry and the state permutations -/

theorem bytes_swap (in0 in1 in2 in3 : List Nat) (hb : ∀ b ∈ in0 ++ in1 ++ in2 ++ in3, b < 256) :
    ∀ b ∈ in2 ++ in3 ++ in0 ++ in1, b < 256 := by
  intro b h
  apply hb b
  simp only [List.mem_append] at h ⊢
  tauto

/-- C21: the two lanes of `transform_sha256d64_shani_2way` compute the same function: if the
input array `(in0, in1, in2, in3)` gives the outputs `(o0, o1)`, then the input array
`(in2, in3, in0, in1)` gives `(o1, o0)`, and if `in0 = in2` and `in1 = in3` then
`out[0] = out[1]`; stages "Transform 2" and "Transform 3" with their two lanes exchanged
give the exchanged results. -/
theorem d64_2way_lane_swap (in0 in1 in2 in3 out outS : List Nat)
    (h0 : in0.length = 32) (h1 : in1.length = 32) (h2 : in2.length = 32) (h3 : in3.length = 32)
    (hb : ∀ b ∈ in0 ++ in1 ++ in2 ++ in3, b < 256)
    (hout : out.length = 64) (houtS : outS.length = 64) :
    (∃ o0 o1, o0.length = 32 ∧ o1.length = 32 ∧
      (transform_sha256d64_shani_2way out 0 ⟨in0 ++ in1 ++ in2 ++ in3, []⟩).map Prod.fst =
        some (o0 ++ o1) ∧
      (transform_sha256d64_shani_2way outS 0 ⟨in2 ++ in3 ++ in0 ++ in1, []⟩).map Prod.fst =
        some (o1 ++ o0) ∧
      (in0 = in2 → in1 = in3 → o0 = o1)) ∧
    (∀ ast bst : M128 × M128,
      d64Transform2 bst ast = ((d64Transform2 ast bst).2, (d64Transform2 ast bst).1)) ∧
    (∀ ast bst : M128 × M128,
      d64Transform3 bst ast = ((d64Transform3 ast bst).2, (d64Transform3 ast bst).1)) := by
  refine ⟨⟨serialize (dshaState (in0 ++ in1)), serialize (dshaState (in2 ++ in3)),
    serialize_length _, serialize_length _,
    d64_fst in0 in1 in2 in3 out h0 h1 h2 h3 hb hout,
    d64_fst in2 in3 in0 in1 outS h2 h3 h0 h1 (bytes_swap in0 in1 in2 in3 hb) houtS, ?_⟩,
    fun _ _ => rfl, fun _ _ => rfl⟩
  intro e0 e1
  rw [e0, e1]

set_option maxRecDepth 10000 in
theorem d64_2way_lane_swap_witness :
    (List.replicate 32 1).length = 32 ∧ (List.replicate 32 2).length = 32 ∧
    (List.replicate 32 3).length = 32 ∧ (List.replicate 32 4).length = 32 ∧
    (∀ b ∈ List.replicate 32 1 ++ List.replicate 32 2 ++ List.replicate 32 3 ++
      List.replicate 32 4, b < 256) ∧
    (List.replicate 64 0).length = 64 ∧ (List.replicate 64 9).length = 64 ∧
    ((∃ o0 o1, o0.length = 32 ∧ o1.length = 32 ∧
      (transform_sha256d64_shani_2way (List.replicate 64 0) 0
        ⟨List.replicate 32 1 ++ List.replicate 32 2 ++ List.replicate 32 3 ++
          List.replicate 32 4, []⟩).map Prod.fst = some (o0 ++ o1) ∧
      (transform_sha256d64_shani_2way (List.replicate 64 9) 0
        ⟨List.replicate 32 3 ++ List.replicate 32 4 ++ List.replicate 32 1 ++
          List.replicate 32 2, []⟩).map Prod.fst = some (o1 ++ o0) ∧
      (List.replicate 32 1 = List.replicate 32 3 → List.replicate 32 2 = List.replicate 32 4 →
        o0 = o1)) ∧
    (∀ ast bst : M128 × M128,
      d64Transform2 bst ast = ((d64Transform2 ast bst).2, (d64Transform2 ast bst).1)) ∧
    (∀ ast bst : M128 × M128,
      d64Transform3 bst ast = ((d64Transform3 ast bst).2, (d64Transform3 ast bst).1))) :=
  ⟨by decide, by decide, by decide, by decide, by decide, by decide, by decide,
    d64_2way_lane_swap (List.replicate 32 1) (List.replicate 32 2) (List.replicate 32 3)
      (List.replicate 32 4) (List.replicate 64 0) (List.replicate 64 9) (by decide)
      (by decide) (by decide) (by decide) (by decide) (by decide) (by decide)⟩

theorem feed_wf (r H : State) : (feed r H).wf := by
  simp only [feed, State.wf]
  refine ⟨?_, ?_, ?_, ?_, ?_, ?_, ?_, ?_⟩ <;> exact Nat.mod_lt _ (by decide)

theorem Unshuffle_Shuffle (s : M128 × M128) (h1 : s.1.wf) (h2 : s.2.wf) :
    Unshuffle (Shuffle s) = s := by
  obtain ⟨a0, a1, a2, a3⟩ := h1
  obtain ⟨b0, b1, b2, b3⟩ := h2
  rw [Shuffle_eq s ⟨a0, a1, a2, a3⟩ ⟨b0, b1, b2, b3⟩,
    Unshuffle_eq _ ⟨b1, b0, a1, a0⟩ ⟨b3, b2, a3, a2⟩]

theorem Shuffle_Unshuffle (s : M128 × M128) (h1 : s.1.wf) (h2 : s.2.wf) :
    Shuffle (Unshuffle s) = s := by
  obtain ⟨a0, a1, a2, a3⟩ := h1
  obtain ⟨b0, b1, b2, b3⟩ := h2
  rw [Unshuffle_eq s ⟨a0, a1, a2, a3⟩ ⟨b0, b1, b2, b3⟩,
    Shuffle_eq _ ⟨a3, a2, b3, b2⟩ ⟨a1, a0, b1, b0⟩]

theorem addPair_wf (s t : M128 × M128) : (addPair s t).1.wf ∧ (addPair s t).2.wf := by
  simp only [addPair, _mm_add_epi32, M128.wf]
  refine ⟨⟨?_, ?_, ?_, ?_⟩, ⟨?_, ?_, ?_, ?_⟩⟩ <;> exact Nat.mod_lt _ (by decide)

theorem Shuffle_wf (s : M128 × M128) (h1 : s.1.wf) (h2 : s.2.wf) :
    (Shuffle s).1.wf ∧ (Shuffle s).2.wf := by
  obtain ⟨a0, a1, a2, a3⟩ := h1
  obtain ⟨b0, b1, b2, b3⟩ := h2
  rw [Shuffle_eq s ⟨a0, a1, a2, a3⟩ ⟨b0, b1, b2, b3⟩]
  exact ⟨⟨b1, b0, a1, a0⟩, ⟨b3, b2, a3, a2⟩⟩

theorem Shuffle_addPair (s t : M128 × M128) (hs1 : s.1.wf) (hs2 : s.2.wf) (ht1 : t.1.wf)
    (ht2 : t.2.wf) : Shuffle (addPair s t) = addPair (Shuffle s) (Shuffle t) := by
  rw [Shuffle_eq _ (addPair_wf s t).1 (addPair_wf s t).2, Shuffle_eq s hs1 hs2,
    Shuffle_eq t ht1 ht2]
  rfl

theorem Unshuffle_addPair (s t : M128 × M128) (hs1 : s.1.wf) (hs2 : s.2.wf) (ht1 : t.1.wf)
    (ht2 : t.2.wf) : Unshuffle (addPair s t) = addPair (Unshuffle s) (Unshuffle t) := by
  rw [Unshuffle_eq _ (addPair_wf s t).1 (addPair_wf s t).2, Unshuffle_eq s hs1 hs2,
    Unshuffle_eq t ht1 ht2]
  rfl

/-- C22: `Shuffle` and `Unshuffle` are mutually inverse permutations of the eight state words:
on every pair of registers, `Unshuffle(Shuffle(s0, s1)) = (s0, s1)` and
`Shuffle(Unshuffle(s0, s1)) = (s0, s1)`; `Shuffle` maps `(A,B,C,D), (E,F,G,H)` to the lanes
`(F,E,B,A), (H,G,D,C)`; lane-wise addition modulo `2^32` commutes with both, so the
feed-forward done in the shuffled layout, unshuffled, is the feed-forward in canonical word
order. -/
theorem Shuffle_Unshuffle_inverse (s t : M128 × M128) (r H : State) (hs1 : s.1.wf)
    (hs2 : s.2.wf) (ht1 : t.1.wf) (ht2 : t.2.wf) :
    Unshuffle (Shuffle s) = s ∧ Shuffle (Unshuffle s) = s ∧
    Shuffle s = (⟨s.2.l1, s.2.l0, s.1.l1, s.1.l0⟩, ⟨s.2.l3, s.2.l2, s.1.l3, s.1.l2⟩) ∧
    Unshuffle s = (⟨s.1.l3, s.1.l2, s.2.l3, s.2.l2⟩, ⟨s.1.l1, s.1.l0, s.2.l1, s.2.l0⟩) ∧
    Shuffle (addPair s t) = addPair (Shuffle s) (Shuffle t) ∧
    Unshuffle (addPair s t) = addPair (Unshuffle s) (Unshuffle t) ∧
    Unshuffle (addPair (Shuffle s) (Shuffle t)) = addPair s t ∧
    Unshuffle (addPair (layout r) (layout H)) =
      (⟨(r.a + H.a) % 4294967296, (r.b + H.b) % 4294967296, (r.c + H.c) % 4294967296,
        (r.d + H.d) % 4294967296⟩,
       ⟨(r.e + H.e) % 4294967296, (r.f + H.f) % 4294967296, (r.g + H.g) % 4294967296,
        (r.h + H.h) % 4294967296⟩) := by
  refine ⟨Unshuffle_Shuffle s hs1 hs2, Shuffle_Unshuffle s hs1 hs2, Shuffle_eq s hs1 hs2,
    Unshuffle_eq s hs1 hs2, Shuffle_addPair s t hs1 hs2 ht1 ht2,
    Unshuffle_addPair s t hs1 hs2 ht1 ht2, ?_, ?_⟩
  · rw [← Shuffle_addPair s t hs1 hs2 ht1 ht2,
      Unshuffle_Shuffle _ (addPair_wf s t).1 (addPair_wf s t).2]
  · have e : addPair (layout r) (layout H) = layout (feed r H) := rfl
    rw [e, Unshuffle_layout _ (feed_wf r H)]
    rfl

theorem Shuffle_Unshuffle_inverse_witness :
    M128.wf ⟨1, 2, 3, 4⟩ ∧ M128.wf ⟨5, 6, 7, 8⟩ ∧ M128.wf ⟨4294967295, 10, 11, 12⟩ ∧
    M128.wf ⟨13, 14, 15, 4294967295⟩ ∧
    (Unshuffle (Shuffle (⟨1, 2, 3, 4⟩, ⟨5, 6, 7, 8⟩)) = (⟨1, 2, 3, 4⟩, ⟨5, 6, 7, 8⟩) ∧
    Shuffle (Unshuffle (⟨1, 2, 3, 4⟩, ⟨5, 6, 7, 8⟩)) = (⟨1, 2, 3, 4⟩, ⟨5, 6, 7, 8⟩) ∧
    Shuffle ((⟨1, 2, 3, 4⟩, ⟨5, 6, 7, 8⟩) : M128 × M128) =
      (⟨((⟨1, 2, 3, 4⟩, ⟨5, 6, 7, 8⟩) : M128 × M128).2.l1,
        ((⟨1, 2, 3, 4⟩, ⟨5, 6, 7, 8⟩) : M128 × M128).2.l0,
        ((⟨1, 2, 3, 4⟩, ⟨5, 6, 7, 8⟩) : M128 × M128).1.l1,
        ((⟨1, 2, 3, 4⟩, ⟨5, 6, 7, 8⟩) : M128 × M128).1.l0⟩,
       ⟨((⟨1, 2, 3, 4⟩, ⟨5, 6, 7, 8⟩) : M128 × M128).2.l3,
        ((⟨1, 2, 3, 4⟩, ⟨5, 6, 7, 8⟩) : M128 × M128).2.l2,
        ((⟨1, 2, 3, 4⟩, ⟨5, 6, 7, 8⟩) : M128 × M128).1.l3,
        ((⟨1, 2, 3, 4⟩, ⟨5, 6, 7, 8⟩) : M128 × M128).1.l2⟩) ∧
    Unshuffle ((⟨1, 2, 3, 4⟩, ⟨5, 6, 7, 8⟩) : M128 × M128) =
      (⟨((⟨1, 2, 3, 4⟩, ⟨5, 6, 7, 8⟩) : M128 × M128).1.l3,
        ((⟨1, 2, 3, 4⟩, ⟨5, 6, 7, 8⟩) : M128 × M128).1.l2,
        ((⟨1, 2, 3, 4⟩, ⟨5, 6, 7, 8⟩) : M128 × M128).2.l3,
        ((⟨1, 2, 3, 4⟩, ⟨5, 6, 7, 8⟩) : M128 × M128).2.l2⟩,
       ⟨((⟨1, 2, 3, 4⟩, ⟨5, 6, 7, 8⟩) : M128 × M128).1.l1,
        ((⟨1, 2, 3, 4⟩, ⟨5, 6, 7, 8⟩) : M128 × M128).1.l0,
        ((⟨1, 2, 3, 4⟩, ⟨5, 6, 7, 8⟩) : M128 × M128).2.l1,
        ((⟨1, 2, 3, 4⟩, ⟨5, 6, 7, 8⟩) : M128 × M128).2.l0⟩) ∧
    Shuffle (addPair (⟨1, 2, 3, 4⟩, ⟨5, 6, 7, 8⟩)
        (⟨4294967295, 10, 11, 12⟩, ⟨13, 14, 15, 4294967295⟩)) =
      addPair (Shuffle (⟨1, 2, 3, 4⟩, ⟨5, 6, 7, 8⟩))
        (Shuffle (⟨4294967295, 10, 11, 12⟩, ⟨13, 14, 15, 4294967295⟩)) ∧
    Unshuffle (addPair (⟨1, 2, 3, 4⟩, ⟨5, 6, 7, 8⟩)
        (⟨4294967295, 10, 11, 12⟩, ⟨13, 14, 15, 4294967295⟩)) =
      addPair (Unshuffle (⟨1, 2, 3, 4⟩, ⟨5, 6, 7, 8⟩))
        (Unshuffle (⟨4294967295, 10, 11, 12⟩, ⟨13, 14, 15, 4294967295⟩)) ∧
    Unshuffle (addPair (Shuffle (⟨1, 2, 3, 4⟩, ⟨5, 6, 7, 8⟩))
        (Shuffle (⟨4294967295, 10, 11, 12⟩, ⟨13, 14, 15, 4294967295⟩))) =
      addPair (⟨1, 2, 3, 4⟩, ⟨5, 6, 7, 8⟩)
        (⟨4294967295, 10, 11, 12⟩, ⟨13, 14, 15, 4294967295⟩) ∧
    Unshuffle (addPair (layout IV) (layout IV)) =
      (⟨(IV.a + IV.a) % 4294967296, (IV.b + IV.b) % 4294967296, (IV.c + IV.c) % 4294967296,
        (IV.d + IV.d) % 4294967296⟩,
       ⟨(IV.e + IV.e) % 4294967296, (IV.f + IV.f) % 4294967296, (IV.g + IV.g) % 4294967296,
        (IV.h + IV.h) % 4294967296⟩)) :=
  ⟨by decide, by decide, by decide, by decide,
    Shuffle_Unshuffle_inverse (⟨1, 2, 3, 4⟩, ⟨5, 6, 7, 8⟩)
      (⟨4294967295, 10, 11, 12⟩, ⟨13, 14, 15, 4294967295⟩) IV IV (by decide) (by decide)
      (by decide) (by decide)⟩

end LibSha2
